import Mathlib

/-!
Shallow embedding of the skill-execution core of the `glm` phone-agent
repository: condition evaluation (`phone_agent/skills/conditions.py`),
selector resolution (`selector.py`), retry/backoff (`utils.py`,
`runner.py`), the skill runner state machine (`runner.py`), the skill
router (`router.py`), and the COTA planning/recovery/coordination layer
(`cota/system2.py`, `cota/coordinator.py`).

Python values appearing in skill specs (nested dict/list/str/int/bool/None
documents) are modelled by the inductive `PyVal`.  Python dicts are
modelled as insertion-ordered association lists with unique keys (the
CPython dict invariant); machine floats of the source are modelled as
exact rationals.  External libraries (the `re` regex engine, `json` and
`yaml` parsers) are modelled as explicit oracle parameters collected in
`ExtLib`; the device, observation capture and the random generator are
modelled as explicit input streams in `Env`, with the mutable run state
threaded through a `World` record.
-/

namespace GLM

/-- Python values as they occur in skill specification documents. -/
inductive PyVal where
  | none
  | bool (b : Bool)
  | int (n : Int)
  | str (s : String)
  | list (items : List PyVal)
  | dict (fields : List (String × PyVal))

mutual

/-- Decidable equality for `PyVal` (nested inductive, so written by hand). -/
def PyVal.decEq : (a b : PyVal) → Decidable (a = b)
  | .none, .none => isTrue rfl
  | .bool a, .bool b =>
      if h : a = b then isTrue (by rw [h]) else isFalse (by simp [h])
  | .int a, .int b =>
      if h : a = b then isTrue (by rw [h]) else isFalse (by simp [h])
  | .str a, .str b =>
      if h : a = b then isTrue (by rw [h]) else isFalse (by simp [h])
  | .list a, .list b =>
      match PyVal.decEqList a b with
      | isTrue h => isTrue (by rw [h])
      | isFalse h => isFalse (by simp [h])
  | .dict a, .dict b =>
      match PyVal.decEqFields a b with
      | isTrue h => isTrue (by rw [h])
      | isFalse h => isFalse (by simp [h])
  | .none, .bool _ | .none, .int _ | .none, .str _ | .none, .list _ | .none, .dict _
  | .bool _, .none | .bool _, .int _ | .bool _, .str _ | .bool _, .list _ | .bool _, .dict _
  | .int _, .none | .int _, .bool _ | .int _, .str _ | .int _, .list _ | .int _, .dict _
  | .str _, .none | .str _, .bool _ | .str _, .int _ | .str _, .list _ | .str _, .dict _
  | .list _, .none | .list _, .bool _ | .list _, .int _ | .list _, .str _ | .list _, .dict _
  | .dict _, .none | .dict _, .bool _ | .dict _, .int _ | .dict _, .str _ | .dict _, .list _ =>
      isFalse (by simp)

/-- Decidable equality for lists of `PyVal`. -/
def PyVal.decEqList : (a b : List PyVal) → Decidable (a = b)
  | [], [] => isTrue rfl
  | [], _ :: _ => isFalse (by simp)
  | _ :: _, [] => isFalse (by simp)
  | x :: xs, y :: ys =>
      match PyVal.decEq x y, PyVal.decEqList xs ys with
      | isTrue h1, isTrue h2 => isTrue (by rw [h1, h2])
      | isFalse h1, _ => isFalse (by simp [h1])
      | _, isFalse h2 => isFalse (by simp [h2])

/-- Decidable equality for dict field lists. -/
def PyVal.decEqFields : (a b : List (String × PyVal)) → Decidable (a = b)
  | [], [] => isTrue rfl
  | [], _ :: _ => isFalse (by simp)
  | _ :: _, [] => isFalse (by simp)
  | (k1, v1) :: xs, (k2, v2) :: ys =>
      if h0 : k1 = k2 then
        match PyVal.decEq v1 v2, PyVal.decEqFields xs ys with
        | isTrue h1, isTrue h2 => isTrue (by rw [h0, h1, h2])
        | isFalse h1, _ => isFalse (by simp [h1])
        | _, isFalse h2 => isFalse (by simp [h2])
      else isFalse (by simp [h0])

end

instance : DecidableEq PyVal := PyVal.decEq

mutual

/-- Executable structural size of a `PyVal` (used as recursion fuel). -/
def pySize : PyVal → Nat
  | .none => 1
  | .bool _ => 1
  | .int _ => 1
  | .str _ => 1
  | .list items => 1 + pySizeList items
  | .dict fields => 1 + pySizeFields fields

/-- Size of a list of values. -/
def pySizeList : List PyVal → Nat
  | [] => 0
  | v :: rest => 1 + pySize v + pySizeList rest

/-- Size of a dict field list. -/
def pySizeFields : List (String × PyVal) → Nat
  | [] => 0
  | (_, v) :: rest => 1 + pySize v + pySizeFields rest

end

theorem pySize_pos (v : PyVal) : 1 ≤ pySize v := by
  cases v <;> simp [pySize]

theorem pySize_mem_list_lt {items : List PyVal} {c : PyVal} (h : c ∈ items) :
    pySize c < pySize (PyVal.list items) := by
  have : pySize c < 1 + pySizeList items := by
    induction items with
    | nil => cases h
    | cons x rest ih =>
        rcases List.mem_cons.mp h with h | h
        · subst h; simp [pySizeList]; omega
        · have := ih h
          simp [pySizeList]
          omega
  simpa [pySize] using this

theorem pySize_field_val_lt {fields : List (String × PyVal)}
    {kv : String × PyVal} (h : kv ∈ fields) :
    pySize kv.2 < pySize (PyVal.dict fields) := by
  have : pySize kv.2 < 1 + pySizeFields fields := by
    induction fields with
    | nil => cases h
    | cons x rest ih =>
        rcases List.mem_cons.mp h with h | h
        · subst h; obtain ⟨a, b⟩ := kv; simp [pySizeFields]; omega
        · have := ih h
          obtain ⟨a, b⟩ := x
          simp [pySizeFields]
          omega
  simpa [pySize] using this

/-- Association list carrying a Python dict (insertion order preserved). -/
abbrev PyDict := List (String × PyVal)

/-- `key in d` for a Python dict. -/
def hasKey (fields : PyDict) (k : String) : Bool :=
  fields.any (fun kv => kv.1 = k)

/-- `d.get(key)` for a Python dict: first binding of the key. -/
def dGet (fields : PyDict) (k : String) : Option PyVal :=
  (fields.find? (fun kv => kv.1 = k)).map (fun kv => kv.2)

/-- `d.get(key, default)`. -/
def dGetD (fields : PyDict) (k : String) (dflt : PyVal) : PyVal :=
  (dGet fields k).getD dflt

/-- `spec.get(key)` on a value that may not be a dict (returns `none` when
the receiver is not a dict; in CPython a non-dict receiver would raise,
which call sites of this helper never do). -/
def PyVal.get : PyVal → String → Option PyVal
  | .dict fields, k => dGet fields k
  | _, _ => Option.none

/-- `d[key] = v`: replaces the first binding in place or appends,
mirroring CPython's insertion-order semantics. -/
def dSet (fields : PyDict) (k : String) (v : PyVal) : PyDict :=
  match fields with
  | [] => [(k, v)]
  | (k', v') :: rest =>
      if k' = k then (k', v) :: rest else (k', v') :: dSet rest k v

/-- `d.update(other)`. -/
def dUpdate (fields other : PyDict) : PyDict :=
  other.foldl (fun acc kv => dSet acc kv.1 kv.2) fields

/-- `d.setdefault(key, v)`. -/
def dSetdefault (fields : PyDict) (k : String) (v : PyVal) : PyDict :=
  if hasKey fields k then fields else fields ++ [(k, v)]

/-- Python truthiness of a `PyVal`. -/
def pyTruthy : PyVal → Bool
  | .none => false
  | .bool b => b
  | .int n => n != 0
  | .str s => s ≠ ""
  | .list items => !items.isEmpty
  | .dict fields => !fields.isEmpty

/-- `a or b` on Python values (first operand when truthy). -/
def pyOr (a b : PyVal) : PyVal := if pyTruthy a then a else b

/-- `int(v)` on the value shapes reachable in the modelled call sites:
ints are kept, bools become 0/1 (CPython would raise on other shapes,
which validated skill specs do not produce). -/
def pyInt : PyVal → Int
  | .int n => n
  | .bool b => if b then 1 else 0
  | _ => 0

/-- An exact fraction modelling a CPython float value (numerator /
denominator, denominator kept positive by construction).  Exact rational
arithmetic abstracts from IEEE-754 rounding, which none of the modelled
comparisons depend on.  (Mathlib's `Rat` is unusable here: its
arithmetic is `@[irreducible]`, which blocks kernel evaluation.) -/
structure PyFloat where
  num : Int
  den : Int
deriving DecidableEq

/-- The float value of an integer. -/
def PyFloat.ofInt (n : Int) : PyFloat := ⟨n, 1⟩

instance : OfNat PyFloat n := ⟨⟨(n : Int), 1⟩⟩

/-- Float multiplication. -/
def PyFloat.mul (a b : PyFloat) : PyFloat := ⟨a.num * b.num, a.den * b.den⟩

/-- Float addition. -/
def PyFloat.add (a b : PyFloat) : PyFloat :=
  ⟨a.num * b.den + b.num * a.den, a.den * b.den⟩

/-- Float comparison `a <= b` (denominators positive). -/
def PyFloat.le (a b : PyFloat) : Bool := a.num * b.den ≤ b.num * a.den

/-- Float comparison `a < b` (denominators positive). -/
def PyFloat.lt (a b : PyFloat) : Bool := a.num * b.den < b.num * a.den

/-- `a ** n`. -/
def PyFloat.pow (a : PyFloat) : Nat → PyFloat
  | 0 => ⟨1, 1⟩
  | n + 1 => a.mul (a.pow n)

/-- `int(x)` on a float: truncation toward zero. -/
def PyFloat.trunc (q : PyFloat) : Int :=
  if 0 ≤ q.num then q.num.fdiv q.den else -((-q.num).fdiv q.den)

/-- `float(v)` on the value shapes reachable in the modelled call sites. -/
def pyFloatOf : PyVal → PyFloat
  | .int n => ⟨n, 1⟩
  | .bool b => if b then ⟨1, 1⟩ else ⟨0, 1⟩
  | _ => ⟨0, 1⟩

/-- The left-brace character (written via its code point throughout). -/
def lbraceChar : Char := Char.ofNat 123

/-- The right-brace character. -/
def rbraceChar : Char := Char.ofNat 125

/-- The apostrophe character used by Python `repr` on strings. -/
def quoteChar : Char := Char.ofNat 39

/-- Python `str.strip()`: drop whitespace from both ends (implemented on
the character list so it is kernel-computable). -/
def pyStrip (s : String) : String :=
  String.mk ((((s.data.dropWhile Char.isWhitespace).reverse.dropWhile
    Char.isWhitespace)).reverse)

/-- ASCII lowercasing (modelling `str.casefold` / `str.lower` on the
identifiers and UI text the code compares). -/
def pyLower (s : String) : String := String.mk (s.data.map Char.toLower)


mutual

/-- Python `repr(v)` as used for container elements (string escaping inside
`repr` is not modelled beyond plain quoting). -/
def pyRepr : PyVal → String
  | .none => "None"
  | .bool b => if b then "True" else "False"
  | .int n => toString n
  | .str s => quoteChar.toString ++ s ++ quoteChar.toString
  | .list items => "[" ++ String.intercalate ", " (pyReprList items) ++ "]"
  | .dict fields =>
      lbraceChar.toString ++ String.intercalate ", " (pyReprFields fields)
        ++ rbraceChar.toString

/-- `repr` of each list element. -/
def pyReprList : List PyVal → List String
  | [] => []
  | v :: rest => pyRepr v :: pyReprList rest

/-- `repr(k): repr(v)` of each dict entry. -/
def pyReprFields : List (String × PyVal) → List String
  | [] => []
  | (k, v) :: rest =>
      (quoteChar.toString ++ k ++ quoteChar.toString ++ ": " ++ pyRepr v)
        :: pyReprFields rest

end

/-- Python `str(v)` for the value shapes stored in skill variables
(`str` and `repr` only differ on top-level strings). -/
def pyStr : PyVal → String
  | .str s => s
  | v => pyRepr v

/-- A `\w` character of the template regexes in `skills/utils.py`. -/
def isWordChar (c : Char) : Bool := c.isAlphanum || c = '_'

/-- The characters following the leading `\w+` run of a character list. -/
def afterWord (l : List Char) : List Char :=
  l.drop (l.takeWhile isWordChar).length

theorem afterWord_length_le (l : List Char) : (afterWord l).length ≤ l.length := by
  simp [afterWord]

/-- Body of `render_string`: scan the character list, replacing each
non-overlapping occurrence of a doubled-brace placeholder holding a
non-empty `\w+` name by `str(variables[name])` when the name is bound,
exactly as `_TEMPLATE_RE.sub` does (on a failed match the regex engine
advances one character).  The `Nat` argument is a structural-recursion
fuel; each step consumes at least one character, so fuel equal to the
list length always suffices and the fuel-exhausted branch is never
reached from `render_string`. -/
def render_string_go (vars : PyDict) : Nat → List Char → List Char
  | _, [] => []
  | 0, l => l
  | fuel + 1, c1 :: rest =>
      if c1 = lbraceChar then
        match rest with
        | c2 :: rest2 =>
            if c2 = lbraceChar then
              match afterWord rest2 with
              | d1 :: d2 :: rest3 =>
                  let word := rest2.takeWhile isWordChar
                  if d1 = rbraceChar && d2 = rbraceChar && !word.isEmpty then
                    (match dGet vars (String.mk word) with
                      | some v => (pyStr v).data
                      | Option.none =>
                          c1 :: c2 :: word ++ [rbraceChar, rbraceChar])
                      ++ render_string_go vars fuel rest3
                  else c1 :: render_string_go vars fuel (c2 :: rest2)
              | _ => c1 :: render_string_go vars fuel (c2 :: rest2)
            else c1 :: render_string_go vars fuel (c2 :: rest2)
        | [] => [c1]
      else c1 :: render_string_go vars fuel rest

/-- `render_string` from `skills/utils.py`. -/
def render_string (value : String) (vars : PyDict) : String :=
  String.mk (render_string_go vars value.data.length value.data)

/-- Whole-string placeholder test (`_TEMPLATE_LIST_RE.match(value.strip())`):
returns the placeholder name when the stripped string is exactly one
doubled-brace `\w+` placeholder. -/
def wholePlaceholder (value : String) : Option String :=
  match (pyStrip value).data with
  | c1 :: c2 :: rest =>
      if c1 = lbraceChar && c2 = lbraceChar then
        let word := rest.takeWhile isWordChar
        let after := rest.drop word.length
        if !word.isEmpty && after = [rbraceChar, rbraceChar] then
          some (String.mk word)
        else Option.none
      else Option.none
  | _ => Option.none

/-- Rendering of one string (`render_templates`' `isinstance(obj, str)`
branch): a string that is exactly one placeholder bound to a list value
is replaced by that list, any other string goes through `render_string`. -/
def render_template_str (s : String) (vars : PyDict) : PyVal :=
  match wholePlaceholder s with
  | some key =>
      (match dGet vars key with
        | some (.list items) => .list items
        | _ => .str (render_string s vars))
  | Option.none => .str (render_string s vars)

/-- `render_templates` recursion with a structural fuel: strings are
rendered, lists and dict values are rendered recursively, other values
pass through.  Fuel `sizeOf obj` always suffices (children are strictly
smaller), so the fuel-exhausted branch is never reached from
`render_templates`. -/
def renderTemplatesFuel (vars : PyDict) : Nat → PyVal → PyVal
  | 0, obj => obj
  | fuel + 1, obj =>
      match obj with
      | .str s => render_template_str s vars
      | .list items => .list (items.map (renderTemplatesFuel vars fuel))
      | .dict fields =>
          .dict (fields.map (fun kv => (kv.1, renderTemplatesFuel vars fuel kv.2)))
      | other => other

theorem renderTemplatesFuel_congr (vars : PyDict) :
    ∀ f g obj, pySize obj ≤ f → pySize obj ≤ g →
      renderTemplatesFuel vars f obj = renderTemplatesFuel vars g obj := by
  intro f
  induction f with
  | zero =>
      intro g obj h1 _
      exact absurd h1 (by have := pySize_pos obj; omega)
  | succ f ih =>
      intro g obj h1 h2
      match g with
      | 0 => exact absurd h2 (by have := pySize_pos obj; omega)
      | g + 1 =>
          match obj with
          | .none => rfl
          | .bool b => rfl
          | .int n => rfl
          | .str s => rfl
          | .list items =>
              simp only [renderTemplatesFuel]
              congr 1
              apply List.map_congr_left
              intro c hc
              have hlt := pySize_mem_list_lt hc
              exact ih g c (by omega) (by omega)
          | .dict fields =>
              simp only [renderTemplatesFuel]
              congr 1
              apply List.map_congr_left
              intro kv hkv
              have hlt := pySize_field_val_lt hkv
              have := ih g kv.2 (by omega) (by omega)
              rw [this]

/-- `render_templates` from `skills/utils.py`. -/
def render_templates (obj : PyVal) (vars : PyDict) : PyVal :=
  renderTemplatesFuel vars (pySize obj) obj

/-- The defining equation of `render_templates` on a dict: keys are kept,
values are rendered. -/
theorem render_templates_dict (fields : PyDict) (vars : PyDict) :
    render_templates (.dict fields) vars =
      .dict (fields.map (fun kv => (kv.1, render_templates kv.2 vars))) := by
  unfold render_templates
  have hS : pySize (PyVal.dict fields) = pySizeFields fields + 1 := by
    simp [pySize]; omega
  rw [hS]
  simp only [renderTemplatesFuel]
  congr 1
  apply List.map_congr_left
  intro kv hkv
  have hlt := pySize_field_val_lt hkv
  rw [hS] at hlt
  rw [renderTemplatesFuel_congr vars (pySizeFields fields) (pySize kv.2) kv.2
    (by omega) (by omega)]

/-- The defining equation of `render_templates` on a list. -/
theorem render_templates_list (items : List PyVal) (vars : PyDict) :
    render_templates (.list items) vars =
      .list (items.map (fun c => render_templates c vars)) := by
  unfold render_templates
  have hS : pySize (PyVal.list items) = pySizeList items + 1 := by
    simp [pySize]; omega
  rw [hS]
  simp only [renderTemplatesFuel]
  congr 1
  apply List.map_congr_left
  intro c hc
  have hlt := pySize_mem_list_lt hc
  rw [hS] at hlt
  rw [renderTemplatesFuel_congr vars (pySizeList items) (pySize c) c
    (by omega) (by omega)]

/-- Value of a hexadecimal digit, if any (`int(s, 16)` digit set). -/
def hexDigitVal? (c : Char) : Option Nat :=
  if c.isDigit then some (c.toNat - 48)
  else if 97 ≤ c.toNat && c.toNat ≤ 102 then some (c.toNat - 87)
  else if 65 ≤ c.toNat && c.toNat ≤ 70 then some (c.toNat - 55)
  else Option.none

/-- `int(s, 16)` on plain hex-digit strings; `Option.none` models the
`ValueError` raised on an empty or non-hex string. -/
def hexToNat? (s : String) : Option Nat :=
  if s.data.isEmpty then Option.none
  else
    s.data.foldl
      (fun acc c =>
        match acc, hexDigitVal? c with
        | some n, some d => some (n * 16 + d)
        | _, _ => Option.none)
      (some 0)

/-- Number of set bits, with structural fuel (`fuel = n` suffices since
`n / 2` halves). -/
def popCountFuel : Nat → Nat → Nat
  | 0, _ => 0
  | fuel + 1, n => if n = 0 then 0 else n % 2 + popCountFuel fuel (n / 2)

/-- Number of set bits (`int.bit_count`). -/
def popCount (n : Nat) : Nat := popCountFuel n n

/-- `hamming_distance` from `skills/utils.py`; `Option.none` models the
`ValueError` raised on a length mismatch or a non-hex hash string. -/
def hamming_distance (hash_a hash_b : String) : Option Nat :=
  if hash_a.length ≠ hash_b.length then Option.none
  else
    match hexToNat? hash_a, hexToNat? hash_b with
    | some va, some vb => some (popCount (va ^^^ vb))
    | _, _ => Option.none


/-- A UI node (`skills/selector.py`). -/
structure UINode where
  text : String
  resource_id : String
  content_desc : String
  class_name : String
  clickable : Bool
  boundsL : Int
  boundsT : Int
  boundsR : Int
  boundsB : Int
deriving DecidableEq

/-- Python `int(x / 2)` on an integer `x`: float division then truncation
toward zero. -/
def halfTrunc (n : Int) : Int := if 0 ≤ n then n / 2 else -((-n) / 2)

/-- `UINode.center`. -/
def UINode.center (n : UINode) : Int × Int :=
  (halfTrunc (n.boundsL + n.boundsR), halfTrunc (n.boundsT + n.boundsB))

/-- `UINode.area`. -/
def UINode.area (n : UINode) : Int :=
  max 0 (n.boundsR - n.boundsL) * max 0 (n.boundsB - n.boundsT)

/-- A point-in-time observation (`skills/observation.py`), restricted to the
fields the modelled code reads.  `ui_nodes = []` covers both Python `None`
and an empty node list (the code only tests truthiness before use);
`screen_hash = Option.none` is Python `None`. -/
structure Observation where
  app_name : String
  ui_texts : List String
  ui_nodes : List UINode
  screen_hash : Option String
  width : Int
  height : Int
deriving DecidableEq

/-- External-library oracles: the CPython `re` engine and the `json` /
`yaml` document parsers, which the embedded code consumes as black boxes.
`reOk p` is whether `re.compile(p)` succeeds; `reSearch ci p t` is whether
`re.search` (with `re.IGNORECASE` iff `ci`) finds a match; the parsers
return `Option.none` when the library would raise. -/
structure ExtLib where
  reOk : String → Bool
  reSearch : Bool → String → String → Bool
  jsonLoads : String → Option PyVal
  yamlLoad : String → Option PyVal

/-- Substring test (Python `needle in haystack`). -/
def containsSub (haystack needle : String) : Bool :=
  decide (needle.data <:+: haystack.data)

/-- The string carried by a `PyVal`, for call sites where CPython requires
a `str` (other shapes would raise there and are outside the modelled
domain). -/
def asStr : PyVal → String
  | .str s => s
  | _ => ""

/-- `_match_text` from `skills/selector.py`. -/
def match_text (E : ExtLib) (value target mode : String) : Bool :=
  if mode = "exact" then value = target
  else if mode = "contains" then containsSub value target
  else if mode = "regex" then
    if E.reOk target then E.reSearch false target value else false
  else false

/-- `node_matches_selector` from `skills/selector.py` (the selector is a
dict at every call site). -/
def node_matches_selector (E : ExtLib) (node : UINode) (sel : PyDict) : Bool :=
  let match_mode := asStr (dGetD sel "match" (.str "contains"))
  (if pyTruthy (dGetD sel "text" PyVal.none) then
      match_text E node.text (asStr (dGetD sel "text" PyVal.none)) match_mode
    else true) &&
  (if pyTruthy (dGetD sel "content_desc" PyVal.none) then
      match_text E node.content_desc (asStr (dGetD sel "content_desc" PyVal.none)) match_mode
    else true) &&
  (if pyTruthy (dGetD sel "resource_id" PyVal.none) then
      match_text E node.resource_id (asStr (dGetD sel "resource_id" PyVal.none)) match_mode
    else true) &&
  (if pyTruthy (dGetD sel "class_name" PyVal.none) then
      match_text E node.class_name (asStr (dGetD sel "class_name" PyVal.none)) match_mode
    else true) &&
  (if dGet sel "clickable" = some (.bool true) then node.clickable else true)

/-- `find_nodes` from `skills/selector.py`. -/
def find_nodes (E : ExtLib) (nodes : List UINode) (sel : PyDict) : List UINode :=
  nodes.filter (fun node => node_matches_selector E node sel)

/-- Sort key of `pick_best_node` (`(n.clickable, n.area)`). -/
def nodeKey (n : UINode) : Int × Int := ((if n.clickable then 1 else 0), n.area)

/-- Descending-by-key comparison; `sorted(..., reverse=True)` is stable, so
equal keys keep list order, which `List.mergeSort` with a `≥`-style
relation reproduces. -/
def nodeGE (a b : UINode) : Bool :=
  (nodeKey b).1 < (nodeKey a).1 ||
    ((nodeKey a).1 = (nodeKey b).1 && (nodeKey b).2 ≤ (nodeKey a).2)

/-- Stable ordered insert: `x` goes after every already-placed element `y`
with `le y x`. -/
def stableInsert {α : Type} (le : α → α → Bool) (x : α) : List α → List α
  | [] => [x]
  | y :: ys => if le y x then y :: stableInsert le x ys else x :: y :: ys

/-- Stable sort by `le` (`le a b` = "`a` may stay before `b`"), matching
the stability guarantee of CPython's `sorted`. -/
def stableSortBy {α : Type} (le : α → α → Bool) (l : List α) : List α :=
  l.foldl (fun acc x => stableInsert le x acc) []

/-- `pick_best_node` from `skills/selector.py`. -/
def pick_best_node (nodes : List UINode) : Option UINode :=
  match nodes with
  | [] => Option.none
  | _ => (stableSortBy nodeGE nodes).head?

/-- `resolve_selector_to_point` from `skills/selector.py`. -/
def resolve_selector_to_point (E : ExtLib) (nodes : List UINode) (sel : PyDict) :
    Option (Int × Int) :=
  let viaResource : Option (Int × Int) :=
    if pyTruthy (dGetD sel "resource_id" PyVal.none) then
      let found := nodes.filter (fun node =>
        match_text E node.resource_id (asStr (dGetD sel "resource_id" PyVal.none))
          (asStr (dGetD sel "match" (.str "contains"))))
      match pick_best_node found with
      | some best => some best.center
      | Option.none => Option.none
    else Option.none
  match viaResource with
  | some p => some p
  | Option.none =>
      let found := find_nodes E nodes sel
      if found.isEmpty then Option.none
      else
        match dGet sel "index" with
        | some (.int idx) =>
            if h : 0 ≤ idx ∧ idx < found.length then
              some ((found.get ⟨idx.toNat, by omega⟩).center)
            else
              match pick_best_node found with
              | some best => some best.center
              | Option.none => Option.none
        | _ =>
            match pick_best_node found with
            | some best => some best.center
            | Option.none => Option.none

/-- `_normalize_text` from `skills/conditions.py` (`casefold().strip()`). -/
def normalize_text (s : String) : String := pyStrip (pyLower s)

/-- The list of strings a condition leaf iterates over (targets/patterns
are string lists in every validated spec; other shapes raise in CPython
and are outside the modelled domain). -/
def asStrItems : PyVal → List String
  | .list items => items.map asStr
  | _ => []

/-- `_match_text_list`. -/
def match_text_list (texts targets : List String) : Bool :=
  let normalized := texts.map normalize_text
  targets.all (fun target => normalized.contains (normalize_text target))

/-- `_match_text_any`. -/
def match_text_any (texts targets : List String) : Bool :=
  let normalized := texts.map normalize_text
  targets.any (fun target => normalized.contains (normalize_text target))

/-- `_match_text_contains`. -/
def match_text_contains (texts targets : List String) : Bool :=
  let normalized := texts.map normalize_text
  targets.all (fun target => normalized.any (fun t => containsSub t (normalize_text target)))

/-- `_match_text_any_contains`. -/
def match_text_any_contains (texts targets : List String) : Bool :=
  let normalized := texts.map normalize_text
  targets.any (fun target => normalized.any (fun t => containsSub t (normalize_text target)))

/-- `_match_regex_list` (a pattern `re.compile` rejects contributes
`False`, it is not an error). -/
def match_regex_list (E : ExtLib) (texts patterns : List String)
    (require_all : Bool) : Bool :=
  let normalized := texts.map normalize_text
  let results := patterns.map (fun pattern =>
    if E.reOk pattern then normalized.any (fun t => E.reSearch true pattern t)
    else false)
  if require_all then results.all id else results.any id

/-- Children of an `all`/`any` combinator (the bound value is a list in
every well-formed spec; CPython would iterate or raise on other shapes,
which are outside the modelled domain). -/
def condChildren (fields : PyDict) (k : String) : List PyVal :=
  match dGet fields k with
  | some (.list items) => items
  | _ => []

/-- Tri-state combination for `all` (lines 62–67 of conditions.py). -/
def combineAll (results : List (Option Bool)) : Option Bool :=
  if results.any (fun r => r = some false) then some false
  else if results.any (fun r => r = Option.none) then Option.none
  else some true

/-- Tri-state combination for `any` (lines 70–75 of conditions.py). -/
def combineAny (results : List (Option Bool)) : Option Bool :=
  if results.any (fun r => r = some true) then some true
  else if results.all (fun r => r = some false) then some false
  else Option.none

theorem pySize_dGet_lt {fields : PyDict} {k : String} {v : PyVal}
    (h : dGet fields k = some v) : pySize v < pySize (PyVal.dict fields) := by
  unfold dGet at h
  match hf : fields.find? (fun kv => kv.1 = k) with
  | Option.none => rw [hf] at h; exact Option.noConfusion h
  | some kv =>
      rw [hf] at h
      simp only [Option.map_some'] at h
      have hmem : kv ∈ fields := List.mem_of_find?_eq_some hf
      have h1 := pySize_field_val_lt hmem
      have h4 : kv.2 = v := Option.some.inj h
      rw [h4] at h1
      exact h1

theorem pySize_condChildren_lt {fields : PyDict} {k : String} {c : PyVal}
    (h : c ∈ condChildren fields k) : pySize c < pySize (PyVal.dict fields) := by
  unfold condChildren at h
  match hv : dGet fields k with
  | some (.list items) =>
      rw [hv] at h
      have hm : c ∈ items := h
      have h1 := pySize_mem_list_lt hm
      have h3 := pySize_dGet_lt hv
      omega
  | some .none => rw [hv] at h; cases h
  | some (.bool b) => rw [hv] at h; cases h
  | some (.int n) => rw [hv] at h; cases h
  | some (.str s) => rw [hv] at h; cases h
  | some (.dict f) => rw [hv] at h; cases h
  | Option.none => rw [hv] at h; cases h

/-- Whether any text-leaf key is present (line 96 of conditions.py). -/
def hasTextKey (fields : PyDict) : Bool :=
  hasKey fields "text_all" || hasKey fields "text_any" ||
    hasKey fields "text_contains" || hasKey fields "text_any_contains" ||
    hasKey fields "text_regex_any" || hasKey fields "text_regex_all"

/-- The `screen_hash` leaf (lines 123–139 of conditions.py). -/
def screenHashLeaf (fields : PyDict) (obs : Observation) : Option Bool :=
  match obs.screen_hash with
  | Option.none => Option.none
  | some myHash =>
      let expected := dGetD fields "screen_hash" (.dict [])
      let expectedHash : Option String :=
        match expected with
        | .str s => some s
        | .dict ef =>
            (match dGet ef "value" with
              | some (.str s) => some s
              | _ => Option.none)
        | _ => Option.none
      let maxDistance : Int :=
        match expected with
        | .str _ => 0
        | .dict ef => pyInt (dGetD ef "distance" (.int 0))
        | _ => 0
      match expectedHash with
      | Option.none => Option.none
      | some eh =>
          if eh = "" then Option.none
          else
            match hamming_distance myHash eh with
            | Option.none => Option.none
            | some d => some (decide ((d : Int) ≤ maxDistance))

/-- The dict case of `evaluate_condition` (lines 61–141 of
`skills/conditions.py`).  The already-computed recursive evaluations of
the `all` children, the `any` children and the `not` child are passed in
as data (Python evaluates them in the respective branch; passing them as
arguments keeps this body non-recursive). -/
def condDictBody (E : ExtLib) (obs : Observation)
    (allResults anyResults : List (Option Bool))
    (notResult : Option (Option Bool)) (fields : PyDict) : Option Bool :=
  if hasKey fields "all" then combineAll allResults
  else if hasKey fields "any" then combineAny anyResults
  else if hasKey fields "not" then
    match notResult with
    | some r =>
        (match r with
          | Option.none => Option.none
          | some b => some (!b))
    | Option.none => some false
  else if hasKey fields "app_is" then
    match dGetD fields "app_is" PyVal.none with
    | .list items => some (items.contains (.str obs.app_name))
    | expected => some (decide (PyVal.str obs.app_name = expected))
  else if hasKey fields "app_in" then
    match dGetD fields "app_in" PyVal.none with
    | .list items => some (items.contains (.str obs.app_name))
    | _ => some false
  else if hasTextKey fields && obs.ui_texts.isEmpty then Option.none
  else if hasKey fields "text_all" then
    some (match_text_list obs.ui_texts
      (asStrItems (dGetD fields "text_all" (.list []))))
  else if hasKey fields "text_any" then
    some (match_text_any obs.ui_texts
      (asStrItems (dGetD fields "text_any" (.list []))))
  else if hasKey fields "text_contains" then
    some (match_text_contains obs.ui_texts
      (asStrItems (dGetD fields "text_contains" (.list []))))
  else if hasKey fields "text_any_contains" then
    some (match_text_any_contains obs.ui_texts
      (asStrItems (dGetD fields "text_any_contains" (.list []))))
  else if hasKey fields "text_regex_all" then
    some (match_regex_list E obs.ui_texts
      (asStrItems (dGetD fields "text_regex_all" (.list []))) true)
  else if hasKey fields "text_regex_any" then
    some (match_regex_list E obs.ui_texts
      (asStrItems (dGetD fields "text_regex_any" (.list []))) false)
  else if hasKey fields "selector" then
    if obs.ui_nodes.isEmpty then Option.none
    else
      some (!(find_nodes E obs.ui_nodes
        (match dGetD fields "selector" PyVal.none with
          | .dict sf => sf
          | _ => [])).isEmpty)
  else if hasKey fields "screen_hash" then
    screenHashLeaf fields obs
  else Option.none

/-- `evaluate_condition` recursion with a structural fuel (children are
strictly `pySize`-smaller, so fuel `pySize spec` always suffices and the
fuel-exhausted branch is never reached from `evaluate_condition`). -/
def evalCondFuel (E : ExtLib) (obs : Observation) : Nat → PyVal → Option Bool
  | 0, _ => Option.none
  | fuel + 1, spec =>
      match spec with
      | .none => some true
      | .dict fields =>
          condDictBody E obs
            ((condChildren fields "all").map (evalCondFuel E obs fuel))
            ((condChildren fields "any").map (evalCondFuel E obs fuel))
            ((dGet fields "not").map (evalCondFuel E obs fuel))
            fields
      | _ => Option.none

theorem evalCondFuel_congr (E : ExtLib) (obs : Observation) :
    ∀ f g spec, pySize spec ≤ f → pySize spec ≤ g →
      evalCondFuel E obs f spec = evalCondFuel E obs g spec := by
  intro f
  induction f with
  | zero =>
      intro g spec h1 _
      exact absurd h1 (by have := pySize_pos spec; omega)
  | succ f ih =>
      intro g spec h1 h2
      match g with
      | 0 => exact absurd h2 (by have := pySize_pos spec; omega)
      | g + 1 =>
          match spec with
          | .none => rfl
          | .bool b => rfl
          | .int n => rfl
          | .str s => rfl
          | .list items => rfl
          | .dict fields =>
              simp only [evalCondFuel]
              have hall : (condChildren fields "all").map (evalCondFuel E obs f)
                  = (condChildren fields "all").map (evalCondFuel E obs g) := by
                apply List.map_congr_left
                intro c hc
                have hlt := pySize_condChildren_lt hc
                exact ih g c (by omega) (by omega)
              have hany : (condChildren fields "any").map (evalCondFuel E obs f)
                  = (condChildren fields "any").map (evalCondFuel E obs g) := by
                apply List.map_congr_left
                intro c hc
                have hlt := pySize_condChildren_lt hc
                exact ih g c (by omega) (by omega)
              have hnot : (dGet fields "not").map (evalCondFuel E obs f)
                  = (dGet fields "not").map (evalCondFuel E obs g) := by
                cases hv : dGet fields "not" with
                | none => rfl
                | some sub =>
                    have hlt := pySize_dGet_lt hv
                    simp only [Option.map_some']
                    rw [ih g sub (by omega) (by omega)]
              rw [hall, hany, hnot]

/-- `evaluate_condition` from `skills/conditions.py`.  `some true` /
`some false` / `Option.none` are the tri-state `True` / `False` / `None`.
(`condDictBody` holds the dict case; the fuel is a termination device,
see `evaluate_condition_dict` for the defining equation.) -/
def evaluate_condition (E : ExtLib) (spec : PyVal) (obs : Observation) :
    Option Bool :=
  evalCondFuel E obs (pySize spec) spec

/-- The defining equation of `evaluate_condition` on a dict spec. -/
theorem evaluate_condition_dict (E : ExtLib) (fields : PyDict)
    (obs : Observation) :
    evaluate_condition E (.dict fields) obs =
      condDictBody E obs
        ((condChildren fields "all").map (fun c => evaluate_condition E c obs))
        ((condChildren fields "any").map (fun c => evaluate_condition E c obs))
        ((dGet fields "not").map (fun c => evaluate_condition E c obs))
        fields := by
  unfold evaluate_condition
  have hS : pySize (PyVal.dict fields) = pySizeFields fields + 1 := by
    simp [pySize]; omega
  rw [hS]
  simp only [evalCondFuel]
  have hb : ∀ c : PyVal, pySize c < pySize (PyVal.dict fields) →
      evalCondFuel E obs (pySizeFields fields) c
        = evalCondFuel E obs (pySize c) c := by
    intro c hlt
    rw [hS] at hlt
    exact evalCondFuel_congr E obs (pySizeFields fields) (pySize c) c
      (by omega) (by omega)
  have hall : (condChildren fields "all").map
        (evalCondFuel E obs (pySizeFields fields))
      = (condChildren fields "all").map (fun c => evalCondFuel E obs (pySize c) c) := by
    apply List.map_congr_left
    intro c hc
    exact hb c (pySize_condChildren_lt hc)
  have hany : (condChildren fields "any").map
        (evalCondFuel E obs (pySizeFields fields))
      = (condChildren fields "any").map (fun c => evalCondFuel E obs (pySize c) c) := by
    apply List.map_congr_left
    intro c hc
    exact hb c (pySize_condChildren_lt hc)
  have hnot : (dGet fields "not").map (evalCondFuel E obs (pySizeFields fields))
      = (dGet fields "not").map (fun c => evalCondFuel E obs (pySize c) c) := by
    cases hv : dGet fields "not" with
    | none => rfl
    | some sub =>
        simp only [Option.map_some']
        rw [hb sub (pySize_dGet_lt hv)]
  rw [hall, hany, hnot]

/-- `evaluate_condition` on Python `None`. -/
theorem evaluate_condition_pynone (E : ExtLib) (obs : Observation) :
    evaluate_condition E .none obs = some true := rfl

/-- `evaluate_condition` on a non-dict, non-`None` spec is unknown. -/
theorem evaluate_condition_nondict (E : ExtLib) (obs : Observation)
    (v : PyVal) (h : ∀ fields, v ≠ .dict fields) (h2 : v ≠ .none) :
    evaluate_condition E v obs = Option.none := by
  obtain ⟨f, hf⟩ : ∃ f, pySize v = f + 1 := by
    have := pySize_pos v
    exact ⟨pySize v - 1, by omega⟩
  unfold evaluate_condition
  rw [hf]
  match v with
  | .none => exact absurd rfl h2
  | .dict fields => exact absurd rfl (h fields)
  | .bool b => rfl
  | .int n => rfl
  | .str s => rfl
  | .list items => rfl

/-- `evaluate_condition` on `{"all": [A, B]}` combines the children with
`combineAll`. -/
theorem eval_all_pair (E : ExtLib) (A B : PyVal) (obs : Observation) :
    evaluate_condition E (.dict [("all", .list [A, B])]) obs
      = combineAll [evaluate_condition E A obs, evaluate_condition E B obs] := by
  rw [evaluate_condition_dict]
  rfl

/-- `evaluate_condition` on `{"any": [A, B]}` combines the children with
`combineAny`. -/
theorem eval_any_pair (E : ExtLib) (A B : PyVal) (obs : Observation) :
    evaluate_condition E (.dict [("any", .list [A, B])]) obs
      = combineAny [evaluate_condition E A obs, evaluate_condition E B obs] := by
  rw [evaluate_condition_dict]
  rfl

/-- `evaluate_condition` on `{"not": A}` inverts a decided child result
and propagates unknown. -/
theorem eval_not_single (E : ExtLib) (A : PyVal) (obs : Observation) :
    evaluate_condition E (.dict [("not", A)]) obs
      = (evaluate_condition E A obs).map (fun b => !b) := by
  rw [evaluate_condition_dict]
  have h : (dGet [("not", A)] "not").map (fun c => evaluate_condition E c obs)
      = some (evaluate_condition E A obs) := rfl
  rw [h]
  generalize evaluate_condition E A obs = r
  cases r <;> rfl

/-- C2: for every pair of child conditions `A`, `B` and every observation,
`evaluate_condition` on `{"all": [A, B]}` is false iff some child is
false, unknown iff no child is false and some child is unknown, true
otherwise; on `{"any": [A, B]}` it is true iff some child is true, false
iff both children are false, else unknown; on `{"not": A}` it inverts a
decided result and propagates unknown.  The child results range over the
full tri-state, so this covers all 9 combinations for `all`/`any` and
all 3 for `not`. -/
theorem claim_C2_condition_combinators (E : ExtLib) (A B : PyVal)
    (obs : Observation) :
    (evaluate_condition E (.dict [("all", .list [A, B])]) obs = some false ↔
      (evaluate_condition E A obs = some false ∨
        evaluate_condition E B obs = some false)) ∧
    (evaluate_condition E (.dict [("all", .list [A, B])]) obs = Option.none ↔
      (evaluate_condition E A obs ≠ some false ∧
        evaluate_condition E B obs ≠ some false ∧
        (evaluate_condition E A obs = Option.none ∨
          evaluate_condition E B obs = Option.none))) ∧
    (evaluate_condition E (.dict [("all", .list [A, B])]) obs = some true ↔
      (evaluate_condition E A obs ≠ some false ∧
        evaluate_condition E B obs ≠ some false ∧
        evaluate_condition E A obs ≠ Option.none ∧
        evaluate_condition E B obs ≠ Option.none)) ∧
    (evaluate_condition E (.dict [("any", .list [A, B])]) obs = some true ↔
      (evaluate_condition E A obs = some true ∨
        evaluate_condition E B obs = some true)) ∧
    (evaluate_condition E (.dict [("any", .list [A, B])]) obs = some false ↔
      (evaluate_condition E A obs = some false ∧
        evaluate_condition E B obs = some false)) ∧
    (evaluate_condition E (.dict [("any", .list [A, B])]) obs = Option.none ↔
      (¬(evaluate_condition E A obs = some true ∨
          evaluate_condition E B obs = some true) ∧
        ¬(evaluate_condition E A obs = some false ∧
          evaluate_condition E B obs = some false))) ∧
    evaluate_condition E (.dict [("not", A)]) obs
      = (evaluate_condition E A obs).map (fun b => !b) := by
  rw [eval_all_pair, eval_any_pair, eval_not_single]
  generalize evaluate_condition E A obs = ra
  generalize evaluate_condition E B obs = rb
  revert ra rb
  decide

/-- A condition spec that is neither a map nor Python `None`. -/
def isNonMapSpec : PyVal → Bool
  | .dict _ => false
  | .none => false
  | _ => true

/-- C10: at the public condition interface, for every observation: an
absent (`None`) spec evaluates true, a non-map spec evaluates unknown,
the empty conjunction evaluates true and the empty disjunction evaluates
false. -/
theorem claim_C10_condition_edge_cases (E : ExtLib) (obs : Observation) :
    evaluate_condition E PyVal.none obs = some true ∧
    (∀ v, isNonMapSpec v = true → evaluate_condition E v obs = Option.none) ∧
    evaluate_condition E (.dict [("all", .list [])]) obs = some true ∧
    evaluate_condition E (.dict [("any", .list [])]) obs = some false := by
  refine ⟨rfl, ?_, rfl, rfl⟩
  intro v hv
  apply evaluate_condition_nondict
  · intro fields hf
    rw [hf] at hv
    exact Bool.noConfusion hv
  · intro hf
    rw [hf] at hv
    exact Bool.noConfusion hv

/-- A no-op external-library oracle used for concrete witnesses. -/
def testExt : ExtLib :=
  ⟨fun _ => false, fun _ _ _ => false, fun _ => Option.none, fun _ => Option.none⟩

/-- A concrete observation used for witnesses. -/
def testObs : Observation := ⟨"home", [], [], Option.none, 100, 200⟩

/-- Witness for C10 at a concrete non-map spec. -/
theorem claim_C10_condition_edge_cases_witness :
    isNonMapSpec (.str "x") = true ∧
      evaluate_condition testExt (.str "x") testObs = Option.none :=
  ⟨by decide,
    (claim_C10_condition_edge_cases testExt testObs).2.1 (.str "x") (by decide)⟩


/-- The closed error-code taxonomy (`skills/errors.py`). -/
inductive SkillErrorCode where
  | PRECONDITION_FAILED
  | PRECONDITION_UNKNOWN
  | SCREEN_MISMATCH
  | TARGET_NOT_FOUND
  | ACTION_FAILED
  | ACTION_EXCEPTION
  | POSTCONDITION_FAILED
  | TIMEOUT
  | DEVICE_ERROR
  | ERROR_SCREEN_DETECTED
  | HANDLER_FAILED
  | ABORTED
  | UNKNOWN
deriving DecidableEq

/-- `SkillErrorCode.value` — the enum's string value. -/
def SkillErrorCode.value : SkillErrorCode → String
  | .PRECONDITION_FAILED => "PRECONDITION_FAILED"
  | .PRECONDITION_UNKNOWN => "PRECONDITION_UNKNOWN"
  | .SCREEN_MISMATCH => "SCREEN_MISMATCH"
  | .TARGET_NOT_FOUND => "TARGET_NOT_FOUND"
  | .ACTION_FAILED => "ACTION_FAILED"
  | .ACTION_EXCEPTION => "ACTION_EXCEPTION"
  | .POSTCONDITION_FAILED => "POSTCONDITION_FAILED"
  | .TIMEOUT => "TIMEOUT"
  | .DEVICE_ERROR => "DEVICE_ERROR"
  | .ERROR_SCREEN_DETECTED => "ERROR_SCREEN_DETECTED"
  | .HANDLER_FAILED => "HANDLER_FAILED"
  | .ABORTED => "ABORTED"
  | .UNKNOWN => "UNKNOWN"

/-- `SkillError` (`skills/errors.py`).  `details = []` models Python
`details=None`; the carried exception object is not modelled (only its
message string reaches any observable path). -/
structure SkillError where
  code : SkillErrorCode
  message : String
  stage : String
  step_id : Option String := Option.none
  error_id : Option String := Option.none
  attempt : Option Int := Option.none
  details : PyDict := []
  requires_takeover : Bool := false
deriving DecidableEq

/-- `SkillError.with_details`: a copy with merged detail fields. -/
def SkillError.with_details (e : SkillError) (kwargs : PyDict) : SkillError :=
  { e with details := dUpdate e.details kwargs }

/-- `RetryPolicy` (`skills/runner.py`).  `backoff_multiplier` is a Python
float, modelled as an exact rational. -/
structure RetryPolicy where
  max_attempts : Int := 1
  backoff_ms : Int := 0
  backoff_multiplier : PyFloat := ⟨1, 1⟩
  max_backoff_ms : Int := 0
  jitter_ms : Int := 0
  on_codes : Option (List String) := Option.none
deriving DecidableEq

/-- An int-valued field with a fallback (`int(spec.get(k, fallback))`). -/
def getIntField (fields : PyDict) (k : String) (fallback : Int) : Int :=
  match dGet fields k with
  | some v => pyInt v
  | Option.none => fallback

/-- A float-valued field with a fallback. -/
def getFloatField (fields : PyDict) (k : String) (fallback : PyFloat) : PyFloat :=
  match dGet fields k with
  | some v => pyFloatOf v
  | Option.none => fallback

/-- The `on_codes` field (`spec.get("on_codes", fallback.on_codes)`): a
list of code strings, or Python `None`. -/
def getCodesField (fields : PyDict) (k : String)
    (fallback : Option (List String)) : Option (List String) :=
  match dGet fields k with
  | some (.list items) => some (items.map asStr)
  | some _ => Option.none
  | Option.none => fallback

/-- `SkillRunner._parse_retry_policy`: a falsy spec yields the fallback,
otherwise each field is read with the fallback as default. -/
def parse_retry_policy (spec : Option PyVal) (fallback : RetryPolicy) :
    RetryPolicy :=
  match spec with
  | Option.none => fallback
  | some v =>
      if !pyTruthy v then fallback
      else
        match v with
        | .dict f =>
            { max_attempts := getIntField f "max_attempts" fallback.max_attempts
              backoff_ms := getIntField f "backoff_ms" fallback.backoff_ms
              backoff_multiplier :=
                getFloatField f "backoff_multiplier" fallback.backoff_multiplier
              max_backoff_ms := getIntField f "max_backoff_ms" fallback.max_backoff_ms
              jitter_ms := getIntField f "jitter_ms" fallback.jitter_ms
              on_codes := getCodesField f "on_codes" fallback.on_codes }
        | _ => fallback

/-- The delay computed by `sleep_with_backoff` (`skills/utils.py`):
`min(int(base_ms * multiplier ** max(0, attempt - 1)), max_ms)`, plus the
`random.randint(0, jitter_ms)` draw when `jitter_ms > 0`.  The draw is
supplied by the caller (from the random stream). -/
def sleep_with_backoff_delay (attempt : Int) (base_ms : Int)
    (multiplier : PyFloat) (max_ms : Int) (jitter_ms : Int) (draw : Int) : Int :=
  let delay := min (PyFloat.trunc ((PyFloat.ofInt base_ms).mul
    (multiplier.pow (max 0 (attempt - 1)).toNat))) max_ms
  if jitter_ms > 0 then delay + draw else delay

/-- `SkillRunner._backoff`: no sleep at all when `backoff_ms <= 0`;
otherwise the slept delay, with `max_ms = max_backoff_ms or backoff_ms`
(Python `or`: `backoff_ms` is used exactly when `max_backoff_ms` is 0). -/
def backoff_delay (p : RetryPolicy) (attempt : Int) (draw : Int) : Option Int :=
  if p.backoff_ms ≤ 0 then Option.none
  else some (sleep_with_backoff_delay attempt p.backoff_ms p.backoff_multiplier
    (if p.max_backoff_ms = 0 then p.backoff_ms else p.max_backoff_ms)
    p.jitter_ms draw)

/-- `SkillRunner._should_retry`. -/
def should_retry (errorCodeVal : String) (p : RetryPolicy) (attempt : Int) :
    Bool :=
  if attempt ≥ p.max_attempts then false
  else
    match p.on_codes with
    | Option.none => true
    | some codes => codes.contains errorCodeVal


/-- Nearest integer to `num / den` with ties to even (`den > 0`),
modelling the rounding of Python's `f"{x:.1f}"` on exactly representable
values. -/
def roundTiesEven (num den : Int) : Int :=
  let q := num.fdiv den
  let r := num - q * den
  if 2 * r < den then q
  else if 2 * r > den then q + 1
  else if q % 2 = 0 then q else q + 1

/-- `t` tenths rendered as a one-decimal string (`f"{ms / 1000:.1f}"`). -/
def formatTenths (t : Int) : String :=
  (if t < 0 then "-" else "") ++ toString (t.natAbs / 10) ++ "." ++
    toString (t.natAbs % 10)

/-- The outcome of one `action_handler.execute` device call: a result
object with a success flag, or a raised exception. -/
inductive ExecResult where
  | ok (success : Bool)
  | raised (msg : String)
deriving DecidableEq

/-- Ghost trace of externally visible runner effects. -/
inductive Event where
  | captureEv
  | execEv (action : PyVal)
  | sleepEv (ms : Int)
deriving DecidableEq

/-- The runner's environment: external-library oracles, the (read-only)
file system, and the response streams of the observer, the device and
the random generator, indexed by call count. -/
structure Env where
  ext : ExtLib
  fs : String → Option String
  obsAt : Nat → Observation
  execAt : Nat → PyVal → ExecResult
  drawAt : Nat → Int

/-- Mutable run state threaded through the runner: call counters, a clock
in milliseconds, and the ghost event trace. -/
structure World where
  captures : Nat := 0
  execs : Nat := 0
  draws : Nat := 0
  clockMs : Nat := 0
  trace : List Event := []
deriving DecidableEq

/-- `observer.capture()` (capture failures — e.g. playback exhaustion —
are outside the modelled scope; the stream is total). -/
def capture (env : Env) (w : World) : World × Observation :=
  ({ w with
      captures := w.captures + 1
      trace := w.trace ++ [.captureEv] },
    env.obsAt w.captures)

/-- `action_handler.execute(action, ...)`. -/
def execAction (env : Env) (w : World) (action : PyVal) : World × ExecResult :=
  ({ w with
      execs := w.execs + 1
      trace := w.trace ++ [.execEv action] },
    env.execAt w.execs action)

/-- `time.sleep(ms / 1000)`: the clock advances by at least one
millisecond (real sleeping takes time; this also makes the condition
polling loop terminate, as it does on a real clock). -/
def sleepMs (w : World) (ms : Int) : World :=
  { w with
    clockMs := w.clockMs + (max 1 ms).toNat
    trace := w.trace ++ [.sleepEv ms] }

/-- The jitter draw `random.randint(0, jitter_ms)`: the raw stream value
confined to the interval CPython guarantees. -/
def clampDraw (raw jitter : Int) : Int :=
  if jitter > 0 then raw % (jitter + 1) else 0

/-- `_backoff` + `sleep_with_backoff` with the world threaded through:
consumes one random draw when jitter applies and sleeps the computed
delay. -/
def do_backoff (env : Env) (w : World) (attempt : Int) (p : RetryPolicy) :
    World :=
  if p.backoff_ms ≤ 0 then w
  else
    let pair : World × Int :=
      if p.jitter_ms > 0 then
        ({ w with draws := w.draws + 1 },
          clampDraw (env.drawAt w.draws) p.jitter_ms)
      else (w, 0)
    match backoff_delay p attempt pair.2 with
    | some d => sleepMs pair.1 d
    | Option.none => pair.1

/-- `step.get("id")` as the optional step-id string. -/
def stepIdOf (step : PyDict) : Option String :=
  match dGet step "id" with
  | some (.str s) => some s
  | _ => Option.none

/-- `SkillRunner._relative_to_absolute`: 0–1000-space coordinates scaled
to pixels (`int(c / 1000 * width)`). -/
def relative_to_absolute (cx cy : PyVal) (obs : Observation) : Int × Int :=
  (PyFloat.trunc ⟨(pyFloatOf cx).num * obs.width, (pyFloatOf cx).den * 1000⟩,
    PyFloat.trunc ⟨(pyFloatOf cy).num * obs.height, (pyFloatOf cy).den * 1000⟩)

/-- `SkillRunner._absolute_to_relative` (`int(p / width * 1000)`). -/
def absolute_to_relative (p : Int × Int) (obs : Observation) : PyVal :=
  .list [.int (PyFloat.trunc ⟨p.1 * 1000, obs.width⟩),
    .int (PyFloat.trunc ⟨p.2 * 1000, obs.height⟩)]

/-- The selector dict of a `selector` field (every validated spec carries
a dict there; CPython raises on other shapes). -/
def asSelDict : PyVal → PyDict
  | .dict f => f
  | _ => []

/-- `SkillRunner._resolve_target` (`skills/runner.py` lines 717–762). -/
def resolve_target (E : ExtLib) (target : Option PyVal) (obs : Observation) :
    Option (Int × Int) :=
  match target with
  | Option.none => Option.none
  | some (.none) => Option.none
  | some (.list [cx, cy]) => some (relative_to_absolute cx cy obs)
  | some (.list _) => Option.none
  | some (.dict t) =>
      let targetType := asStr (dGetD t "type" (.str "coords"))
      let basePoint : Option (Int × Int) :=
        if targetType = "coords" then
          let coords := pyOr (dGetD t "coords" .none) (dGetD t "point" .none)
          match coords with
          | .list [cx, cy] =>
              let coordsType := asStr (dGetD t "coords_type" (.str "relative"))
              if coordsType = "absolute" then some (pyInt cx, pyInt cy)
              else if coordsType = "percent" then
                some (PyFloat.trunc ⟨(pyFloatOf cx).num * obs.width,
                    (pyFloatOf cx).den⟩,
                  PyFloat.trunc ⟨(pyFloatOf cy).num * obs.height,
                    (pyFloatOf cy).den⟩)
              else some (relative_to_absolute cx cy obs)
          | _ => Option.none
        else if targetType = "selector" then
          let selector := dGetD t "selector" .none
          if !pyTruthy selector then Option.none
          else if obs.ui_nodes.isEmpty then Option.none
          else resolve_selector_to_point E obs.ui_nodes (asSelDict selector)
        else if targetType = "bounds" then
          match dGetD t "bounds" .none with
          | .list [l, tp, r, b] =>
              some (halfTrunc (pyInt l + pyInt r), halfTrunc (pyInt tp + pyInt b))
          | _ => Option.none
        else Option.none
      match basePoint with
      | Option.none => Option.none
      | some p =>
          match dGetD t "offset" .none with
          | .list [ox, oy] => some (p.1 + pyInt ox, p.2 + pyInt oy)
          | _ => some p
  | some _ => Option.none

/-- `SkillRunner._build_action` (`skills/runner.py` lines 651–715):
either the action dict handed to the device, or the raised `SkillError`. -/
def build_action (E : ExtLib) (step : PyDict) (obs : Observation) :
    Except SkillError PyVal :=
  let nameVal := dGetD step "action" .none
  if !pyTruthy nameVal then
    .error {
      code := .UNKNOWN
      message := "Missing action"
      stage := "build_action"
      step_id := stepIdOf step }
  else
    let action_name := asStr nameVal
    let base : PyDict := [("_metadata", .str "do"), ("action", .str action_name)]
    let withConfirm : PyDict → PyDict := fun a =>
      if pyTruthy (dGetD step "confirm" .none) &&
          (action_name = "Tap" || action_name = "Double Tap" ||
            action_name = "Long Press") then
        dSet a "message" (dGetD step "confirm" .none)
      else a
    if action_name = "Tap" || action_name = "Double Tap" ||
        action_name = "Long Press" then
      match resolve_target E (dGet step "target") obs with
      | Option.none =>
          .error {
            code := .TARGET_NOT_FOUND
            message := "Target not found"
            stage := "target"
            step_id := stepIdOf step }
      | some p => .ok (.dict (withConfirm
          (dSet base "element" (absolute_to_relative p obs))))
    else if action_name = "Swipe" then
      match resolve_target E (dGet step "start") obs,
          resolve_target E (dGet step "end") obs with
      | some ps, some pe =>
          .ok (.dict (withConfirm (dSet
            (dSet base "start" (absolute_to_relative ps obs))
            "end" (absolute_to_relative pe obs))))
      | _, _ =>
          .error {
            code := .TARGET_NOT_FOUND
            message := "Swipe target not found"
            stage := "target"
            step_id := stepIdOf step }
    else if action_name = "Type" || action_name = "Type_Name" then
      .ok (.dict (dSet base "text" (dGetD step "text" (.str ""))))
    else if action_name = "Launch" then
      .ok (.dict (dSet base "app" (dGetD step "app" .none)))
    else if action_name = "Wait" then
      match dGet step "duration_ms" with
      | some (.int ms) =>
          .ok (.dict (dSet base "duration"
            (.str (formatTenths (roundTiesEven ms 100) ++ " seconds"))))
      | _ =>
          .ok (.dict (dSet base "duration" (dGetD step "duration" (.str "1 seconds"))))
    else if action_name = "Back" || action_name = "Home" ||
        action_name = "Take_over" || action_name = "Note" ||
        action_name = "Call_API" || action_name = "Interact" then
      if action_name = "Take_over" then
        .ok (.dict (dSet base "message"
          (dGetD step "message" (.str "User intervention required"))))
      else .ok (.dict base)
    else
      .error {
        code := .UNKNOWN
        message := "Unsupported action: " ++ action_name
        stage := "build_action"
        step_id := stepIdOf step }


/-- `SkillRunnerConfig`, restricted to the fields the modelled logic
reads (observer construction — record/playback/OCR — and logging
verbosity live outside the modelled scope). -/
structure SkillRunnerConfig where
  strict_preconditions : Bool := true
  strict_postconditions : Bool := true
  default_retry : RetryPolicy := {}
  max_handler_cycles : Int := 3
  dry_run : Bool := false
  common_error_handlers_path : Option String := Option.none
  common_error_handlers : Option (List PyVal) := Option.none

/-- `HandlerOutcome` (`skills/runner.py`). -/
structure HandlerOutcome where
  resolution : String
  retry_policy : Option RetryPolicy := Option.none
  error : Option SkillError := Option.none
deriving DecidableEq

/-- The list elements of a spec field that CPython would iterate as a
list (other shapes raise at these call sites and are outside the
modelled domain). -/
def asList : PyVal → List PyVal
  | .list items => items
  | _ => []

/-- The dict entries of a handler/step list, keeping the dicts (non-dict
entries raise at `h.get(...)` in CPython and are outside the modelled
domain). -/
def asDicts (v : PyVal) : List PyDict :=
  (asList v).filterMap (fun it =>
    match it with
    | .dict f => some f
    | _ => Option.none)

/-- One iteration decision of the `_check_condition_block` polling loop. -/
inductive PollDecision where
  | stop (result : Option Bool)
  | poll
deriving DecidableEq

/-- The body of `_check_condition_block`'s `while True` loop, for one
already-captured observation: either the returned tri-state or the
decision to sleep and re-capture. -/
def checkCondOnce (E : ExtLib) (condition : PyVal) (obs : Observation)
    (hasDeadline : Bool) (deadlineHit : Bool) (bestEffort strict : Bool) :
    PollDecision :=
  let result := evaluate_condition E condition obs
  if result = some true then .stop (some true)
  else if result = some false && (!hasDeadline || deadlineHit) then
    .stop (some false)
  else if result = Option.none && bestEffort then .stop (some true)
  else if result = Option.none && (!hasDeadline || deadlineHit) then
    .stop (if strict then Option.none else some true)
  else if !hasDeadline then .stop result
  else .poll

/-- The polling loop of `_check_condition_block`: sleep `pollMs`,
re-capture, re-evaluate until decided or the deadline passes.  The fuel
is a termination device only: each iteration advances the clock by at
least 1 ms, so fuel `timeout + 2` is never exhausted. -/
def checkCondLoop (env : Env) (condition : PyVal) (deadline : Option Int)
    (pollMs : Int) (bestEffort strict : Bool) :
    Nat → World → Observation → World × Option Bool × Observation
  | 0, w, obs => (w, Option.none, obs)
  | fuel + 1, w, obs =>
      let hasDeadline := deadline.isSome
      let deadlineHit := match deadline with
        | some dl => decide ((w.clockMs : Int) ≥ dl)
        | Option.none => false
      match checkCondOnce env.ext condition obs hasDeadline deadlineHit
          bestEffort strict with
      | .stop r => (w, r, obs)
      | .poll =>
          let w' := sleepMs w pollMs
          let pair := capture env w'
          checkCondLoop env condition deadline pollMs bestEffort strict
            fuel pair.1 pair.2

/-- `SkillRunner._check_condition_block` (`skills/runner.py` lines
776–812); the unused `stage` argument (logging only) is dropped. -/
def check_condition_block (env : Env) (block : Option PyVal)
    (obs : Observation) (strict : Bool) (w : World) :
    World × Option Bool × Observation :=
  match block with
  | Option.none => (w, some true, obs)
  | some blockVal =>
      let hasCondKey := match blockVal with
        | .dict f => hasKey f "condition"
        | _ => false
      let condition := if hasCondKey then (blockVal.get "condition").getD .none
        else blockVal
      let timeout_ms : Int := if hasCondKey then
          pyInt ((blockVal.get "timeout_ms").getD (.int 0))
        else 0
      let poll_interval_ms : Int := if hasCondKey then
          pyInt ((blockVal.get "poll_interval_ms").getD (.int 500))
        else 500
      let bestEffort := if hasCondKey then
          decide ((blockVal.get "mode").getD (.str "strict") = .str "best_effort")
        else false
      let deadline : Option Int := if timeout_ms ≠ 0 then
          some ((w.clockMs : Int) + timeout_ms)
        else Option.none
      checkCondLoop env condition deadline poll_interval_ms bestEffort strict
        (timeout_ms.toNat + 2) w obs

/-- `SkillRunner._handler_condition_matches` (`skills/runner.py` lines
546–555). -/
def handler_condition_matches (E : ExtLib) (handler : PyDict)
    (obs : Observation) : Bool :=
  match dGet handler "when" with
  | Option.none => true
  | some .none => true
  | some cond => decide (evaluate_condition E cond obs = some true)

/-- `SkillRunner._collect_handlers`. -/
def collect_handlers (step : Option PyDict) (spec : PyDict)
    (trigger : String) : List PyDict :=
  (match step with
    | some stp =>
        (asDicts (dGetD stp "on_error" (.list []))).filter
          (fun h => asStr (dGetD h "trigger" (.str "on_error")) = trigger)
    | Option.none => []) ++
  (asDicts (dGetD spec "error_handlers" (.list []))).filter
    (fun h => asStr (dGetD h "trigger" (.str "on_error")) = trigger)

/-- Python `v in container` for the containers reachable in handler
filters (`codes` / `error_ids` lists; a string container tests substring
membership for string values). -/
def pyContains (container v : PyVal) : Bool :=
  match container with
  | .list items => items.contains v
  | .str s =>
      (match v with
        | .str sub => containsSub s sub
        | _ => false)
  | _ => false

/-- The handler-matching scan of `SkillRunner._find_error_handler`. -/
def handler_scan (E : ExtLib) (cfg : SkillRunnerConfig)
    (error : SkillError) (obs : Observation) :
    List PyDict → Option PyDict × Option RetryPolicy
  | [] => (Option.none, Option.none)
  | handler :: rest =>
      let codesV := dGetD handler "codes" .none
      if pyTruthy codesV && !pyContains codesV (.str error.code.value) then
        handler_scan E cfg error obs rest
      else
        let idsV := dGetD handler "error_ids" .none
        let errIdV : PyVal := match error.error_id with
          | some s => .str s
          | Option.none => .none
        if pyTruthy idsV && !pyContains idsV errIdV then
          handler_scan E cfg error obs rest
        else
          let whenV := dGetD handler "when" .none
          if pyTruthy whenV &&
              !(decide (evaluate_condition E whenV obs = some true)) then
            handler_scan E cfg error obs rest
          else
            let retry_override := if pyTruthy (dGetD handler "retry" .none) then
                some (parse_retry_policy (dGet handler "retry")
                  cfg.default_retry)
              else Option.none
            (some handler, retry_override)

/-- `SkillRunner._find_error_handler` (`skills/runner.py` lines
596–627): the first `on_error`-triggered handler (step-local before
skill-wide) whose code filter, error-id filter and `when` condition all
match, with its retry-policy override. -/
def find_error_handler (E : ExtLib) (cfg : SkillRunnerConfig)
    (error : SkillError) (step : Option PyDict) (spec : PyDict)
    (obs : Observation) : Option PyDict × Option RetryPolicy :=
  handler_scan E cfg error obs (collect_handlers step spec "on_error")


/-- `Except` values as sums, for decidable equality. -/
def exceptToSum {e a : Type} : Except e a → e ⊕ a
  | .error x => .inl x
  | .ok x => .inr x

/-- `exceptToSum` is injective. -/
theorem exceptToSum_inj {e a : Type} (x y : Except e a)
    (h : exceptToSum x = exceptToSum y) : x = y := by
  cases x <;> cases y <;> simp [exceptToSum] at h <;> simp [h]

instance {e a : Type} [DecidableEq e] [DecidableEq a] :
    DecidableEq (Except e a) := fun x y =>
  decidable_of_iff (exceptToSum x = exceptToSum y)
    ⟨exceptToSum_inj x y, fun h => h ▸ rfl⟩

/-- A propagating Python exception, carrying the message and the world
state at the raise point. -/
abbrev Crash := String × World

/-- The per-action loop of `SkillRunner._execute_handler_actions`
(`skills/runner.py` lines 629–649): non-dict entries are skipped, a
build failure or a failed dispatch yields `false`, a raised device
exception propagates, and after each dispatched action an optional wait
runs and the observation is re-captured. -/
def exec_handler_actions_go (env : Env) (cfg : SkillRunnerConfig) :
    List PyVal → Observation → World → Except Crash (World × Bool)
  | [], _, w => .ok (w, true)
  | aspec :: rest, obs, w =>
      match aspec with
      | .dict af =>
          (match build_action env.ext af obs with
            | .error _ => .ok (w, false)
            | .ok action =>
                if cfg.dry_run then exec_handler_actions_go env cfg rest obs w
                else
                  let pe := execAction env w action
                  match pe.2 with
                  | .raised msg => .error (msg, pe.1)
                  | .ok success =>
                      if !success then .ok (pe.1, false)
                      else
                        let waitAfter : Option PyVal :=
                          match dGet af "wait" with
                          | some (.dict wf) => dGet wf "after_ms"
                          | _ => Option.none
                        let w2 := match waitAfter with
                          | some (.int ms) =>
                              if ms > 0 then sleepMs pe.1 ms else pe.1
                          | _ => pe.1
                        let pc := capture env w2
                        exec_handler_actions_go env cfg rest pc.2 pc.1)
      | _ => exec_handler_actions_go env cfg rest obs w

/-- `SkillRunner._execute_handler_actions`. -/
def execute_handler_actions (env : Env) (cfg : SkillRunnerConfig)
    (handler : PyDict) (obs : Observation) (w : World) :
    Except Crash (World × Bool) :=
  exec_handler_actions_go env cfg (asList (dGetD handler "actions" (.list [])))
    obs w

/-- The `Take_over` dispatch of the escalate resolution
(`skills/runner.py` lines 584–589): skipped in dry-run, and a raised
device exception propagates. -/
def escalate_send (env : Env) (cfg : SkillRunnerConfig) (takeoverMsgV : PyVal)
    (w1 : World) : Except Crash World :=
  if !cfg.dry_run then
    let pe := execAction env w1 (.dict [("_metadata", .str "do"),
      ("action", .str "Take_over"), ("message", takeoverMsgV)])
    match pe.2 with
    | .raised msg => .error (msg, pe.1)
    | .ok _ => .ok pe.1
  else .ok w1

/-- `SkillRunner._handle_error` (`skills/runner.py` lines 557–594). -/
def handle_error (env : Env) (cfg : SkillRunnerConfig) (error : SkillError)
    (step : Option PyDict) (spec : PyDict) (obs : Observation) (w : World) :
    Except Crash (World × HandlerOutcome) :=
  match find_error_handler env.ext cfg error step spec obs with
  | (Option.none, _) =>
      if (match step with
          | some stp => pyTruthy (dGetD stp "optional" .none)
          | Option.none => false) then
        .ok (w, {
          resolution := "continue"
          error := Option.none })
      else .ok (w, { resolution := "retry" })
  | (some handler, retry_override) =>
      match execute_handler_actions env cfg handler obs w with
      | .error c => .error c
      | .ok (w1, success) =>
          if !success then
            let herr : SkillError := {
              code := .HANDLER_FAILED
              message := "Error handler failed"
              stage := "handler"
              step_id := error.step_id
              attempt := error.attempt }
            .ok (w1, {
              resolution := "abort"
              error := some herr })
          else
            let resolution := asStr (pyOr (dGetD handler "resolution" .none)
              (.str "retry"))
            if resolution = "escalate" then
              let takeoverMsgV := dGetD handler "takeover_message"
                (.str "User intervention required")
              match escalate_send env cfg takeoverMsgV w1 with
              | .error c => .error c
              | .ok w2 =>
                  let err2 : SkillError :=
                    { error.with_details [("takeover_message", takeoverMsgV)]
                        with requires_takeover := true }
                  .ok (w2, {
                    resolution := "escalate"
                    error := some err2 })
            else
              .ok (w1, {
                resolution := resolution
                retry_policy := retry_override
                error := some error })

/-- One pass over the `before_step` handlers
(`SkillRunner._apply_before_step_handlers` inner `for`): each matching
handler's actions run (result ignored) and the observation is
re-captured. -/
def before_handlers_pass (env : Env) (cfg : SkillRunnerConfig) :
    List PyDict → Observation → World → Bool →
      Except Crash (World × Observation × Bool)
  | [], obs, w, matched => .ok (w, obs, matched)
  | handler :: rest, obs, w, matched =>
      if !handler_condition_matches env.ext handler obs then
        before_handlers_pass env cfg rest obs w matched
      else
        match execute_handler_actions env cfg handler obs w with
        | .error c => .error c
        | .ok (w1, _) =>
            let pc := capture env w1
            before_handlers_pass env cfg rest pc.2 pc.1 true

/-- The bounded cycle loop of `_apply_before_step_handlers`. -/
def before_handlers_cycles (env : Env) (cfg : SkillRunnerConfig)
    (handlers : List PyDict) :
    Nat → Observation → World → Except Crash (World × Observation)
  | 0, obs, w => .ok (w, obs)
  | fuel + 1, obs, w =>
      match before_handlers_pass env cfg handlers obs w false with
      | .error c => .error c
      | .ok (w1, obs1, matched) =>
          if !matched then .ok (w1, obs1)
          else before_handlers_cycles env cfg handlers fuel obs1 w1

/-- `SkillRunner._apply_before_step_handlers` (`skills/runner.py` lines
513–531). -/
def apply_before_step_handlers (env : Env) (cfg : SkillRunnerConfig)
    (step spec : PyDict) (obs : Observation) (w : World) :
    Except Crash (World × Observation) :=
  let handlers := collect_handlers (some step) spec "before_step"
  if handlers.isEmpty then .ok (w, obs)
  else before_handlers_cycles env cfg handlers cfg.max_handler_cycles.toNat obs w


/-- One `StepAttemptReport` entry (`skills/reporting.py`; wall-clock
timestamps are not modelled). -/
structure StepAttemptRecord where
  attempt : Int
  action : Option PyVal
  success : Bool
  error : Option SkillError
deriving DecidableEq

/-- How `_run_step` ends: the returned `(success, observation, error)`
triple, or a propagating Python exception — including the `NameError`
read of the unbound local `outcome` after a non-dry-run dispatch that
did not raise (the verdict block after the `try/except` at lines
387–395 of `skills/runner.py` runs unconditionally). -/
inductive StepExit where
  | ret (success : Bool) (error : Option SkillError)
  | crashed (msg : String)
deriving DecidableEq

/-- Result of one iteration of the `while attempt < max_attempts` loop:
either the step finishes (return) or the loop continues (`continue`),
carrying the locals `outcome`/`error` that stay bound across
iterations. -/
inductive AttemptStep where
  | finish (w : World) (obs : Observation) (exit : StepExit)
      (records : List StepAttemptRecord)
  | again (w : World) (obs : Observation)
      (prev : HandlerOutcome × SkillError) (records : List StepAttemptRecord)

/-- The repeated verdict boilerplate after a failure point (`continue` ⇒
step succeeds, `abort`/`escalate` ⇒ step fails with `outcome.error or
error`, otherwise retry — gated by `_should_retry` — after
`_backoff`). -/
def applyVerdict (env : Env) (stepPolicy : RetryPolicy) (attempt : Int)
    (outcome : HandlerOutcome) (error : SkillError)
    (records : List StepAttemptRecord) (w : World) (obs : Observation) :
    AttemptStep :=
  if outcome.resolution = "continue" then
    .finish w obs (.ret true Option.none) records
  else if outcome.resolution = "abort" || outcome.resolution = "escalate" then
    .finish w obs (.ret false (some (outcome.error.getD error))) records
  else
    let policy := outcome.retry_policy.getD stepPolicy
    if !should_retry error.code.value policy attempt then
      .finish w obs (.ret false (some (outcome.error.getD error))) records
    else
      .again (do_backoff env w attempt policy) obs (outcome, error) records

/-- The guard-unknown verdict block (`skills/runner.py` lines 324–330),
which differs from the others: `continue`/`abort`/`escalate` return
`outcome.error` directly. -/
def applyVerdictGuardUnknown (env : Env) (stepPolicy : RetryPolicy)
    (attempt : Int) (outcome : HandlerOutcome) (error : SkillError)
    (records : List StepAttemptRecord) (w : World) (obs : Observation) :
    AttemptStep :=
  if outcome.resolution = "continue" || outcome.resolution = "abort"
      || outcome.resolution = "escalate" then
    .finish w obs (.ret (outcome.resolution = "continue") outcome.error) records
  else
    let policy := outcome.retry_policy.getD stepPolicy
    if !should_retry error.code.value policy attempt then
      .finish w obs (.ret false (some (outcome.error.getD error))) records
    else
      .again (do_backoff env w attempt policy) obs (outcome, error) records

/-- The tail of one attempt after the action dispatch decision
(`skills/runner.py` lines 397–504): the `ACTION_FAILED` block (reachable
only with `action_result = False`, which after the misindented verdict
block can only be observed in dry-run mode, where `action_result` is
always `True`), the optional post-wait, the re-capture, and the `assert`
block with the same strictness rules as the guard. -/
def attempt_after_exec (env : Env) (cfg : SkillRunnerConfig)
    (step spec : PyDict) (stepPolicy : RetryPolicy) (attempt : Int)
    (action : PyVal) (action_result : Bool) (w : World) (obs : Observation) :
    AttemptStep :=
  if !action_result then
    let error : SkillError := {
      code := .ACTION_FAILED
      message := "Action failed"
      stage := "action"
      step_id := stepIdOf step
      attempt := some attempt }
    match handle_error env cfg error (some step) spec obs w with
    | .error (m, wx) => .finish wx obs (.crashed m) []
    | .ok (w1, outcome) =>
        applyVerdict env stepPolicy attempt outcome error
          [⟨attempt, some action, false, some (outcome.error.getD error)⟩] w1 obs
  else
    let waMs : Option PyVal := match dGet step "wait" with
      | some (.dict wf) => dGet wf "after_ms"
      | _ => Option.none
    let w1 := match waMs with
      | some (.int ms) => if ms > 0 then sleepMs w ms else w
      | _ => w
    let pc := capture env w1
    let ac := check_condition_block env (dGet step "assert") pc.2
      cfg.strict_postconditions pc.1
    let w2 := ac.1
    let assert_ok := ac.2.1
    let obs2 := ac.2.2
    if assert_ok = some false then
      let error : SkillError := {
        code := .POSTCONDITION_FAILED
        message := "Step assertion failed"
        stage := "assert"
        step_id := stepIdOf step
        attempt := some attempt }
      match handle_error env cfg error (some step) spec obs2 w2 with
      | .error (m, wx) => .finish wx obs2 (.crashed m) []
      | .ok (w3, outcome) =>
          applyVerdict env stepPolicy attempt outcome error
            [⟨attempt, some action, false, some (outcome.error.getD error)⟩]
            w3 obs2
    else if assert_ok = Option.none && cfg.strict_postconditions then
      let error : SkillError := {
        code := .POSTCONDITION_FAILED
        message := "Step assertion unknown"
        stage := "assert"
        step_id := stepIdOf step
        attempt := some attempt }
      match handle_error env cfg error (some step) spec obs2 w2 with
      | .error (m, wx) => .finish wx obs2 (.crashed m) []
      | .ok (w3, outcome) =>
          applyVerdict env stepPolicy attempt outcome error
            [⟨attempt, some action, false, some (outcome.error.getD error)⟩]
            w3 obs2
    else
      .finish w2 obs2 (.ret true Option.none)
        [⟨attempt, some action, true, Option.none⟩]

/-- One iteration of `_run_step`'s attempt loop (`skills/runner.py`
lines 262–504): capture, before-step handlers, guard (with its two
verdict blocks — the guard-unknown block returns `outcome.error`
directly), optional pre-wait, action build, dispatch (in dry-run the
action is considered to have succeeded without being dispatched), the
misindented verdict block after the dispatch `try/except` (which reads
the locals `outcome`/`error` from a previous failure in the same call —
a `NameError` if none exists), and the assert tail. -/
def attempt_once (env : Env) (cfg : SkillRunnerConfig) (step spec : PyDict)
    (stepPolicy : RetryPolicy) (attempt : Int)
    (prev : Option (HandlerOutcome × SkillError)) (w0 : World) : AttemptStep :=
  let pc := capture env w0
  match apply_before_step_handlers env cfg step spec pc.2 pc.1 with
  | .error (m, wx) => .finish wx pc.2 (.crashed m) []
  | .ok (w2, obs2) =>
      let gc := check_condition_block env (dGet step "guard") obs2
        cfg.strict_preconditions w2
      let w3 := gc.1
      let guard_ok := gc.2.1
      let obs3 := gc.2.2
      if guard_ok = some false then
        let error : SkillError := {
          code := .SCREEN_MISMATCH
          message := "Step guard failed"
          stage := "guard"
          step_id := stepIdOf step
          attempt := some attempt }
        match handle_error env cfg error (some step) spec obs3 w3 with
        | .error (m, wx) => .finish wx obs3 (.crashed m) []
        | .ok (w4, outcome) =>
            applyVerdict env stepPolicy attempt outcome error
              [⟨attempt, Option.none, false, some (outcome.error.getD error)⟩]
              w4 obs3
      else if guard_ok = Option.none && cfg.strict_preconditions then
        let error : SkillError := {
          code := .PRECONDITION_UNKNOWN
          message := "Step guard unknown"
          stage := "guard"
          step_id := stepIdOf step
          attempt := some attempt }
        match handle_error env cfg error (some step) spec obs3 w3 with
        | .error (m, wx) => .finish wx obs3 (.crashed m) []
        | .ok (w4, outcome) =>
            applyVerdictGuardUnknown env stepPolicy attempt outcome error
              [⟨attempt, Option.none, false, some (outcome.error.getD error)⟩]
              w4 obs3
      else
        let wbMs : Option PyVal := match dGet step "wait" with
          | some (.dict wf) => dGet wf "before_ms"
          | _ => Option.none
        let w4 := match wbMs with
          | some (.int ms) => if ms > 0 then sleepMs w3 ms else w3
          | _ => w3
        match build_action env.ext step obs3 with
        | .error berr =>
            (match handle_error env cfg berr (some step) spec obs3 w4 with
              | .error (m, wx) => .finish wx obs3 (.crashed m) []
              | .ok (w5, outcome) =>
                  applyVerdict env stepPolicy attempt outcome berr
                    [⟨attempt, Option.none, false,
                      some (outcome.error.getD berr)⟩] w5 obs3)
        | .ok action =>
            if cfg.dry_run then
              attempt_after_exec env cfg step spec stepPolicy attempt action
                true w4 obs3
            else
              let pe := execAction env w4 action
              match pe.2 with
              | .raised msg =>
                  let error : SkillError := {
                    code := .ACTION_EXCEPTION
                    message := msg
                    stage := "action"
                    step_id := stepIdOf step
                    attempt := some attempt }
                  (match handle_error env cfg error (some step) spec obs3 pe.1 with
                    | .error (m, wx) => .finish wx obs3 (.crashed m) []
                    | .ok (w5, outcome) =>
                        applyVerdict env stepPolicy attempt outcome error
                          [⟨attempt, some action, false,
                            some (outcome.error.getD error)⟩] w5 obs3)
              | .ok _success =>
                  (match prev with
                    | Option.none =>
                        .finish pe.1 obs3
                          (.crashed "NameError: name 'outcome' is not defined") []
                    | some (poutcome, perror) =>
                        applyVerdict env stepPolicy attempt poutcome perror []
                          pe.1 obs3)

/-- Result of `_run_step`: final world and observation, the exit, the
number of loop iterations entered, and the appended attempt records. -/
structure StepRunOut where
  w : World
  obs : Observation
  exit : StepExit
  attemptsMade : Nat
  records : List StepAttemptRecord
deriving DecidableEq

/-- The `while attempt < max_attempts` loop of `_run_step`; exhausting
the attempts yields the `ABORTED` "Step retries exhausted" error. -/
def run_step_go (env : Env) (cfg : SkillRunnerConfig) (step spec : PyDict)
    (stepPolicy : RetryPolicy) :
    Nat → Int → Option (HandlerOutcome × SkillError) → World → Observation →
      StepRunOut
  | 0, _, _, w, obs =>
      ⟨w, obs, .ret false (some {
        code := .ABORTED
        message := "Step retries exhausted"
        stage := "retry"
        step_id := stepIdOf step }), 0, []⟩
  | fuel + 1, attempt, prev, w, obs =>
      match attempt_once env cfg step spec stepPolicy (attempt + 1) prev w with
      | .finish w1 obs1 ex records => ⟨w1, obs1, ex, 1, records⟩
      | .again w1 obs1 prev1 records =>
          let rest := run_step_go env cfg step spec stepPolicy fuel
            (attempt + 1) (some prev1) w1 obs1
          ⟨rest.w, rest.obs, rest.exit, rest.attemptsMade + 1,
            records ++ rest.records⟩

/-- `SkillRunner._run_step` (`skills/runner.py` lines 251–511). -/
def run_step (env : Env) (cfg : SkillRunnerConfig) (step spec : PyDict)
    (w : World) (obs : Observation) : StepRunOut :=
  let stepPolicy := parse_retry_policy (dGet step "retry") cfg.default_retry
  run_step_go env cfg step spec stepPolicy
    (max 1 stepPolicy.max_attempts).toNat 0 Option.none w obs


/-- The fields of a value CPython would accept where a dict is expected
(`dict(...)` copies; other shapes raise and are outside the modelled
domain). -/
def asDictFields : PyVal → PyDict
  | .dict f => f
  | _ => []

/-- The dict-shaped `inputs` declaration loop of
`SkillRunner._prepare_variables` (lines 216–222): defaults for absent
inputs, caller values, and the `ValueError` on a required input that has
no default and is absent. -/
def apply_input_specs_dict (inputs : PyDict) :
    List (String × PyVal) → PyDict → Except String PyDict
  | [], vars => .ok vars
  | (name, meta) :: rest, vars =>
      let metaFields : Option PyDict := match meta with
        | .dict mf => some mf
        | _ => Option.none
      match metaFields with
      | some mf =>
          if hasKey mf "default" && !hasKey inputs name then
            apply_input_specs_dict inputs rest
              (dSet vars name (dGetD mf "default" .none))
          else if hasKey inputs name then
            apply_input_specs_dict inputs rest
              (dSet vars name (dGetD inputs name .none))
          else if pyTruthy (dGetD mf "required" .none) then
            .error ("Missing required input: " ++ name)
          else apply_input_specs_dict inputs rest vars
      | Option.none =>
          if hasKey inputs name then
            apply_input_specs_dict inputs rest
              (dSet vars name (dGetD inputs name .none))
          else apply_input_specs_dict inputs rest vars

/-- The list-shaped `inputs` declaration loop of `_prepare_variables`
(lines 223–234).  Entries without a (truthy, string) name are skipped
(non-string names are outside the modelled domain). -/
def apply_input_specs_list (inputs : PyDict) :
    List PyVal → PyDict → Except String PyDict
  | [], vars => .ok vars
  | entry :: rest, vars =>
      match entry with
      | .dict ef =>
          (match dGet ef "name" with
            | some (.str nm) =>
                if nm = "" then apply_input_specs_list inputs rest vars
                else if hasKey inputs nm then
                  apply_input_specs_list inputs rest
                    (dSet vars nm (dGetD inputs nm .none))
                else if hasKey ef "default" then
                  apply_input_specs_list inputs rest
                    (dSet vars nm (dGetD ef "default" .none))
                else if pyTruthy (dGetD ef "required" .none) then
                  .error ("Missing required input: " ++ nm)
                else apply_input_specs_list inputs rest vars
            | _ => apply_input_specs_list inputs rest vars)
      | _ => apply_input_specs_list inputs rest vars

/-- `_prepare_variables` up to (but not including) the final nested
template rendering: static vars, the declared-inputs pass, the
`variables.update(inputs)` merge and the `timestamp` default.  `now` is
`int(time.time())`. -/
def merge_input_variables (now : Int) (spec : PyDict) (inputs : PyDict) :
    Except String PyDict :=
  let vars0 := asDictFields (dGetD spec "vars" (.dict []))
  let afterSpecs : Except String PyDict :=
    match dGetD spec "inputs" (.dict []) with
    | .dict ispecs => apply_input_specs_dict inputs ispecs vars0
    | .list entries => apply_input_specs_list inputs entries vars0
    | _ => .ok vars0
  afterSpecs.map (fun vs =>
    dSetdefault (dUpdate vs inputs) "timestamp" (.int now))

/-- One dict rendered with a variable map (`render_templates` on a dict:
keys kept, values rendered — see `render_templates_dict`). -/
def render_dict_with (fields vars : PyDict) : PyDict :=
  fields.map (fun kv => (kv.1, render_templates kv.2 vars))

/-- `SkillRunner._prepare_variables` (lines 212–239): the merged map with
nested templates resolved against itself. -/
def prepare_variables (now : Int) (spec : PyDict) (inputs : PyDict) :
    Except String PyDict :=
  (merge_input_variables now spec inputs).map (fun vs => render_dict_with vs vs)

/-- `load_common_handlers` from `skills/common_handlers.py`: a missing
file yields `[]`; a YAML parse error propagates (there is no
`try/except`); an empty document, a non-list `handlers` shape, or a dict
without `error_handlers` yield `[]`; non-dict entries are dropped. -/
def load_common_handlers (E : ExtLib) (fs : String → Option String)
    (path : String) : Except String (List PyVal) :=
  match fs path with
  | Option.none => .ok []
  | some content =>
      match E.yamlLoad content with
      | Option.none => .error "yaml parse error"
      | some data =>
          if data = .none then .ok []
          else
            let handlers : PyVal := match data with
              | .dict f => dGetD f "error_handlers" (.list [])
              | other => other
            match handlers with
            | .list items => .ok (items.filter (fun h =>
                match h with
                | .dict _ => true
                | _ => false))
            | _ => .ok []

/-- `SkillRunner._load_common_handlers` (lines 241–249): file handlers
then config handlers, rendered against the resolved variables. -/
def load_runner_common_handlers (env : Env) (cfg : SkillRunnerConfig)
    (varMap : PyDict) : Except String (List PyVal) :=
  let fromPath : Except String (List PyVal) :=
    match cfg.common_error_handlers_path with
    | some p => load_common_handlers env.ext env.fs p
    | Option.none => .ok []
  fromPath.map (fun hs =>
    let handlers := hs ++ (cfg.common_error_handlers.getD [])
    if handlers.isEmpty then []
    else handlers.map (fun h => render_templates h varMap))

/-- One `StepReport` (`skills/reporting.py`). -/
structure StepReportM where
  step_id : String
  attempts : List StepAttemptRecord
  success : Bool
deriving DecidableEq

/-- `SkillRunResult` together with the parts of `SkillRunReport` the
model tracks (timestamps are not modelled). -/
structure SkillRunResultM where
  success : Bool
  message : String
  error : Option SkillError
  reportInputs : PyDict
  reportSteps : List StepReportM
deriving DecidableEq

/-- How `SkillRunner.run` ends: a returned `SkillRunResult`, or a
propagating Python exception. -/
inductive RunExit where
  | result (r : SkillRunResultM)
  | crashed (msg : String)
deriving DecidableEq

/-- Outcome of the `for step in steps` loop of `run`. -/
inductive StepsLoopOut where
  | allOk (w : World) (obs : Observation) (reports : List StepReportM)
  | failed (w : World) (obs : Observation) (reports : List StepReportM)
      (error : Option SkillError)
  | crashed (w : World) (msg : String) (reports : List StepReportM)
deriving DecidableEq

/-- The `for step in steps` loop of `run` (lines 168–181): each step gets
a report entry; the first failing step stops the run. -/
def run_steps_loop (env : Env) (cfg : SkillRunnerConfig) (spec : PyDict) :
    List PyVal → World → Observation → StepsLoopOut
  | [], w, obs => .allOk w obs []
  | stepV :: rest, w, obs =>
      match stepV with
      | .dict step =>
          let sid := asStr (dGetD step "id" (.str "unknown"))
          let out := run_step env cfg step spec w obs
          (match out.exit with
            | .crashed m => .crashed out.w m [⟨sid, out.records, false⟩]
            | .ret success error =>
                if success then
                  match run_steps_loop env cfg spec rest out.w out.obs with
                  | .allOk w1 obs1 reps =>
                      .allOk w1 obs1 (⟨sid, out.records, true⟩ :: reps)
                  | .failed w1 obs1 reps e =>
                      .failed w1 obs1 (⟨sid, out.records, true⟩ :: reps) e
                  | .crashed w1 m reps =>
                      .crashed w1 m (⟨sid, out.records, true⟩ :: reps)
                else .failed out.w out.obs [⟨sid, out.records, false⟩] error)
      | _ => .crashed w "AttributeError: step has no attribute get" []

/-- A loaded skill definition (`skills/schema.py`, restricted to the
fields the runner and router read). -/
structure SkillDef where
  skill_id : String
  spec : PyDict
deriving DecidableEq

/-- The registry's catalog, in insertion order (`SkillRegistry.skills`
is a dict keyed by `skill_id`; ids are unique). -/
abbrev Registry := List SkillDef

/-- `SkillRegistry.get`. -/
def regGet (reg : Registry) (sid : String) : Option SkillDef :=
  reg.find? (fun sk => sk.skill_id = sid)

/-- `SkillRunner.run` (`skills/runner.py` lines 93–210). -/
def skillrunner_run (env : Env) (cfg : SkillRunnerConfig) (reg : Registry)
    (now : Int) (skill_id : String) (inputs : PyDict) (w : World) :
    World × RunExit :=
  match regGet reg skill_id with
  | Option.none =>
      let msg := "Skill not found: " ++ skill_id
      (w, .result ⟨false, msg, some ⟨.UNKNOWN, msg, "load", Option.none,
        Option.none, Option.none, [], false⟩, inputs, []⟩)
  | some skill =>
      match prepare_variables now skill.spec inputs with
      | .error msg =>
          (w, .result ⟨false, msg, some ⟨.PRECONDITION_FAILED, msg, "inputs",
            Option.none, Option.none, Option.none, [], false⟩, inputs, []⟩)
      | .ok varMap =>
          let specR := render_dict_with skill.spec varMap
          match load_runner_common_handlers env cfg varMap with
          | .error m => (w, .crashed m)
          | .ok common =>
              let spec2 := if common.isEmpty then specR
                else dSet specR "error_handlers"
                  (.list (common ++ asList (dGetD specR "error_handlers" (.list []))))
              let pc := capture env w
              let pre := check_condition_block env (dGet spec2 "preconditions")
                pc.2 cfg.strict_preconditions pc.1
              let w1 := pre.1
              let pre_ok := pre.2.1
              let obs1 := pre.2.2
              if pre_ok ≠ some true then
                let error : SkillError := {
                  code := if pre_ok = some false then .PRECONDITION_FAILED
                    else .PRECONDITION_UNKNOWN
                  message := "Preconditions not satisfied"
                  stage := "preconditions" }
                match handle_error env cfg error Option.none spec2 obs1 w1 with
                | .error (m, wx) => (wx, .crashed m)
                | .ok (w2, outcome) =>
                    (w2, .result ⟨false, (outcome.error.getD error).message,
                      some (outcome.error.getD error), varMap, []⟩)
              else
                match run_steps_loop env cfg spec2
                    (asList (dGetD spec2 "steps" (.list []))) w1 obs1 with
                | .crashed w2 m _ => (w2, .crashed m)
                | .failed w2 _ reps e =>
                    (w2, .result ⟨false,
                      (match e with
                        | some er => er.message
                        | Option.none => "Step failed"), e, varMap, reps⟩)
                | .allOk w2 obs2 reps =>
                    let post := check_condition_block env
                      (dGet spec2 "postconditions") obs2
                      cfg.strict_postconditions w2
                    let w3 := post.1
                    let post_ok := post.2.1
                    let obs3 := post.2.2
                    if post_ok ≠ some true then
                      let error : SkillError := {
                        code := .POSTCONDITION_FAILED
                        message := "Postconditions not satisfied"
                        stage := "postconditions" }
                      match handle_error env cfg error Option.none spec2 obs3 w3 with
                      | .error (m, wx) => (wx, .crashed m)
                      | .ok (w4, outcome) =>
                          (w4, .result ⟨false, (outcome.error.getD error).message,
                            some (outcome.error.getD error), varMap, reps⟩)
                    else
                      (w3, .result ⟨true, "Skill completed", Option.none,
                        varMap, reps⟩)


/-- A deterministic test environment for concrete witnesses: captures
always give `testObs`, every dispatch reports success, draws are 0. -/
def testEnv : Env :=
  ⟨testExt, fun _ => Option.none, fun _ => testObs, fun _ _ => .ok true,
    fun _ => 0⟩

theorem run_step_go_attempts_le (env : Env) (cfg : SkillRunnerConfig)
    (step spec : PyDict) (p : RetryPolicy) :
    ∀ fuel attempt prev w obs,
      (run_step_go env cfg step spec p fuel attempt prev w obs).attemptsMade
        ≤ fuel := by
  intro fuel
  induction fuel with
  | zero => intro attempt prev w obs; simp [run_step_go]
  | succ f ih =>
      intro attempt prev w obs
      simp only [run_step_go]
      split
      · simp
      · rename_i w1 obs1 prev1 records heq
        simp only []
        have := ih (attempt + 1) (some prev1) w1 obs1
        omega

/-- C1, counterexample to the claim as stated: with the resolved retry
policy `max_attempts = 0`, `_run_step` still makes one attempt
(`max(1, max_attempts)` clamps the loop bound), so the number of
attempts exceeds the policy's `max_attempts`; and with
`backoff_ms = 100`, `multiplier = 1`, `max_backoff_ms = 50`,
`jitter_ms = 60` a legal jitter draw of 60 makes `_backoff` sleep
110 ms > `max_backoff_ms` (jitter is added after the clamp). -/
theorem claim_C1_counterexample :
    (parse_retry_policy (dGet [("action", PyVal.str "Back")] "retry")
      { max_attempts := 0 }).max_attempts = 0 ∧
    (run_step testEnv { dry_run := true, default_retry := { max_attempts := 0 } }
      [("action", PyVal.str "Back")] [] {} testObs).attemptsMade = 1 ∧
    ¬((1 : Int) ≤ 0) ∧
    (0 : Int) ≤ 60 ∧ (60 : Int) ≤ (60 : Int) ∧
    backoff_delay { backoff_ms := 100, max_backoff_ms := 50, jitter_ms := 60 }
      1 60 = some 110 ∧
    ¬((110 : Int) ≤ 50) := by decide

/-- C1, amended: for every environment, configuration, step and spec,
the number of attempts `_run_step` makes never exceeds
`max(1, max_attempts)` of the step's resolved retry policy; and every
delay `_backoff` sleeps is at most
`(max_backoff_ms if nonzero else backoff_ms) + max(jitter_ms, 0)` —
the jitter draw is added after the `max_backoff_ms` clamp. -/
theorem claim_C1_retry_bounds (env : Env) (cfg : SkillRunnerConfig)
    (step spec : PyDict) (w : World) (obs : Observation) :
    (run_step env cfg step spec w obs).attemptsMade ≤
      (max 1 (parse_retry_policy (dGet step "retry")
        cfg.default_retry).max_attempts).toNat ∧
    (∀ (p : RetryPolicy) (attempt draw d : Int), 0 ≤ draw → draw ≤ p.jitter_ms →
      backoff_delay p attempt draw = some d →
      d ≤ (if p.max_backoff_ms = 0 then p.backoff_ms else p.max_backoff_ms)
        + max p.jitter_ms 0) := by
  constructor
  · unfold run_step
    exact run_step_go_attempts_le env cfg step spec _ _ 0 Option.none w obs
  · intro p attempt draw d h0 h1 hd
    unfold backoff_delay at hd
    by_cases hb : p.backoff_ms ≤ 0
    · simp [hb] at hd
    · simp only [hb, if_false] at hd
      unfold sleep_with_backoff_delay at hd
      have hd2 := Option.some.inj hd
      set M := (if p.max_backoff_ms = 0 then p.backoff_ms else p.max_backoff_ms)
        with hM
      have hmin : min (PyFloat.trunc ((PyFloat.ofInt p.backoff_ms).mul
          (p.backoff_multiplier.pow (max 0 (attempt - 1)).toNat))) M ≤ M :=
        min_le_right _ _
      by_cases hj : p.jitter_ms > 0
      · simp only [hj, if_true] at hd2
        have : max p.jitter_ms 0 = p.jitter_ms := by omega
        omega
      · simp only [hj, if_false] at hd2
        have : 0 ≤ max p.jitter_ms 0 := le_max_right _ _
        omega

/-- Witness for the amended C1 at a concrete step and policy. -/
theorem claim_C1_retry_bounds_witness :
    (run_step testEnv { dry_run := true } [("action", PyVal.str "Back")] []
      {} testObs).attemptsMade ≤
      (max 1 (parse_retry_policy (dGet [("action", PyVal.str "Back")] "retry")
        (SkillRunnerConfig.default_retry { dry_run := true })).max_attempts).toNat ∧
    (110 : Int) ≤ (if (50 : Int) = 0 then (100 : Int) else (50 : Int))
      + max (60 : Int) 0 :=
  ⟨(claim_C1_retry_bounds testEnv { dry_run := true }
      [("action", PyVal.str "Back")] [] {} testObs).1,
    (claim_C1_retry_bounds testEnv { dry_run := true }
      [("action", PyVal.str "Back")] [] {} testObs).2
      { backoff_ms := 100, max_backoff_ms := 50, jitter_ms := 60 } 1 60 110
      (by decide) (by decide) (by decide)⟩



/-! ### C3: input-variable precedence and required-input failures -/

/-- Setting a key makes it the one looked up. -/

theorem dGet_dSet_self (m : PyDict) (k : String) (v : PyVal) :
    dGet (dSet m k v) k = some v := by
  induction m with
  | nil => simp [dSet, dGet]
  | cons kv rest ih =>
      obtain ⟨k0, v0⟩ := kv
      by_cases h : k0 = k
      · subst h; simp [dSet, dGet]
      · simp [dSet, dGet, h] at ih ⊢
        simpa [dGet] using ih

/-- Setting one key leaves every other key unchanged. -/
theorem dGet_dSet_other (m : PyDict) (k k' : String) (v : PyVal)
    (h : k' ≠ k) : dGet (dSet m k v) k' = dGet m k' := by
  induction m with
  | nil => simp [dSet, dGet, List.find?, Ne.symm h]
  | cons kv rest ih =>
      obtain ⟨k0, v0⟩ := kv
      by_cases h0 : k0 = k
      · subst h0
        have h1 : (k0 = k') = False := by simp [Ne.symm h]
        simp [dSet, dGet, List.find?, h1]
      · simp only [dSet, if_neg h0]
        by_cases h1 : k0 = k'
        · subst h1; simp [dGet, List.find?]
        · simp [dGet, List.find?, h1] at ih ⊢
          exact ih

/-- `dict.update(other)` leaves keys absent from `other` unchanged. -/
theorem dGet_dUpdate_not_mem (m : PyDict) (other : PyDict) (k : String)
    (h : ∀ kv ∈ other, kv.1 ≠ k) : dGet (dUpdate m other) k = dGet m k := by
  induction other generalizing m with
  | nil => simp [dUpdate]
  | cons kv rest ih =>
      obtain ⟨k0, v0⟩ := kv
      have hk0 : k0 ≠ k := h (k0, v0) (List.mem_cons_self _ _)
      have hrest : ∀ kv ∈ rest, kv.1 ≠ k := fun kv hm => h kv (List.mem_cons_of_mem _ hm)
      simp only [dUpdate, List.foldl_cons]
      have := ih (dSet m k0 v0) hrest
      simp only [dUpdate] at this
      rw [this, dGet_dSet_other _ _ _ _ (Ne.symm hk0)]

/-- `dict.update(other)` installs the value of every key of `other`. -/
theorem dGet_dUpdate_of_mem (m : PyDict) (other : PyDict) (k : String)
    (v : PyVal) (hnd : (other.map Prod.fst).Nodup)
    (hget : dGet other k = some v) :
    dGet (dUpdate m other) k = some v := by
  induction other generalizing m with
  | nil => simp [dGet] at hget
  | cons kv rest ih =>
      obtain ⟨k0, v0⟩ := kv
      simp only [List.map_cons, List.nodup_cons] at hnd
      by_cases h : k0 = k
      · subst h
        have hv : v0 = v := by
          simp [dGet, List.find?] at hget
          exact hget
        subst hv
        simp only [dUpdate, List.foldl_cons]
        have hrest : ∀ kv ∈ rest, kv.1 ≠ k0 := by
          intro kv hm heq
          exact hnd.1 (heq ▸ List.mem_map_of_mem Prod.fst hm)
        have := dGet_dUpdate_not_mem (dSet m k0 v0) rest k0 hrest
        simp only [dUpdate] at this
        rw [this, dGet_dSet_self]
      · have hget' : dGet rest k = some v := by
          simpa [dGet, List.find?, h] using hget
        simp only [dUpdate, List.foldl_cons]
        have hthis := ih (dSet m k0 v0) hnd.2 hget'
        simp only [dUpdate] at hthis
        exact hthis

/-- `setdefault` never changes an existing binding. -/
theorem dGet_dSetdefault_preserve (m : PyDict) (k k0 : String) (d v : PyVal)
    (h : dGet m k = some v) : dGet (dSetdefault m k0 d) k = some v := by
  unfold dSetdefault
  by_cases hk : hasKey m k0
  · simp [hk, h]
  · simp only [hk, Bool.false_eq_true, if_false]
    unfold dGet at h ⊢
    rw [List.find?_append]
    match hf : List.find? (fun kv => kv.1 = k) m with
    | Option.none => rw [hf] at h; exact Option.noConfusion h
    | some kv => rw [hf] at h; simp [Option.orElse, h, hf]

/-- Rendering a dict renders values pointwise and keeps keys. -/
theorem dGet_render_dict_with (m vars : PyDict) (k : String) :
    dGet (render_dict_with m vars) k
      = (dGet m k).map (fun v => render_templates v vars) := by
  induction m with
  | nil => simp [render_dict_with, dGet]
  | cons kv rest ih =>
      obtain ⟨k0, v0⟩ := kv
      by_cases h : k0 = k
      · subst h; simp [render_dict_with, dGet, List.find?]
      · simp only [render_dict_with, List.map_cons] at ih ⊢
        simp [dGet, List.find?, h] at ih ⊢
        exact ih

/-- Caller inputs win in the merged variable map: whatever the static
`vars` and the declared-input defaults say, a key present in `inputs`
ends up bound to the caller value (`variables.update(inputs)` runs
last, and the `timestamp` default cannot shadow it). -/
theorem merge_lookup (now : Int) (spec inputs : PyDict) (k : String)
    (v : PyVal) (merged : PyDict)
    (hnd : (inputs.map Prod.fst).Nodup)
    (hin : dGet inputs k = some v)
    (hok : merge_input_variables now spec inputs = .ok merged) :
    dGet merged k = some v := by
  have hok2 : Except.map
      (fun vs => dSetdefault (dUpdate vs inputs) "timestamp" (.int now))
      (match dGetD spec "inputs" (.dict []) with
        | .dict ispecs => apply_input_specs_dict inputs ispecs
            (asDictFields (dGetD spec "vars" (.dict [])))
        | .list entries => apply_input_specs_list inputs entries
            (asDictFields (dGetD spec "vars" (.dict [])))
        | _ => .ok (asDictFields (dGetD spec "vars" (.dict []))))
      = .ok merged := hok
  generalize (match dGetD spec "inputs" (.dict []) with
    | .dict ispecs => apply_input_specs_dict inputs ispecs
        (asDictFields (dGetD spec "vars" (.dict [])))
    | .list entries => apply_input_specs_list inputs entries
        (asDictFields (dGetD spec "vars" (.dict [])))
    | _ => .ok (asDictFields (dGetD spec "vars" (.dict [])))) = afterSpecs
    at hok2
  cases afterSpecs with
  | error m => simp [Except.map] at hok2
  | ok vs =>
      simp only [Except.map] at hok2
      have hm := Except.ok.inj hok2
      rw [← hm]
      exact dGet_dSetdefault_preserve _ _ _ _ _
        (dGet_dUpdate_of_mem vs inputs k v hnd hin)

/-- A dict-shaped declared input that is required, has no default and is
absent from the caller inputs makes the declaration pass raise. -/
theorem apply_input_specs_dict_raises (inputs : PyDict) :
    ∀ (ispecs : List (String × PyVal)) (vars : PyDict)
      (_ : ∃ nm mf, (nm, PyVal.dict mf) ∈ ispecs ∧ hasKey mf "default" = false ∧
        hasKey inputs nm = false ∧
        pyTruthy (dGetD mf "required" PyVal.none) = true),
      ∃ msg, apply_input_specs_dict inputs ispecs vars = .error msg := by
  intro ispecs
  induction ispecs with
  | nil =>
      intro vars h
      obtain ⟨nm, mf, hmem, _⟩ := h
      cases hmem
  | cons kv rest ih =>
      intro vars h
      obtain ⟨nm, mf, hmem, hdef, hin, hreq⟩ := h
      obtain ⟨n0, m0⟩ := kv
      rcases List.mem_cons.mp hmem with heq | hmem'
      · injection heq with h1 h2
        subst h1
        subst h2
        simp only [apply_input_specs_dict, hdef, hin, hreq]
        simp
      · have hrest : ∃ nm mf, (nm, PyVal.dict mf) ∈ rest ∧
            hasKey mf "default" = false ∧ hasKey inputs nm = false ∧
            pyTruthy (dGetD mf "required" PyVal.none) = true :=
          ⟨nm, mf, hmem', hdef, hin, hreq⟩
        match m0 with
        | .dict mfields =>
            simp only [apply_input_specs_dict]
            split_ifs with h1 h2 h3
            · exact ih _ hrest
            · exact ih _ hrest
            · exact ⟨_, rfl⟩
            · exact ih _ hrest
        | .none =>
            simp only [apply_input_specs_dict]
            split_ifs with h1
            · exact ih _ hrest
            · exact ih _ hrest
        | .bool b =>
            simp only [apply_input_specs_dict]
            split_ifs with h1
            · exact ih _ hrest
            · exact ih _ hrest
        | .int n =>
            simp only [apply_input_specs_dict]
            split_ifs with h1
            · exact ih _ hrest
            · exact ih _ hrest
        | .str st =>
            simp only [apply_input_specs_dict]
            split_ifs with h1
            · exact ih _ hrest
            · exact ih _ hrest
        | .list items =>
            simp only [apply_input_specs_dict]
            split_ifs with h1
            · exact ih _ hrest
            · exact ih _ hrest

/-- A list-shaped declared input that is required, has no default and is
absent from the caller inputs makes the declaration pass raise. -/
theorem apply_input_specs_list_raises (inputs : PyDict) :
    ∀ (entries : List PyVal) (vars : PyDict)
      (_ : ∃ ef nm, PyVal.dict ef ∈ entries ∧
        dGet ef "name" = some (.str nm) ∧ nm ≠ "" ∧
        hasKey inputs nm = false ∧ hasKey ef "default" = false ∧
        pyTruthy (dGetD ef "required" PyVal.none) = true),
      ∃ msg, apply_input_specs_list inputs entries vars = .error msg := by
  intro entries
  induction entries with
  | nil =>
      intro vars h
      obtain ⟨ef, nm, hmem, _⟩ := h
      cases hmem
  | cons entry rest ih =>
      intro vars h
      obtain ⟨ef, nm, hmem, hname, hne, hin, hdef, hreq⟩ := h
      rcases List.mem_cons.mp hmem with heq | hmem'
      · subst heq
        simp only [apply_input_specs_list, hname, hne, hin, hdef, hreq]
        simp [hne, hin, hdef]
      · have hrest : ∃ ef nm, PyVal.dict ef ∈ rest ∧
            dGet ef "name" = some (.str nm) ∧ nm ≠ "" ∧
            hasKey inputs nm = false ∧ hasKey ef "default" = false ∧
            pyTruthy (dGetD ef "required" PyVal.none) = true :=
          ⟨ef, nm, hmem', hname, hne, hin, hdef, hreq⟩
        match entry with
        | .dict ef0 =>
            simp only [apply_input_specs_list]
            match hname0 : dGet ef0 "name" with
            | some (.str nm0) =>
                dsimp only
                split_ifs with h1 h2 h3 h4
                · exact ih _ hrest
                · exact ih _ hrest
                · exact ih _ hrest
                · exact ⟨_, rfl⟩
                · exact ih _ hrest
            | some .none => dsimp only; exact ih _ hrest
            | some (.bool b) => dsimp only; exact ih _ hrest
            | some (.int n) => dsimp only; exact ih _ hrest
            | some (.list l) => dsimp only; exact ih _ hrest
            | some (.dict d) => dsimp only; exact ih _ hrest
            | Option.none => dsimp only; exact ih _ hrest
        | .none => exact ih _ hrest
        | .bool b => exact ih _ hrest
        | .int n => exact ih _ hrest
        | .str st => exact ih _ hrest
        | .list l => exact ih _ hrest

/-- Lifting the two raise lemmas to `_prepare_variables`. -/
theorem merge_input_variables_raises (now : Int) (spec inputs : PyDict)
    (hbad :
      (∃ ispecs nm mf, dGetD spec "inputs" (.dict []) = .dict ispecs ∧
        (nm, PyVal.dict mf) ∈ ispecs ∧ hasKey mf "default" = false ∧
        hasKey inputs nm = false ∧
        pyTruthy (dGetD mf "required" PyVal.none) = true) ∨
      (∃ entries ef nm, dGetD spec "inputs" (.dict []) = .list entries ∧
        PyVal.dict ef ∈ entries ∧ dGet ef "name" = some (.str nm) ∧ nm ≠ "" ∧
        hasKey inputs nm = false ∧ hasKey ef "default" = false ∧
        pyTruthy (dGetD ef "required" PyVal.none) = true)) :
    ∃ msg, prepare_variables now spec inputs = .error msg := by
  rcases hbad with ⟨ispecs, nm, mf, hsh, hmem, hdef, hin, hreq⟩ |
    ⟨entries, ef, nm, hsh, hmem, hname, hne, hin, hdef, hreq⟩
  · obtain ⟨msg, he⟩ := apply_input_specs_dict_raises inputs ispecs
      (asDictFields (dGetD spec "vars" (.dict [])))
      ⟨nm, mf, hmem, hdef, hin, hreq⟩
    refine ⟨msg, ?_⟩
    simp only [prepare_variables, merge_input_variables, hsh, he, Except.map]
  · obtain ⟨msg, he⟩ := apply_input_specs_list_raises inputs entries
      (asDictFields (dGetD spec "vars" (.dict [])))
      ⟨ef, nm, hmem, hname, hne, hin, hdef, hreq⟩
    refine ⟨msg, ?_⟩
    simp only [prepare_variables, merge_input_variables, hsh, he, Except.map]

/-- A `_prepare_variables` error makes `run` return a
`PRECONDITION_FAILED` result with the world untouched: no capture, no
device action, no sleeps. -/
theorem skillrunner_run_required_missing (env : Env) (cfg : SkillRunnerConfig)
    (reg : Registry) (now : Int) (sid : String) (skill : SkillDef)
    (inputs : PyDict) (w : World)
    (hreg : regGet reg sid = some skill)
    (hprep : ∃ msg, prepare_variables now skill.spec inputs = .error msg) :
    ∃ msg, skillrunner_run env cfg reg now sid inputs w =
      (w, .result ⟨false, msg, some ⟨.PRECONDITION_FAILED, msg, "inputs",
        Option.none, Option.none, Option.none, [], false⟩, inputs, []⟩) := by
  obtain ⟨msg, he⟩ := hprep
  exact ⟨msg, by simp only [skillrunner_run, hreg, he]⟩

/-- C3: caller-supplied inputs take precedence over declared-input
defaults and skill-level static vars in the merged variable map; and a
declared input marked required with no default that is absent from the
caller inputs makes the run fail with a `PRECONDITION_FAILED` error at
the `inputs` stage, with the world unchanged — so before any device
action is dispatched. -/
theorem claim_C3_input_variables :
    (∀ (now : Int) (spec inputs : PyDict) (k : String) (v : PyVal)
        (merged : PyDict),
        (inputs.map Prod.fst).Nodup →
        dGet inputs k = some v →
        merge_input_variables now spec inputs = .ok merged →
        dGet merged k = some v) ∧
    (∀ (env : Env) (cfg : SkillRunnerConfig) (reg : Registry) (now : Int)
        (sid : String) (skill : SkillDef) (inputs : PyDict) (w : World),
        regGet reg sid = some skill →
        ((∃ ispecs nm mf, dGetD skill.spec "inputs" (.dict []) = .dict ispecs ∧
            (nm, PyVal.dict mf) ∈ ispecs ∧ hasKey mf "default" = false ∧
            hasKey inputs nm = false ∧
            pyTruthy (dGetD mf "required" PyVal.none) = true) ∨
          (∃ entries ef nm, dGetD skill.spec "inputs" (.dict []) = .list entries ∧
            PyVal.dict ef ∈ entries ∧ dGet ef "name" = some (.str nm) ∧
            nm ≠ "" ∧ hasKey inputs nm = false ∧ hasKey ef "default" = false ∧
            pyTruthy (dGetD ef "required" PyVal.none) = true)) →
        ∃ msg, skillrunner_run env cfg reg now sid inputs w =
          (w, .result ⟨false, msg, some ⟨.PRECONDITION_FAILED, msg, "inputs",
            Option.none, Option.none, Option.none, [], false⟩, inputs, []⟩)) := by
  constructor
  · exact fun now spec inputs k v merged hnd hin hok =>
      merge_lookup now spec inputs k v merged hnd hin hok
  · intro env cfg reg now sid skill inputs w hreg hbad
    exact skillrunner_run_required_missing env cfg reg now sid skill inputs w
      hreg (merge_input_variables_raises now skill.spec inputs hbad)

/-- Concrete spec for the C3 witness: a static var and a declared
default both fight the caller input for the key "user". -/
def specC3 : PyDict :=
  [("vars", .dict [("user", .str "static")]),
   ("inputs", .dict [("user", .dict [("default", .str "dflt")])])]

/-- Caller inputs for the C3 witness. -/
def inpC3 : PyDict := [("user", .str "caller")]

/-- The merged variable map of `specC3`/`inpC3`. -/
def mergedC3 : PyDict := [("user", .str "caller"), ("timestamp", .int 0)]

/-- Spec with a required, default-free declared input. -/
def specReqC3 : PyDict :=
  [("inputs", .dict [("user", .dict [("required", .bool true)])])]

/-- The C3 witness skill. -/
def skillC3 : SkillDef := ⟨"req_skill", specReqC3⟩

/-- The C3 witness registry. -/
def regC3 : Registry := [skillC3]

/-- Witness for C3 at concrete inputs: the caller value "caller" beats
both the static var and the declared default, and a missing required
"user" input fails the run with the world untouched. -/
theorem claim_C3_input_variables_witness :
    dGet mergedC3 "user" = some (.str "caller") ∧
    ∃ msg, skillrunner_run testEnv {} regC3 0 "req_skill" [] {} =
      ({}, .result ⟨false, msg, some ⟨.PRECONDITION_FAILED, msg, "inputs",
        Option.none, Option.none, Option.none, [], false⟩, [], []⟩) :=
  ⟨claim_C3_input_variables.1 0 specC3 inpC3 "user" (.str "caller") mergedC3
      (by decide) (by decide) rfl,
    claim_C3_input_variables.2 testEnv {} regC3 0 "req_skill" skillC3 [] {}
      (by decide)
      (Or.inl ⟨[("user", .dict [("required", .bool true)])], "user",
        [("required", .bool true)], by decide, by decide, by decide,
        by decide, by decide⟩)⟩


/-! ### C6: failed handler actions yield HANDLER_FAILED / abort -/

/-- C6: when a handler matches an error but its recovery actions fail to
dispatch, `_handle_error` returns resolution "abort" with a
`HANDLER_FAILED` error — whatever resolution the handler declared; and
the two dispatch-failure modes both make `_execute_handler_actions`
return `False`: an action that cannot be built, and a device dispatch
reporting failure. -/

theorem claim_C6_handler_failed_abort :
    (∀ (env : Env) (cfg : SkillRunnerConfig) (error : SkillError)
        (step : Option PyDict) (spec : PyDict) (obs : Observation) (w : World)
        (handler : PyDict) (ro : Option RetryPolicy) (w1 : World),
        find_error_handler env.ext cfg error step spec obs
          = (some handler, ro) →
        execute_handler_actions env cfg handler obs w = .ok (w1, false) →
        handle_error env cfg error step spec obs w = .ok (w1, {
          resolution := "abort"
          retry_policy := Option.none
          error := some {
            code := .HANDLER_FAILED
            message := "Error handler failed"
            stage := "handler"
            step_id := error.step_id
            attempt := error.attempt } })) ∧
    (∀ (env : Env) (cfg : SkillRunnerConfig) (af : PyDict)
        (rest : List PyVal) (obs : Observation) (w : World) (e : SkillError),
        build_action env.ext af obs = .error e →
        exec_handler_actions_go env cfg (.dict af :: rest) obs w
          = .ok (w, false)) ∧
    (∀ (env : Env) (cfg : SkillRunnerConfig) (af : PyDict)
        (rest : List PyVal) (obs : Observation) (w w2 : World)
        (action : PyVal),
        cfg.dry_run = false →
        build_action env.ext af obs = .ok action →
        execAction env w action = (w2, .ok false) →
        exec_handler_actions_go env cfg (.dict af :: rest) obs w
          = .ok (w2, false)) := by
  refine ⟨?_, ?_, ?_⟩
  · intro env cfg error step spec obs w handler ro w1 hfind hexec
    simp only [handle_error, hfind, hexec, Bool.not_false, if_pos]
  · intro env cfg af rest obs w e hbuild
    simp only [exec_handler_actions_go, hbuild]
  · intro env cfg af rest obs w w2 action hdry hbuild hexec
    simp only [exec_handler_actions_go, hbuild, hdry, hexec, Bool.not_false,
      Bool.false_eq_true, if_false, if_pos]

/-- A handler declaring resolution "continue" whose single action cannot
be built (a Tap with no target on an empty screen). -/
def handlerC6 : PyDict :=
  [("resolution", .str "continue"),
   ("actions", .list [.dict [("action", .str "Tap")]])]

/-- Skill spec carrying `handlerC6`. -/
def specC6 : PyDict := [("error_handlers", .list [.dict handlerC6])]

/-- The error routed to the pipeline in the C6 witness. -/
def errC6 : SkillError :=
  ⟨.ACTION_FAILED, "boom", "dispatch", some "s1", Option.none, some 1, [],
    false⟩

/-- Witness for C6: the "continue" declaration is overridden to "abort"
with a `HANDLER_FAILED` error. -/
theorem claim_C6_handler_failed_abort_witness :
    handle_error testEnv {} errC6 Option.none specC6 testObs {} =
      .ok ({}, {
        resolution := "abort"
        retry_policy := Option.none
        error := some {
          code := .HANDLER_FAILED
          message := "Error handler failed"
          stage := "handler"
          step_id := some "s1"
          attempt := some 1 } }) :=
  claim_C6_handler_failed_abort.1 testEnv {} errC6 Option.none specC6 testObs
    {} handlerC6 Option.none {} (by decide) rfl


/-! ### C7: optional steps with no matching handler continue -/

/-- C7: a failing step marked `optional` for which no error handler
matches resolves `continue` and the run proceeds: `_handle_error` with
no matching handler and a truthy `optional` flag returns the `continue`
outcome with no error; the `continue` verdict ends the attempt loop with
the step reported successful and no error; and a successful step exit
makes the `for step in steps` loop move on to the remaining steps. -/

theorem claim_C7_optional_continue :
    (∀ (env : Env) (cfg : SkillRunnerConfig) (error : SkillError)
        (step : PyDict) (spec : PyDict) (obs : Observation) (w : World),
        (find_error_handler env.ext cfg error (some step) spec obs).1
          = Option.none →
        pyTruthy (dGetD step "optional" .none) = true →
        handle_error env cfg error (some step) spec obs w =
          .ok (w, { resolution := "continue", error := Option.none })) ∧
    (∀ (env : Env) (stepPolicy : RetryPolicy) (attempt : Int)
        (outcome : HandlerOutcome) (error : SkillError)
        (records : List StepAttemptRecord) (w : World) (obs : Observation),
        outcome.resolution = "continue" →
        applyVerdict env stepPolicy attempt outcome error records w obs =
          .finish w obs (.ret true Option.none) records) ∧
    (∀ (env : Env) (cfg : SkillRunnerConfig) (spec step : PyDict)
        (rest : List PyVal) (w : World) (obs : Observation)
        (e : Option SkillError),
        (run_step env cfg step spec w obs).exit = .ret true e →
        run_steps_loop env cfg spec (.dict step :: rest) w obs =
          (match run_steps_loop env cfg spec rest
              (run_step env cfg step spec w obs).w
              (run_step env cfg step spec w obs).obs with
            | .allOk w1 obs1 reps => .allOk w1 obs1
                (⟨asStr (dGetD step "id" (.str "unknown")),
                  (run_step env cfg step spec w obs).records, true⟩ :: reps)
            | .failed w1 obs1 reps e2 => .failed w1 obs1
                (⟨asStr (dGetD step "id" (.str "unknown")),
                  (run_step env cfg step spec w obs).records, true⟩ :: reps) e2
            | .crashed w1 m reps => .crashed w1 m
                (⟨asStr (dGetD step "id" (.str "unknown")),
                  (run_step env cfg step spec w obs).records, true⟩ :: reps))) := by
  refine ⟨?_, ?_, ?_⟩
  · intro env cfg error step spec obs w hfind hopt
    rcases hf : find_error_handler env.ext cfg error (some step) spec obs
      with ⟨h?, ro⟩
    rw [hf] at hfind
    simp only at hfind
    subst hfind
    simp only [handle_error, hf, hopt, if_pos]
  · intro env stepPolicy attempt outcome error records w obs hres
    simp only [applyVerdict, hres, if_pos]
  · intro env cfg spec step rest w obs e hexit
    simp only [run_steps_loop, hexit, if_pos]

/-- An optional step whose guard is false on `testObs` (wrong app). -/
def stepC7 : PyDict :=
  [("id", .str "s1"), ("optional", .bool true),
   ("guard", .dict [("app_is", .str "other")])]

/-- Skill spec with the single optional step and no error handlers. -/
def specC7 : PyDict := [("steps", .list [.dict stepC7])]

/-- The guard-failed error raised inside the C7 witness run. -/
def errC7 : SkillError :=
  ⟨.SCREEN_MISMATCH, "Step guard failed", "guard", some "s1", Option.none,
    some 1, [], false⟩

/-- Witness for C7: the optional step fails its guard, resolves
`continue`, and the whole steps loop succeeds with the step recorded as
succeeded. -/
theorem claim_C7_optional_continue_witness :
    handle_error testEnv {} errC7 (some stepC7) specC7 testObs {} =
      .ok ({}, { resolution := "continue", error := Option.none }) ∧
    applyVerdict testEnv {} 1
        { resolution := "continue", error := Option.none } errC7 [] {} testObs
      = .finish {} testObs (.ret true Option.none) [] ∧
    run_steps_loop testEnv {} specC7 [.dict stepC7] {} testObs =
      .allOk ⟨1, 0, 0, 0, [.captureEv]⟩ testObs
        [⟨"s1", [⟨1, Option.none, false, some errC7⟩], true⟩] :=
  ⟨claim_C7_optional_continue.1 testEnv {} errC7 stepC7 specC7 testObs {}
      (by decide) (by decide),
    claim_C7_optional_continue.2.1 testEnv {} 1
      { resolution := "continue", error := Option.none } errC7 [] {} testObs
      rfl,
    (claim_C7_optional_continue.2.2 testEnv {} specC7 stepC7 [] {} testObs
      Option.none (by decide)).trans (by decide)⟩


/-! ### The skill router (`skills/router.py`), System 2
(`cota/system2.py`) and the coordinator (`cota/coordinator.py`) -/

/-- `SkillDirective` (`skills/router.py`).  `skill_id` is kept as a
Python value: a JSON directive can carry any shape there. -/
structure SkillDirective where
  skill_id : PyVal
  inputs : PyDict
  reason : String
deriving DecidableEq

/-- `SkillRouterConfig` (`skills/router.py`). -/
structure SkillRouterConfig where
  enabled : Bool := true
  risk_first : Bool := true
  min_score : Int := 1
  allow_directive : Bool := true
  enable_shadow : Bool := true
  allow_shadow_execution : Bool := false
  enforce_skill_whitelist : Bool := false
  skill_whitelist : List String := []
  enforce_on_risk : Bool := false
  risk_keywords : List String := []
  default_vocab_path : Option String := some "skills/common/vocab.yaml"
deriving DecidableEq

/-- `RoutingDecision` (`skills/router.py`). -/
structure RoutingDecision where
  action : String
  directive : Option SkillDirective := Option.none
  reason : String := ""
deriving DecidableEq

/-- `SkillRouter._is_shadow`. -/
def is_shadow (spec : PyDict) : Bool :=
  if dGetD spec "status" .none = .str "shadow" then true
  else match dGetD spec "routing" (.dict []) with
    | .dict rf => dGetD rf "shadow" .none = .bool true
    | _ => false

/-- The vocab file `_load_vocab` opens for a spec, if any: the
`vocab_path` of the spec or else the configured default, when that is a truthy
string (a falsy path skips the read; a truthy non-string makes `open`
raise, swallowed by the bare `except`). -/
def vocabPathOf (cfg : SkillRouterConfig) (spec : PyDict) : Option String :=
  let pathV : PyVal := pyOr (dGetD spec "vocab_path" PyVal.none)
    (match cfg.default_vocab_path with
      | some p => .str p
      | Option.none => PyVal.none)
  if pyTruthy pathV then
    (match pathV with
      | .str p => some p
      | _ => Option.none)
  else Option.none

/-- `SkillRouter._load_vocab`: the inline `vocab` dict updated with the
YAML document behind `vocab_path` (or the configured default path); any
open/parse failure, or a non-dict document, leaves the inline part. -/
def load_vocab (E : ExtLib) (fs : String → Option String)
    (cfg : SkillRouterConfig) (spec : PyDict) : PyDict :=
  let vocab : PyDict := match dGet spec "vocab" with
    | some (.dict f) => dUpdate [] f
    | _ => []
  match vocabPathOf cfg spec with
  | Option.none => vocab
  | some p =>
      (match fs p with
        | Option.none => vocab
        | some content =>
            match E.yamlLoad content with
            | some (.dict d) => dUpdate vocab d
            | _ => vocab)

/-- `SkillRouter._expand_routing_list`: non-lists pass through; with an
empty vocabulary the list passes through unrendered; otherwise the list
is rendered against the vocabulary and flattened to the non-blank
strings (one level of nested lists). -/
def expand_routing_list (E : ExtLib) (fs : String → Option String)
    (cfg : SkillRouterConfig) (values : PyVal) (spec : PyDict) : PyVal :=
  match values with
  | .list items =>
      let vocab := load_vocab E fs cfg spec
      if vocab.isEmpty then .list items
      else
        let renderedItems : List PyVal :=
          match render_templates (.list items) vocab with
          | .list l => l
          | _ => []
        .list (renderedItems.foldr (fun item acc =>
          match item with
          | .list subs => (subs.filter (fun sub =>
              match sub with
              | .str s => pyStrip s ≠ ""
              | _ => false)) ++ acc
          | .str s => if pyStrip s ≠ "" then .str s :: acc else acc
          | _ => acc) [])
  | v => v

/-- The keyword-hit count of `_score_skill` (the generator inside
`sum(...)`): falsy keywords are skipped, truthy non-strings raise
`AttributeError`. -/
def keywordHits (lowered : String) : List PyVal → Except String Nat
  | [] => .ok 0
  | k :: rest =>
      if !pyTruthy k then keywordHits lowered rest
      else match k with
        | .str s => do
            let n ← keywordHits lowered rest
            .ok ((if containsSub lowered (pyLower s) then 1 else 0) + n)
        | _ => .error "AttributeError: casefold"

/-- The regex loop of `_score_skill`: the first pattern that compiles
and matches wins; compile errors are skipped; non-string patterns raise
`TypeError`. -/
def regexScan (E : ExtLib) (task : String) : List PyVal → Except String Bool
  | [] => .ok false
  | p :: rest =>
      match p with
      | .str pat =>
          if E.reOk pat then
            if E.reSearch true pat task then .ok true
            else regexScan E task rest
          else regexScan E task rest
      | _ => .error "TypeError: expected string pattern"

/-- `float(x)` where `_score_skill` reads `routing.get("priority", 0)`
(non-numeric priorities raise; numeric strings are outside the modelled
domain since YAML numbers parse as ints here). -/
def pyFloatArg : PyVal → Except String PyFloat
  | .int n => .ok ⟨n, 1⟩
  | .bool b => .ok (if b then ⟨1, 1⟩ else ⟨0, 1⟩)
  | _ => .error "TypeError: float() argument"

/-- `SkillRouter._score_skill`. -/
def score_skill (E : ExtLib) (fs : String → Option String)
    (cfg : SkillRouterConfig) (spec : PyDict) (task : String)
    (obs : Option Observation) : Except String (PyFloat × String) := do
  let routing : PyDict := match dGet spec "routing" with
    | some (.dict rf) => rf
    | _ => []
  let mut score ← pyFloatArg (dGetD routing "priority" (.int 0))
  let mut reason := ""
  -- Keyword match
  match expand_routing_list E fs cfg (dGetD routing "keywords" PyVal.none)
      spec with
  | .list kws =>
      if !kws.isEmpty then
        let lowered := pyLower task
        let hits ← keywordHits lowered kws
        let keyword_mode := dGetD routing "keyword_mode" (.str "any")
        if keyword_mode = .str "all" ∧ hits < kws.length then
          return (⟨0, 1⟩, "keyword-miss")
        if hits = 0 then
          return (⟨0, 1⟩, "keyword-miss")
        score := score.add (PyFloat.ofInt (hits * 10))
        reason := "keyword"
  | _ => pure ()
  -- Regex match
  match expand_routing_list E fs cfg (dGetD routing "task_regex" PyVal.none)
      spec with
  | .list pats =>
      if !pats.isEmpty then
        let found ← regexScan E task pats
        if found then
          score := score.add (PyFloat.ofInt 8)
          reason := "regex"
        else
          return (⟨0, 1⟩, "regex-miss")
  | _ => pure ()
  -- Require app
  let require_app := dGetD routing "require_app" PyVal.none
  match obs with
  | some o =>
      if pyTruthy require_app then
        match require_app with
        | .list apps =>
            if apps.contains (.str o.app_name) then
              score := score.add (PyFloat.ofInt 5)
            else
              return (⟨0, 1⟩, "app-miss")
        | .str a =>
            if o.app_name = a then
              score := score.add (PyFloat.ofInt 5)
            else
              return (⟨0, 1⟩, "app-miss")
        | _ => pure ()
  | Option.none => pure ()
  -- Optional preconditions
  let preconds := dGetD routing "preconditions" PyVal.none
  match obs with
  | some o =>
      if pyTruthy preconds then
        match evaluate_condition E preconds o with
        | some false => return (⟨0, 1⟩, "precondition-miss")
        | some true => score := score.add (PyFloat.ofInt 4)
        | Option.none => pure ()
  | Option.none => pure ()
  -- Risk boost
  if cfg.risk_first then
    if dGetD spec "risk" PyVal.none = .str "high" then
      score := score.add (PyFloat.ofInt 6)
    else if dGetD spec "risk" PyVal.none = .str "medium" then
      score := score.add (PyFloat.ofInt 3)
  return (score, if reason = "" then "routing" else reason)

/-- Python `\\s` on the character set reachable in tasks. -/
def pySpace (c : Char) : Bool :=
  c = ' ' ∨ c = Char.ofNat 9 ∨ c = Char.ofNat 10 ∨ c = Char.ofNat 13 ∨
    c = Char.ofNat 11 ∨ c = Char.ofNat 12

/-- A character the inline-directive capture group accepts
(`[^\\s\\]|\\|]+`: anything but whitespace, `]` and `|`). -/
def skillTokenChar (c : Char) : Bool := !(pySpace c || c = ']' || c = '|')

/-- The literal `skill:` the inline-directive pattern requires. -/
def skillLit : List Char := ['s', 'k', 'i', 'l', 'l', ':']

/-- The search for `(?:^|\\s)skill:([^\\s\\]|\\|]+)`: at each position
that starts the string or follows whitespace, try `skill:` followed by a
non-empty run of acceptable characters; leftmost match wins. -/
def scanSkillDirective : Bool → List Char → Option String
  | _, [] => Option.none
  | boundary, c :: rest =>
      if boundary ∧ skillLit.isPrefixOf (c :: rest) ∧
          ¬((c :: rest).drop 6).takeWhile skillTokenChar = [] then
        some (String.mk (((c :: rest).drop 6).takeWhile skillTokenChar))
      else scanSkillDirective (pySpace c) rest

/-- The characters after the first `|`, if any (`task.split("|", 1)`). -/
def splitBarAfter : List Char → Option (List Char)
  | [] => Option.none
  | c :: rest => if c = '|' then some rest else splitBarAfter rest

/-- `SkillRouter._parse_directive`. -/
def parse_directive (E : ExtLib) (task : String) : Option SkillDirective :=
  let text := pyStrip task
  let jsonTry : Option SkillDirective :=
    if text.data.head? = some lbraceChar ∧
        text.data.getLast? = some rbraceChar then
      match E.jsonLoads text with
      | some (.dict pf) =>
          if hasKey pf "skill_id" || hasKey pf "skill" then
            some ⟨pyOr (dGetD pf "skill_id" .none) (dGetD pf "skill" .none),
              (match dGet pf "inputs" with
                | some (.dict inf) => inf
                | _ => []),
              "json-directive"⟩
          else Option.none
      | _ => Option.none
    else Option.none
  match jsonTry with
  | some d => some d
  | Option.none =>
      match scanSkillDirective true task.data with
      | some sid =>
          some ⟨.str (pyStrip sid),
            (match splitBarAfter task.data with
              | some restChars =>
                  (match E.jsonLoads (pyStrip (String.mk restChars)) with
                    | some (.dict inf) => inf
                    | _ => [])
              | Option.none => []),
            "inline-directive"⟩
      | Option.none => Option.none

/-- `SkillRouter._risk_block`. -/
def risk_block (cfg : SkillRouterConfig) (task : String) : Bool :=
  if !cfg.enforce_on_risk then false
  else
    let lowered := pyLower task
    cfg.risk_keywords.any (fun k => k ≠ "" && containsSub lowered (pyLower k))

/-- `SkillRouter._is_blocked` (a non-string directive skill id is never
in the string whitelist). -/
def is_blocked (cfg : SkillRouterConfig) (skill_idV : PyVal) (task : String) :
    Bool :=
  let inWhitelist := match skill_idV with
    | .str s => cfg.skill_whitelist.contains s
    | _ => false
  if cfg.enforce_skill_whitelist && !inWhitelist then true
  else risk_block cfg task && !inWhitelist

/-- The candidate-gathering loop of `SkillRouter.select` (lines 71–102),
in registry order.  A shadow skill is scored for the shadow list and —
only when shadow execution is allowed — scored a second time for the
executable candidates. -/
def route_candidates (E : ExtLib) (fs : String → Option String)
    (cfg : SkillRouterConfig) (task : String) (obs : Option Observation) :
    List SkillDef → Except String
      (List (PyFloat × SkillDirective) × List (PyFloat × SkillDirective))
  | [] => .ok ([], [])
  | skill :: rest =>
      if is_shadow skill.spec then
        if !cfg.enable_shadow then route_candidates E fs cfg task obs rest
        else do
          let sr ← score_skill E fs cfg skill.spec task obs
          let shadowEntry : List (PyFloat × SkillDirective) :=
            if PyFloat.le (PyFloat.ofInt cfg.min_score) sr.1 then
              [(sr.1, ⟨.str skill.skill_id, [],
                if sr.2 = "" then "shadow-match" else sr.2⟩)]
            else []
          if !cfg.allow_shadow_execution then do
            let (cs, ss) ← route_candidates E fs cfg task obs rest
            .ok (cs, shadowEntry ++ ss)
          else do
            let sr2 ← score_skill E fs cfg skill.spec task obs
            let candEntry : List (PyFloat × SkillDirective) :=
              if PyFloat.le (PyFloat.ofInt cfg.min_score) sr2.1 then
                [(sr2.1, ⟨.str skill.skill_id, [],
                  if sr2.2 = "" then "routing-match" else sr2.2⟩)]
              else []
            let (cs, ss) ← route_candidates E fs cfg task obs rest
            .ok (candEntry ++ cs, shadowEntry ++ ss)
      else do
        let sr ← score_skill E fs cfg skill.spec task obs
        let candEntry : List (PyFloat × SkillDirective) :=
          if PyFloat.le (PyFloat.ofInt cfg.min_score) sr.1 then
            [(sr.1, ⟨.str skill.skill_id, [],
              if sr.2 = "" then "routing-match" else sr.2⟩)]
          else []
        let (cs, ss) ← route_candidates E fs cfg task obs rest
        .ok (candEntry ++ cs, ss)

/-- Descending stable order on scored directives (`sort(key=item[0],
reverse=True)`). -/
def scoreGE (a b : PyFloat × SkillDirective) : Bool := PyFloat.le b.1 a.1

/-- The top-scored directive after the stable descending sort. -/
def pickTop (l : List (PyFloat × SkillDirective)) : Option SkillDirective :=
  ((stableSortBy scoreGE l).head?).map Prod.snd

/-- Registry lookup keyed by a directive skill id of any shape. -/
def regGetV (reg : Registry) : PyVal → Option SkillDef
  | .str s => regGet reg s
  | _ => Option.none

/-- `SkillRouter.select`. -/
def skillrouter_select (E : ExtLib) (fs : String → Option String)
    (cfg : SkillRouterConfig) (reg : Registry) (task : String)
    (obs : Option Observation) : Except String RoutingDecision :=
  if !cfg.enabled then .ok ⟨"none", Option.none, ""⟩
  else
    match (if cfg.allow_directive then parse_directive E task
      else Option.none) with
    | some d =>
        if is_blocked cfg d.skill_id task then
          .ok ⟨"block", Option.none, "whitelist-block"⟩
        else
          (match regGetV reg d.skill_id with
            | some skill =>
                if is_shadow skill.spec && !cfg.allow_shadow_execution then
                  .ok ⟨"shadow", some d, "shadow-directive"⟩
                else .ok ⟨"skill", some d, d.reason⟩
            | Option.none => .ok ⟨"none", Option.none, ""⟩)
    | Option.none => do
        let (candidates, shadow_candidates) ←
          route_candidates E fs cfg task obs reg
        if candidates.isEmpty then
          if !shadow_candidates.isEmpty then
            match pickTop shadow_candidates with
            | some d => .ok ⟨"shadow", some d, d.reason⟩
            | Option.none => .ok ⟨"none", Option.none, ""⟩
          else if risk_block cfg task then
            .ok ⟨"block", Option.none, "risk-requires-skill"⟩
          else .ok ⟨"none", Option.none, ""⟩
        else
          match pickTop candidates with
          | some d =>
              if is_blocked cfg d.skill_id task then
                .ok ⟨"block", Option.none, "whitelist-block"⟩
              else .ok ⟨"skill", some d, d.reason⟩
          | Option.none => .ok ⟨"none", Option.none, ""⟩

/-- `System2Config` / `COTAConfig`, restricted to the fields `plan` /
`recover` read, together with the wiring flags of
`SlowPlannerSystem.__init__` (which optional collaborators exist). -/
structure System2M where
  enable_skill_routing : Bool := true
  enable_exception_skills : Bool := true
  enable_vlm_recovery : Bool := false
  vlm_confidence_threshold : PyFloat := ⟨13, 20⟩
  exception_skill_map : List (String × String) :=
    [("SCREEN_MISMATCH", "adapt_ui_change"),
     ("TARGET_NOT_FOUND", "adapt_ui_change"),
     ("ACTION_FAILED", "handle_interaction_error"),
     ("ACTION_EXCEPTION", "handle_device_error"),
     ("DEVICE_ERROR", "handle_device_error"),
     ("POSTCONDITION_FAILED", "handle_postcondition_error"),
     ("TIMEOUT", "handle_postcondition_error"),
     ("ERROR_SCREEN_DETECTED", "handle_interaction_error")]
  hasRouter : Bool := true
  hasRegistry : Bool := true
  hasVlm : Bool := false
  routerCfg : SkillRouterConfig := {}
  reg : Registry := []

/-- `PlanStepKind` (`cota/types.py`). -/
inductive PlanStepKind where
  | SKILL
  | INTENT
  | LLM
  | WAIT
deriving DecidableEq

/-- `PlanStep` (`cota/types.py`), restricted to the fields the
coordinator and planner read. -/
structure PlanStep where
  step_id : String
  kind : PlanStepKind
  skill_id : PyVal := PyVal.none
  inputs : PyDict := []
  description : String := ""
deriving DecidableEq

/-- `Plan` (`cota/types.py`). -/
structure Plan where
  task : String
  steps : List PlanStep
  reason : String := ""
  blocked : Bool := false
  blocked_reason : String := ""
deriving DecidableEq

/-- `RecoveryDecision` (`cota/system2.py`). -/
structure RecoveryDecision where
  action : String
  step : Option PlanStep := Option.none
  reason : String := ""
deriving DecidableEq

/-- `SlowPlannerSystem.plan` (the learning recorder only logs and is
outside the modelled scope; a router exception propagates). -/
def system2_plan (E : ExtLib) (fs : String → Option String) (s2 : System2M)
    (task : String) (obs : Option Observation) : Except String Plan :=
  if s2.enable_skill_routing && s2.hasRouter && s2.hasRegistry then do
    let decision ← skillrouter_select E fs s2.routerCfg s2.reg task obs
    if decision.action = "block" then
      .ok ⟨task, [], "blocked", true, decision.reason⟩
    else
      match decision.directive with
      | some dir =>
          if decision.action = "shadow" then
            .ok ⟨task, [], "shadow", true, "shadow-match"⟩
          else if decision.action = "skill" then
            .ok ⟨task, [⟨"skill_1", .SKILL, dir.skill_id, dir.inputs,
              dir.reason⟩], decision.reason, false, ""⟩
          else
            .ok ⟨task, [], "no_skill_match", true, "no_skill_match"⟩
      | Option.none =>
          .ok ⟨task, [], "no_skill_match", true, "no_skill_match"⟩
  else .ok ⟨task, [], "no_skill_match", true, "no_skill_match"⟩

/-- `VLMAnalysis` (`cota/vlm_analyzer.py`), restricted to the fields
`recover` reads. -/
structure VLMAnalysisM where
  confidence : PyFloat
  suggested_skill : Option String
deriving DecidableEq

/-- `SlowPlannerSystem._list_recovery_skills`. -/
def list_recovery_skills (s2 : System2M) : List String :=
  if !s2.hasRegistry then []
  else s2.reg.filterMap (fun sk =>
    if dGetD sk.spec "level" .none = .int 3 ∨
        dGetD sk.spec "role" .none = .str "recovery" then
      some sk.skill_id
    else Option.none)

/-- `SlowPlannerSystem._analyze_exception`.  `analyzeFn` is the
`VLMExceptionAnalyzer.analyze` oracle (`None` covers both a `None`
result and a raised exception). -/
def analyze_exception (s2 : System2M)
    (analyzeFn : Observation → SkillError → List String → Option VLMAnalysisM)
    (error : SkillError) (obs : Option Observation) : Option VLMAnalysisM :=
  if !s2.enable_vlm_recovery || !s2.hasVlm then Option.none
  else match obs with
    | Option.none => Option.none
    | some o =>
        let recovery := list_recovery_skills s2
        if recovery.isEmpty then Option.none
        else match analyzeFn o error recovery with
          | Option.none => Option.none
          | some analysis =>
              if PyFloat.lt analysis.confidence s2.vlm_confidence_threshold
              then Option.none
              else match analysis.suggested_skill with
                | some sid =>
                    if sid ≠ "" ∧ recovery.contains sid then some analysis
                    else Option.none
                | Option.none => Option.none

/-- `SlowPlannerSystem._build_skill_step`. -/
def build_skill_step (s2 : System2M) (sid : String) (reason : String) :
    Option PlanStep :=
  if s2.hasRegistry ∧ (regGet s2.reg sid).isSome then
    some ⟨"recovery_" ++ sid, .SKILL, .str sid, [], reason⟩
  else Option.none

/-- `SlowPlannerSystem._map_error_to_skill`. -/
def map_error_to_skill (s2 : System2M) (error : SkillError) : Option String :=
  (s2.exception_skill_map.find? (fun kv => kv.1 = error.code.value)).map
    Prod.snd

/-- `SlowPlannerSystem.recover`. -/
def system2_recover (s2 : System2M)
    (analyzeFn : Observation → SkillError → List String → Option VLMAnalysisM)
    (error : SkillError) (obs : Option Observation) : RecoveryDecision :=
  if !s2.enable_exception_skills then
    ⟨"none", Option.none, "exception_skills_disabled"⟩
  else
    let viaVlm : Option PlanStep :=
      match analyze_exception s2 analyzeFn error obs with
      | some analysis =>
          (match analysis.suggested_skill with
            | some sid =>
                if sid ≠ "" then build_skill_step s2 sid "vlm_recovery"
                else Option.none
            | Option.none => Option.none)
      | Option.none => Option.none
    match viaVlm with
    | some step => ⟨"skill", some step, "vlm_recovery"⟩
    | Option.none =>
        match map_error_to_skill s2 error with
        | some sid =>
            if sid ≠ "" ∧ s2.hasRegistry ∧ (regGet s2.reg sid).isSome then
              ⟨"skill", some ⟨"recovery_" ++ sid, .SKILL, .str sid, [],
                "exception_recovery"⟩, "mapped_exception"⟩
            else ⟨"none", Option.none, "no_recovery_skill"⟩
        | Option.none => ⟨"none", Option.none, "no_recovery_skill"⟩

/-- Ghost trace of the coordinator's outward calls. -/
inductive CoordEvent where
  | runEv (skill_id : PyVal) (inputs : PyDict)
  | intentEv
deriving DecidableEq

/-- The coordinator's mutable state: call counters per collaborator and
the ghost event trace. -/
structure CoordWorld where
  runs : Nat := 0
  captures : Nat := 0
  intents : Nat := 0
  trace : List CoordEvent := []
deriving DecidableEq

/-- The coordinator's collaborators as oracle streams: skill-runner
results by run-call index, `_safe_capture` results (`none` = a capture
exception swallowed to `None`), `execute_intent` success by intent-call
index, and `System2.recover` as a pure function (which
`system2_recover` instantiates). -/
structure CoordEnv where
  runAt : Nat → SkillRunResultM
  captureAt : Nat → Option Observation
  intentAt : Nat → Bool
  recoverFn : SkillError → Option Observation → RecoveryDecision

/-- `self.skill_runner.run(skill_id, inputs)`. -/
def coordRunSkill (cenv : CoordEnv) (w : CoordWorld) (sid : PyVal)
    (inputs : PyDict) : CoordWorld × SkillRunResultM :=
  ({ w with
      runs := w.runs + 1
      trace := w.trace ++ [.runEv sid inputs] },
    cenv.runAt w.runs)

/-- `COTACoordinator._safe_capture`. -/
def coordSafeCapture (cenv : CoordEnv) (w : CoordWorld) :
    CoordWorld × Option Observation :=
  ({ w with captures := w.captures + 1 }, cenv.captureAt w.captures)

/-- `self.system1.execute_intent(...)` (`true` = a non-`None` result). -/
def coordIntent (cenv : CoordEnv) (w : CoordWorld) : CoordWorld × Bool :=
  ({ w with
      intents := w.intents + 1
      trace := w.trace ++ [.intentEv] },
    cenv.intentAt w.intents)

/-- Python `msg or fallback` on result messages. -/
def msgOr (msg fallback : String) : String :=
  if msg = "" then fallback else msg

/-- The `for step in plan.steps` loop of `COTACoordinator.run`
(`cota/coordinator.py` lines 38–82), including the recovery protocol of
the SKILL branch.  `WAIT` steps match no branch and fall through. -/
def coordLoop (cenv : CoordEnv) (hasRunner : Bool) :
    List PlanStep → Option Observation → CoordWorld → CoordWorld × String
  | [], _, w => (w, "Task completed")
  | step :: rest, obs, w =>
      match step.kind with
      | .LLM => (w, "LLM engine is disabled")
      | .WAIT => coordLoop cenv hasRunner rest obs w
      | .INTENT =>
          let pi := coordIntent cenv w
          if !pi.2 then (pi.1, "Intent execution failed")
          else
            let pc := coordSafeCapture cenv pi.1
            coordLoop cenv hasRunner rest pc.2 pc.1
      | .SKILL =>
          if !hasRunner then (w, "Skill runner not configured")
          else
            let pr := coordRunSkill cenv w step.skill_id step.inputs
            let w1 := pr.1
            let result := pr.2
            if result.success then
              let pc := coordSafeCapture cenv w1
              coordLoop cenv hasRunner rest pc.2 pc.1
            else
              match result.error with
              | Option.none => (w1, msgOr result.message "Task failed")
              | some err =>
                  if err.requires_takeover then
                    (w1, msgOr result.message "Manual takeover required")
                  else
                    let recovery := cenv.recoverFn err obs
                    match recovery.action == "skill", recovery.step with
                    | true, some rstep =>
                        let prr := coordRunSkill cenv w1 rstep.skill_id
                          rstep.inputs
                        if prr.2.success then
                          let prt := coordRunSkill cenv prr.1 step.skill_id
                            step.inputs
                          if prt.2.success then
                            let pc := coordSafeCapture cenv prt.1
                            coordLoop cenv hasRunner rest pc.2 pc.1
                          else (prt.1, msgOr prt.2.message
                            "Task failed after recovery")
                        else (prr.1, msgOr prr.2.message "Recovery failed")
                    | _, _ =>
                        if recovery.action = "llm" then
                          (w1, "LLM engine is disabled")
                        else (w1, msgOr result.message "Task failed")

/-- `COTACoordinator.run`: capture, plan, the blocked-plan messages, and
the step loop.  `planFn` abstracts `System2.plan` (which `system2_plan`
instantiates when the router does not raise). -/
def coordinator_run (cenv : CoordEnv) (hasRunner : Bool)
    (planFn : String → Option Observation → Plan) (task : String)
    (w : CoordWorld) : CoordWorld × String :=
  let pc := coordSafeCapture cenv w
  let plan := planFn task pc.2
  if plan.blocked then
    (pc.1, if plan.blocked_reason = "no_skill_match" then
        "No matching skill for task"
      else "Blocked: " ++ plan.blocked_reason)
  else coordLoop cenv hasRunner plan.steps pc.2 pc.1



/-! ### C9: router purity and the vocab filesystem -/


/-- `_load_vocab` only reads the file named by `vocabPathOf`. -/
theorem load_vocab_frame (E : ExtLib) (cfg : SkillRouterConfig)
    (spec : PyDict) (fs1 fs2 : String → Option String)
    (h : ∀ p, vocabPathOf cfg spec = some p → fs1 p = fs2 p) :
    load_vocab E fs1 cfg spec = load_vocab E fs2 cfg spec := by
  simp only [load_vocab]
  match hv : vocabPathOf cfg spec with
  | Option.none => rfl
  | some p =>
      dsimp only
      rw [h p hv]

/-- `_expand_routing_list` only reads the vocab file of its spec. -/
theorem expand_routing_list_frame (E : ExtLib) (cfg : SkillRouterConfig)
    (values : PyVal) (spec : PyDict) (fs1 fs2 : String → Option String)
    (h : ∀ p, vocabPathOf cfg spec = some p → fs1 p = fs2 p) :
    expand_routing_list E fs1 cfg values spec =
      expand_routing_list E fs2 cfg values spec := by
  match values with
  | .list items =>
      simp only [expand_routing_list]
      rw [load_vocab_frame E cfg spec fs1 fs2 h]
  | .none => rfl
  | .bool b => rfl
  | .int n => rfl
  | .str s => rfl
  | .dict d => rfl

/-- `_score_skill` only reads the vocab file of its spec. -/
theorem score_skill_frame (E : ExtLib) (cfg : SkillRouterConfig)
    (spec : PyDict) (task : String) (obs : Option Observation)
    (fs1 fs2 : String → Option String)
    (h : ∀ p, vocabPathOf cfg spec = some p → fs1 p = fs2 p) :
    score_skill E fs1 cfg spec task obs =
      score_skill E fs2 cfg spec task obs := by
  have hexp := fun v => expand_routing_list_frame E cfg v spec fs1 fs2 h
  simp only [score_skill, hexp]

/-- The candidate loop only reads the vocab files of the registry. -/
theorem route_candidates_frame (E : ExtLib) (cfg : SkillRouterConfig)
    (task : String) (obs : Option Observation)
    (fs1 fs2 : String → Option String) :
    ∀ (reg : List SkillDef)
      (_ : ∀ sk ∈ reg, ∀ p, vocabPathOf cfg sk.spec = some p →
        fs1 p = fs2 p),
      route_candidates E fs1 cfg task obs reg =
        route_candidates E fs2 cfg task obs reg := by
  intro reg
  induction reg with
  | nil => intro _; rfl
  | cons skill rest ih =>
      intro h
      have hsk := h skill (List.mem_cons_self _ _)
      have hrest : ∀ sk ∈ rest, ∀ p, vocabPathOf cfg sk.spec = some p →
          fs1 p = fs2 p := fun sk hm => h sk (List.mem_cons_of_mem _ hm)
      have hscore := score_skill_frame E cfg skill.spec task obs fs1 fs2 hsk
      simp only [route_candidates, hscore, ih hrest]

/-- `select` only reads the vocab files of the registry. -/
theorem skillrouter_select_frame (E : ExtLib) (cfg : SkillRouterConfig)
    (reg : Registry) (task : String) (obs : Option Observation)
    (fs1 fs2 : String → Option String)
    (h : ∀ sk ∈ reg, ∀ p, vocabPathOf cfg sk.spec = some p →
      fs1 p = fs2 p) :
    skillrouter_select E fs1 cfg reg task obs =
      skillrouter_select E fs2 cfg reg task obs := by
  simp only [skillrouter_select,
    route_candidates_frame E cfg task obs fs1 fs2 reg h]



/-- External-library oracle for the C9 scenario: the YAML loader parses
the two vocab documents. -/
def extC9 : ExtLib :=
  ⟨fun _ => false, fun _ _ _ => false, fun _ => Option.none,
    fun c => if c = "kw: hello" then some (.dict [("kw", .str "hello")])
      else if c = "kw: bye" then some (.dict [("kw", .str "bye")])
      else Option.none⟩

/-- A skill routed by a vocabulary placeholder keyword. -/
def skillC9 : SkillDef :=
  ⟨"greet", [("routing", .dict [("keywords",
    .list [.str "\x7b\x7bkw\x7d\x7d"])])]⟩

/-- The C9 registry. -/
def regC9 : Registry := [skillC9]

/-- Filesystem whose vocab file maps `kw` to "hello". -/
def fsC9a : String → Option String :=
  fun p => if p = "skills/common/vocab.yaml" then some "kw: hello"
    else Option.none

/-- Filesystem whose vocab file maps `kw` to "bye". -/
def fsC9b : String → Option String :=
  fun p => if p = "skills/common/vocab.yaml" then some "kw: bye"
    else Option.none

/-- `fsC9a` changed only outside the consulted vocab path. -/
def fsC9c : String → Option String :=
  fun p => if p = "unrelated.txt" then some "junk" else fsC9a p

/-- C9 counterexample: two `select` calls with identical task,
observation, registry and config — only the CONTENTS of the vocab file
behind the default `vocab_path` differ — return different decisions
("skill" vs "none").  `select` is therefore not a pure function of
(task, observation, registry state): `_load_vocab` re-reads the
filesystem on every scoring pass. -/
theorem claim_C9_counterexample :
    skillrouter_select extC9 fsC9a {} regC9 "hello" Option.none =
      .ok ⟨"skill", some ⟨.str "greet", [], "keyword"⟩, "keyword"⟩ ∧
    skillrouter_select extC9 fsC9b {} regC9 "hello" Option.none =
      .ok ⟨"none", Option.none, ""⟩ := by
  constructor
  · decide
  · decide

/-- C9 (amended): `select` is a pure function of the task, the
observation, the registry state, the config, the re/json/yaml oracles
AND the contents of the vocab files it consults — two invocations
whose filesystems agree on every `vocabPathOf` path of the registry
return the same decision. -/
theorem claim_C9_router_purity (E : ExtLib) (cfg : SkillRouterConfig)
    (reg : Registry) (task : String) (obs : Option Observation)
    (fs1 fs2 : String → Option String)
    (h : ∀ sk ∈ reg, ∀ p, vocabPathOf cfg sk.spec = some p →
      fs1 p = fs2 p) :
    skillrouter_select E fs1 cfg reg task obs =
      skillrouter_select E fs2 cfg reg task obs :=
  skillrouter_select_frame E cfg reg task obs fs1 fs2 h

/-- Witness for C9 (amended) at concrete inputs: changing the
filesystem outside the consulted vocab path leaves the decision
unchanged. -/
theorem claim_C9_router_purity_witness :
    skillrouter_select extC9 fsC9a {} regC9 "hello" Option.none =
      skillrouter_select extC9 fsC9c {} regC9 "hello" Option.none :=
  claim_C9_router_purity extC9 {} regC9 "hello" Option.none fsC9a fsC9c
    (by
      intro sk hsk p hp
      have hs : sk = skillC9 := List.mem_singleton.mp hsk
      subst hs
      have hv : vocabPathOf ({} : SkillRouterConfig) skillC9.spec =
          some "skills/common/vocab.yaml" := by decide
      have hpp : p = "skills/common/vocab.yaml" :=
        (Option.some.inj (hv.symm.trans hp)).symm
      subst hpp
      decide)



/-! ### C8: shadow skills are never executed -/


/-- Membership through a stable insert. -/
theorem stableInsert_mem {α : Type} (le : α → α → Bool) (x y : α) :
    ∀ l : List α, y ∈ stableInsert le x l → y = x ∨ y ∈ l := by
  intro l
  induction l with
  | nil => intro h; simp [stableInsert] at h; exact Or.inl h
  | cons z zs ih =>
      intro h
      simp only [stableInsert] at h
      split_ifs at h with hle
      · rcases List.mem_cons.mp h with h1 | h2
        · exact Or.inr (List.mem_cons.mpr (Or.inl h1))
        · rcases ih h2 with h3 | h4
          · exact Or.inl h3
          · exact Or.inr (List.mem_cons.mpr (Or.inr h4))
      · rcases List.mem_cons.mp h with h1 | h2
        · exact Or.inl h1
        · exact Or.inr h2

/-- Membership through the stable sort (stated on its fold). -/
theorem stableSortBy_mem {α : Type} (le : α → α → Bool) (y : α) :
    ∀ (l acc : List α),
      y ∈ l.foldl (fun acc x => stableInsert le x acc) acc →
      y ∈ l ∨ y ∈ acc := by
  intro l
  induction l with
  | nil => intro acc h; exact Or.inr h
  | cons x xs ih =>
      intro acc h
      simp only [List.foldl_cons] at h
      rcases ih (stableInsert le x acc) h with h1 | h2
      · exact Or.inl (List.mem_cons.mpr (Or.inr h1))
      · rcases stableInsert_mem le x y acc h2 with h3 | h4
        · exact Or.inl (List.mem_cons.mpr (Or.inl (h3)))
        · exact Or.inr h4

/-- The top candidate after sorting is one of the candidates. -/
theorem pickTop_mem (l : List (PyFloat × SkillDirective)) (d : SkillDirective)
    (h : pickTop l = some d) : ∃ sc, (sc, d) ∈ l := by
  simp only [pickTop, Option.map_eq_some'] at h
  obtain ⟨⟨sc, d'⟩, hhead, hd⟩ := h
  subst hd
  have hmem : (sc, d') ∈ stableSortBy scoreGE l := List.mem_of_mem_head? hhead
  have := stableSortBy_mem scoreGE (sc, d') l [] hmem
  rcases this with h1 | h2
  · exact ⟨sc, h1⟩
  · cases h2

/-- With unique ids (the registry is a Python dict keyed by id),
`regGet` at the id of a member returns that member. -/
theorem regGet_of_mem_nodup (reg : Registry) (sk : SkillDef)
    (hnd : (reg.map SkillDef.skill_id).Nodup) (hm : sk ∈ reg) :
    regGet reg sk.skill_id = some sk := by
  induction reg with
  | nil => cases hm
  | cons sk0 rest ih =>
      simp only [List.map_cons, List.nodup_cons] at hnd
      rcases List.mem_cons.mp hm with h1 | h2
      · subst h1
        simp [regGet, List.find?]
      · have hne : sk0.skill_id ≠ sk.skill_id := by
          intro he
          exact hnd.1 (he ▸ List.mem_map_of_mem SkillDef.skill_id h2)
        have hd : decide (sk0.skill_id = sk.skill_id) = false :=
          decide_eq_false hne
        simp only [regGet, List.find?_cons, hd]
        simpa [regGet] using ih hnd.2 h2

/-- With shadow execution disallowed, every executable candidate names
a registered non-shadow skill. -/
theorem route_candidates_sound (E : ExtLib) (fs : String → Option String)
    (cfg : SkillRouterConfig) (task : String) (obs : Option Observation)
    (hallow : cfg.allow_shadow_execution = false) :
    ∀ (regpart : List SkillDef) (cs ss : List (PyFloat × SkillDirective)),
      route_candidates E fs cfg task obs regpart = .ok (cs, ss) →
      ∀ c ∈ cs, ∃ sk ∈ regpart, is_shadow sk.spec = false ∧
        c.2.skill_id = .str sk.skill_id := by
  intro regpart
  induction regpart with
  | nil =>
      intro cs ss h c hc
      simp only [route_candidates] at h
      obtain ⟨h1, _⟩ : cs = [] ∧ ss = [] := by
        have := Except.ok.inj h
        exact ⟨(congrArg Prod.fst this).symm, (congrArg Prod.snd this).symm⟩
      subst h1
      cases hc
  | cons skill rest ih =>
      intro cs ss h c hc
      by_cases hsh : is_shadow skill.spec
      · simp only [route_candidates, hsh, if_pos, hallow] at h
        by_cases hen : cfg.enable_shadow
        · simp only [hen, Bool.not_true, Bool.false_eq_true, if_false] at h
          match hsc : score_skill E fs cfg skill.spec task obs with
          | .error m => rw [hsc] at h; exact absurd h (by simp [Bind.bind, Except.bind])
          | .ok sr =>
              rw [hsc] at h
              simp only [Bind.bind, Except.bind, Bool.not_false, if_pos] at h
              match hrec : route_candidates E fs cfg task obs rest with
              | .error m =>
                  rw [hrec] at h; exact absurd h (by simp [Bind.bind, Except.bind])
              | .ok (cs', ss') =>
                  rw [hrec] at h
                  simp only [Bind.bind, Except.bind] at h
                  obtain ⟨h1, _⟩ : cs' = cs ∧ _ = ss := by
                    have := Except.ok.inj h
                    exact ⟨congrArg Prod.fst this, congrArg Prod.snd this⟩
                  subst h1
                  obtain ⟨sk, hm, hns, hid⟩ := ih _ _ hrec c hc
                  exact ⟨sk, List.mem_cons_of_mem _ hm, hns, hid⟩
        · simp only [hen, Bool.not_false, if_pos] at h
          obtain ⟨sk, hm, hns, hid⟩ := ih _ _ h c hc
          exact ⟨sk, List.mem_cons_of_mem _ hm, hns, hid⟩
      · simp only [route_candidates, hsh, Bool.false_eq_true, if_false] at h
        match hsc : score_skill E fs cfg skill.spec task obs with
        | .error m => rw [hsc] at h; exact absurd h (by simp [Bind.bind, Except.bind])
        | .ok sr =>
            rw [hsc] at h
            match hrec : route_candidates E fs cfg task obs rest with
            | .error m =>
                rw [hrec] at h; exact absurd h (by simp [Bind.bind, Except.bind])
            | .ok (cs', ss') =>
                rw [hrec] at h
                simp only [Bind.bind, Except.bind] at h
                obtain ⟨h1, h2⟩ : _ = cs ∧ ss' = ss := by
                  have := Except.ok.inj h
                  exact ⟨congrArg Prod.fst this, congrArg Prod.snd this⟩
                subst h1
                rcases List.mem_append.mp hc with h3 | h4
                · refine ⟨skill, List.mem_cons_self _ _, by simpa using hsh, ?_⟩
                  by_cases hge : PyFloat.le (PyFloat.ofInt cfg.min_score) sr.1
                  · simp only [hge, if_pos] at h3
                    rcases List.mem_singleton.mp h3 with rfl
                    rfl
                  · simp only [hge, Bool.false_eq_true, if_false] at h3
                    cases h3
                · obtain ⟨sk, hm, hns, hid⟩ := ih _ _ hrec c h4
                  exact ⟨sk, List.mem_cons_of_mem _ hm, hns, hid⟩


/-- With shadow execution disallowed, a "skill" decision of `select`
never names a shadow-flagged skill. -/
theorem skillrouter_select_no_shadow (E : ExtLib)
    (fs : String → Option String) (cfg : SkillRouterConfig) (reg : Registry)
    (task : String) (obs : Option Observation) (d : RoutingDecision)
    (dir : SkillDirective) (s : String) (skill : SkillDef)
    (hallow : cfg.allow_shadow_execution = false)
    (hnd : (reg.map SkillDef.skill_id).Nodup)
    (hsel : skillrouter_select E fs cfg reg task obs = .ok d)
    (hact : d.action = "skill")
    (hdir : d.directive = some dir)
    (hsid : dir.skill_id = .str s)
    (hreg : regGet reg s = some skill) :
    is_shadow skill.spec = false := by
  by_cases hen : cfg.enabled
  case neg =>
      simp only [skillrouter_select, hen, Bool.not_false, if_pos] at hsel
      obtain rfl : _ = d := Except.ok.inj hsel
      simp at hact
  case pos =>
  simp only [skillrouter_select, hen, Bool.not_true, Bool.false_eq_true,
    if_false] at hsel
  match hpd : (if cfg.allow_directive then parse_directive E task
      else Option.none) with
  | some d0 =>
      rw [hpd] at hsel
      by_cases hbl : is_blocked cfg d0.skill_id task
      · simp only [hbl, if_pos] at hsel
        obtain rfl : _ = d := Except.ok.inj hsel
        simp at hact
      · simp only [hbl, Bool.false_eq_true, if_false] at hsel
        match hrv : regGetV reg d0.skill_id with
        | some skill' =>
            rw [hrv] at hsel
            by_cases hshg : is_shadow skill'.spec &&
                !cfg.allow_shadow_execution
            · simp only [hshg, if_pos] at hsel
              obtain rfl : _ = d := Except.ok.inj hsel
              simp at hact
            · simp only [hshg, Bool.false_eq_true, if_false] at hsel
              obtain rfl : _ = d := Except.ok.inj hsel
              simp only at hdir
              obtain rfl : d0 = dir := Option.some.inj hdir
              rw [hsid] at hrv
              simp only [regGetV] at hrv
              rw [hreg] at hrv
              obtain rfl : skill' = skill := Option.some.inj hrv.symm
              simp only [hallow, Bool.not_false, Bool.and_true] at hshg
              simpa using hshg
        | Option.none =>
            rw [hrv] at hsel
            obtain rfl : _ = d := Except.ok.inj hsel
            simp at hact
  | Option.none =>
      rw [hpd] at hsel
      match hrc : route_candidates E fs cfg task obs reg with
      | .error m =>
          rw [hrc] at hsel
          exact absurd hsel (by simp [Bind.bind, Except.bind])
      | .ok (cs, ss) =>
          rw [hrc] at hsel
          simp only [Bind.bind, Except.bind] at hsel
          by_cases hcs : cs.isEmpty
          · simp only [hcs, if_pos] at hsel
            by_cases hss : ss.isEmpty
            · simp only [hss, Bool.not_true, Bool.false_eq_true,
                if_false] at hsel
              by_cases hrb : risk_block cfg task
              · simp only [hrb, if_pos] at hsel
                obtain rfl : _ = d := Except.ok.inj hsel
                simp at hact
              · simp only [hrb, Bool.false_eq_true, if_false] at hsel
                obtain rfl : _ = d := Except.ok.inj hsel
                simp at hact
            · simp only [hss, Bool.not_false, if_pos] at hsel
              match hpt : pickTop ss with
              | some d1 =>
                  rw [hpt] at hsel
                  obtain rfl : _ = d := Except.ok.inj hsel
                  simp at hact
              | Option.none =>
                  rw [hpt] at hsel
                  obtain rfl : _ = d := Except.ok.inj hsel
                  simp at hact
          · simp only [hcs, Bool.false_eq_true, if_false] at hsel
            match hpt : pickTop cs with
            | some d1 =>
                rw [hpt] at hsel
                by_cases hbl : is_blocked cfg d1.skill_id task
                · simp only [hbl, if_pos] at hsel
                  obtain rfl : _ = d := Except.ok.inj hsel
                  simp at hact
                · simp only [hbl, Bool.false_eq_true, if_false] at hsel
                  obtain rfl : _ = d := Except.ok.inj hsel
                  simp only at hdir
                  obtain rfl : dir = d1 := (Option.some.inj hdir).symm
                  obtain ⟨sc, hmem⟩ := pickTop_mem cs dir hpt
                  obtain ⟨sk, hmr, hns, hid⟩ :=
                    route_candidates_sound E fs cfg task obs hallow reg cs ss
                      hrc (sc, dir) hmem
                  simp only at hid
                  rw [hsid] at hid
                  obtain rfl : s = sk.skill_id := PyVal.str.inj hid
                  rw [regGet_of_mem_nodup reg sk hnd hmr] at hreg
                  obtain rfl : sk = skill := Option.some.inj hreg
                  exact hns
            | Option.none =>
                rw [hpt] at hsel
                obtain rfl : _ = d := Except.ok.inj hsel
                simp at hact


/-- A "shadow" decision makes `plan` return a blocked plan with no
steps. -/
theorem system2_plan_shadow_blocked (E : ExtLib)
    (fs : String → Option String) (s2 : System2M) (task : String)
    (obs : Option Observation) (d : RoutingDecision)
    (hflags : (s2.enable_skill_routing && s2.hasRouter && s2.hasRegistry)
      = true)
    (hsel : skillrouter_select E fs s2.routerCfg s2.reg task obs = .ok d)
    (hact : d.action = "shadow") :
    ∃ p, system2_plan E fs s2 task obs = .ok p ∧ p.blocked = true ∧
      p.steps = [] := by
  simp only [system2_plan, hflags, if_pos, Bind.bind, Except.bind, hsel]
  simp only [hact]
  match hd : d.directive with
  | some dir => exact ⟨_, rfl, rfl, rfl⟩
  | Option.none => exact ⟨_, rfl, rfl, rfl⟩

/-- With shadow execution disallowed, every SKILL step of a plan names
a registered non-shadow skill — shadow skills are never scheduled for
execution. -/
theorem system2_plan_skill_steps_sound (E : ExtLib)
    (fs : String → Option String) (s2 : System2M) (task : String)
    (obs : Option Observation) (p : Plan) (step : PlanStep) (s : String)
    (skill : SkillDef)
    (hallow : s2.routerCfg.allow_shadow_execution = false)
    (hnd : (s2.reg.map SkillDef.skill_id).Nodup)
    (hplan : system2_plan E fs s2 task obs = .ok p)
    (hstep : step ∈ p.steps) ( _hk : step.kind = .SKILL)
    (hsid : step.skill_id = .str s)
    (hreg : regGet s2.reg s = some skill) :
    is_shadow skill.spec = false := by
  by_cases hflags : (s2.enable_skill_routing && s2.hasRouter &&
      s2.hasRegistry) = true
  case neg =>
      simp only [hflags, if_false, system2_plan, Bool.false_eq_true] at hplan
      obtain rfl : _ = p := Except.ok.inj hplan
      cases hstep
  case pos =>
  simp only [system2_plan, hflags, if_pos] at hplan
  match hsel : skillrouter_select E fs s2.routerCfg s2.reg task obs with
  | .error m =>
      rw [hsel] at hplan
      exact absurd hplan (by simp [Bind.bind, Except.bind])
  | .ok d =>
      rw [hsel] at hplan
      simp only [Bind.bind, Except.bind] at hplan
      by_cases hbk : d.action = "block"
      · simp only [hbk, if_pos] at hplan
        obtain rfl : _ = p := Except.ok.inj hplan
        cases hstep
      · simp only [hbk, if_false] at hplan
        match hd : d.directive with
        | Option.none =>
            rw [hd] at hplan
            obtain rfl : _ = p := Except.ok.inj hplan
            cases hstep
        | some dir =>
            rw [hd] at hplan
            by_cases hsh : d.action = "shadow"
            · simp only [hsh, if_pos] at hplan
              obtain rfl : _ = p := Except.ok.inj hplan
              cases hstep
            · simp only [hsh, if_false] at hplan
              by_cases hsk : d.action = "skill"
              · simp only [hsk, if_pos] at hplan
                obtain rfl : _ = p := Except.ok.inj hplan
                have hst : step = ⟨"skill_1", .SKILL, dir.skill_id,
                    dir.inputs, dir.reason⟩ := List.mem_singleton.mp hstep
                have hds : dir.skill_id = .str s := by
                  rw [hst] at hsid
                  exact hsid
                exact skillrouter_select_no_shadow E fs s2.routerCfg s2.reg
                  task obs d dir s skill hallow hnd hsel hsk hd hds hreg
              · simp only [hsk, if_false] at hplan
                obtain rfl : _ = p := Except.ok.inj hplan
                cases hstep


/-- C8: when shadow execution is not allowed, `select` never returns a
"skill" decision naming a shadow-flagged skill; a matching shadow skill
surfaces only through the "shadow" action, which `plan` turns into a
blocked plan with no steps; and consequently no SKILL step of any plan
names a shadow skill, so a shadow skill is never executed. -/
theorem claim_C8_shadow_never_executed :
    (∀ (E : ExtLib) (fs : String → Option String) (cfg : SkillRouterConfig)
        (reg : Registry) (task : String) (obs : Option Observation)
        (d : RoutingDecision) (dir : SkillDirective) (s : String)
        (skill : SkillDef),
        cfg.allow_shadow_execution = false →
        (reg.map SkillDef.skill_id).Nodup →
        skillrouter_select E fs cfg reg task obs = .ok d →
        d.action = "skill" → d.directive = some dir →
        dir.skill_id = .str s → regGet reg s = some skill →
        is_shadow skill.spec = false) ∧
    (∀ (E : ExtLib) (fs : String → Option String) (s2 : System2M)
        (task : String) (obs : Option Observation) (d : RoutingDecision),
        (s2.enable_skill_routing && s2.hasRouter && s2.hasRegistry) = true →
        skillrouter_select E fs s2.routerCfg s2.reg task obs = .ok d →
        d.action = "shadow" →
        ∃ p, system2_plan E fs s2 task obs = .ok p ∧ p.blocked = true ∧
          p.steps = []) ∧
    (∀ (E : ExtLib) (fs : String → Option String) (s2 : System2M)
        (task : String) (obs : Option Observation) (p : Plan)
        (step : PlanStep) (s : String) (skill : SkillDef),
        s2.routerCfg.allow_shadow_execution = false →
        (s2.reg.map SkillDef.skill_id).Nodup →
        system2_plan E fs s2 task obs = .ok p →
        step ∈ p.steps → step.kind = .SKILL → step.skill_id = .str s →
        regGet s2.reg s = some skill →
        is_shadow skill.spec = false) :=
  ⟨fun E fs cfg reg task obs d dir s skill h1 h2 h3 h4 h5 h6 h7 =>
      skillrouter_select_no_shadow E fs cfg reg task obs d dir s skill
        h1 h2 h3 h4 h5 h6 h7,
    fun E fs s2 task obs d h1 h2 h3 =>
      system2_plan_shadow_blocked E fs s2 task obs d h1 h2 h3,
    fun E fs s2 task obs p step s skill h1 h2 h3 h4 h5 h6 h7 =>
      system2_plan_skill_steps_sound E fs s2 task obs p step s skill
        h1 h2 h3 h4 h5 h6 h7⟩

/-- External-library oracle for the C8 scenario. -/
def extC8 : ExtLib :=
  ⟨fun _ => false, fun _ _ _ => false, fun _ => Option.none,
    fun _ => Option.none⟩

/-- An empty filesystem (no vocab files). -/
def fsEmpty : String → Option String := fun _ => Option.none

/-- A shadow-flagged skill with a matching keyword. -/
def shSkillC8 : SkillDef :=
  ⟨"sh", [("status", .str "shadow"),
    ("routing", .dict [("keywords", .list [.str "pay"])])]⟩

/-- The same skill without the shadow flag. -/
def okSkillC8 : SkillDef :=
  ⟨"ok", [("routing", .dict [("keywords", .list [.str "pay"])])]⟩

/-- System 2 wired to the shadow registry. -/
def s2C8 : System2M := { reg := [shSkillC8] }

/-- Witness for C8: the non-shadow twin is selected as "skill" (and is
provably non-shadow), while the shadow registry plans to a blocked,
step-less plan. -/
theorem claim_C8_shadow_never_executed_witness :
    is_shadow okSkillC8.spec = false ∧
    (∃ p, system2_plan extC8 fsEmpty s2C8 "pay bill" Option.none = .ok p ∧
      p.blocked = true ∧ p.steps = []) :=
  ⟨claim_C8_shadow_never_executed.1 extC8 fsEmpty {} [okSkillC8] "pay bill"
      Option.none ⟨"skill", some ⟨.str "ok", [], "keyword"⟩, "keyword"⟩
      ⟨.str "ok", [], "keyword"⟩ "ok" okSkillC8 rfl (by decide) (by decide)
      rfl rfl rfl (by decide),
    claim_C8_shadow_never_executed.2.1 extC8 fsEmpty s2C8 "pay bill"
      Option.none ⟨"shadow", some ⟨.str "sh", [], "keyword"⟩, "keyword"⟩
      (by decide) (by decide) rfl⟩




/-! ### C4: recovery and single retry of a failed plan step -/


/-- A failing SKILL step with a usable recovery: the recovery skill
runs, then the original step is retried exactly once; on retry success
the loop continues with the remaining steps (trace: original, recovery,
original). -/
theorem coordLoop_retry_success (cenv : CoordEnv) (rest : List PlanStep)
    (obs : Option Observation) (w : CoordWorld) (step rstep : PlanStep)
    (e : SkillError) (r0 r1 r2 : SkillRunResultM) (reason : String)
    (hk : step.kind = .SKILL)
    (hr0 : cenv.runAt w.runs = r0) (hr0f : r0.success = false)
    (hr0e : r0.error = some e) (htk : e.requires_takeover = false)
    (hrec : cenv.recoverFn e obs = ⟨"skill", some rstep, reason⟩)
    (hr1 : cenv.runAt (w.runs + 1) = r1) (hr1s : r1.success = true)
    (hr2 : cenv.runAt (w.runs + 2) = r2) (hr2s : r2.success = true) :
    coordLoop cenv true (step :: rest) obs w =
      coordLoop cenv true rest (cenv.captureAt w.captures)
        { runs := w.runs + 3
          captures := w.captures + 1
          intents := w.intents
          trace := w.trace ++ [.runEv step.skill_id step.inputs,
            .runEv rstep.skill_id rstep.inputs,
            .runEv step.skill_id step.inputs] } := by
  simp only [coordLoop, hk, coordRunSkill, coordSafeCapture, hr0, hr0f,
    hr0e, htk, hrec, hr1, hr1s, hr2, hr2s]
  norm_num

/-- Retry failure after a successful recovery stops the run with the
retry message (or "Task failed after recovery"). -/
theorem coordLoop_retry_failure (cenv : CoordEnv) (rest : List PlanStep)
    (obs : Option Observation) (w : CoordWorld) (step rstep : PlanStep)
    (e : SkillError) (r0 r1 r2 : SkillRunResultM) (reason : String)
    (hk : step.kind = .SKILL)
    (hr0 : cenv.runAt w.runs = r0) (hr0f : r0.success = false)
    (hr0e : r0.error = some e) (htk : e.requires_takeover = false)
    (hrec : cenv.recoverFn e obs = ⟨"skill", some rstep, reason⟩)
    (hr1 : cenv.runAt (w.runs + 1) = r1) (hr1s : r1.success = true)
    (hr2 : cenv.runAt (w.runs + 2) = r2) (hr2s : r2.success = false) :
    coordLoop cenv true (step :: rest) obs w =
      ({ runs := w.runs + 3
         captures := w.captures
         intents := w.intents
         trace := w.trace ++ [.runEv step.skill_id step.inputs,
           .runEv rstep.skill_id rstep.inputs,
           .runEv step.skill_id step.inputs] },
        msgOr r2.message "Task failed after recovery") := by
  simp only [coordLoop, hk, coordRunSkill, coordSafeCapture, hr0, hr0f,
    hr0e, htk, hrec, hr1, hr1s, hr2, hr2s]
  norm_num

/-- A failing recovery run stops immediately with its message (or
"Recovery failed") — the original step is not retried. -/
theorem coordLoop_recovery_failure (cenv : CoordEnv) (rest : List PlanStep)
    (obs : Option Observation) (w : CoordWorld) (step rstep : PlanStep)
    (e : SkillError) (r0 r1 : SkillRunResultM) (reason : String)
    (hk : step.kind = .SKILL)
    (hr0 : cenv.runAt w.runs = r0) (hr0f : r0.success = false)
    (hr0e : r0.error = some e) (htk : e.requires_takeover = false)
    (hrec : cenv.recoverFn e obs = ⟨"skill", some rstep, reason⟩)
    (hr1 : cenv.runAt (w.runs + 1) = r1) (hr1s : r1.success = false) :
    coordLoop cenv true (step :: rest) obs w =
      ({ runs := w.runs + 2
         captures := w.captures
         intents := w.intents
         trace := w.trace ++ [.runEv step.skill_id step.inputs,
           .runEv rstep.skill_id rstep.inputs] },
        msgOr r1.message "Recovery failed") := by
  simp only [coordLoop, hk, coordRunSkill, coordSafeCapture, hr0, hr0f,
    hr0e, htk, hrec, hr1, hr1s]
  norm_num

/-- A recovery decision with no usable skill step (and not "llm") stops
the run surfacing the original failure message. -/
theorem coordLoop_no_recovery (cenv : CoordEnv) (rest : List PlanStep)
    (obs : Option Observation) (w : CoordWorld) (step : PlanStep)
    (e : SkillError) (r0 : SkillRunResultM)
    (hk : step.kind = .SKILL)
    (hr0 : cenv.runAt w.runs = r0) (hr0f : r0.success = false)
    (hr0e : r0.error = some e) (htk : e.requires_takeover = false)
    (huse : (cenv.recoverFn e obs).action = "skill" →
      (cenv.recoverFn e obs).step = Option.none)
    (hllm : (cenv.recoverFn e obs).action ≠ "llm") :
    coordLoop cenv true (step :: rest) obs w =
      ({ runs := w.runs + 1
         captures := w.captures
         intents := w.intents
         trace := w.trace ++ [.runEv step.skill_id step.inputs] },
        msgOr r0.message "Task failed") := by
  simp only [coordLoop, hk, coordRunSkill, coordSafeCapture, hr0, hr0f,
    hr0e, htk]
  match hact : (cenv.recoverFn e obs).action == "skill",
      hst : (cenv.recoverFn e obs).step with
  | true, some rstep =>
      exact absurd ((huse (by simpa using hact)).symm.trans hst) (by simp)
  | true, Option.none => simp [hllm]
  | false, some rstep => simp [hllm]
  | false, Option.none => simp [hllm]

/-- All plan steps finished: the run returns "Task completed". -/
theorem coordLoop_nil (cenv : CoordEnv) (hasRunner : Bool)
    (obs : Option Observation) (w : CoordWorld) :
    coordLoop cenv hasRunner [] obs w = (w, "Task completed") := rfl

/-- C4: on a non-takeover SKILL-step failure, a usable recovery skill
is run; only on its success is the original step retried, exactly once
(the ghost trace shows original, recovery, original); retry success
continues the plan (and an exhausted plan yields "Task completed"),
retry failure stops the run; an unusable recovery stops the run
surfacing the original failure. -/
theorem claim_C4_recovery_retry_once :
    (∀ (cenv : CoordEnv) (rest : List PlanStep) (obs : Option Observation)
        (w : CoordWorld) (step rstep : PlanStep) (e : SkillError)
        (r0 r1 r2 : SkillRunResultM) (reason : String),
        step.kind = .SKILL →
        cenv.runAt w.runs = r0 → r0.success = false → r0.error = some e →
        e.requires_takeover = false →
        cenv.recoverFn e obs = ⟨"skill", some rstep, reason⟩ →
        cenv.runAt (w.runs + 1) = r1 → r1.success = true →
        cenv.runAt (w.runs + 2) = r2 → r2.success = true →
        coordLoop cenv true (step :: rest) obs w =
          coordLoop cenv true rest (cenv.captureAt w.captures)
            { runs := w.runs + 3
              captures := w.captures + 1
              intents := w.intents
              trace := w.trace ++ [.runEv step.skill_id step.inputs,
                .runEv rstep.skill_id rstep.inputs,
                .runEv step.skill_id step.inputs] }) ∧
    (∀ (cenv : CoordEnv) (rest : List PlanStep) (obs : Option Observation)
        (w : CoordWorld) (step rstep : PlanStep) (e : SkillError)
        (r0 r1 r2 : SkillRunResultM) (reason : String),
        step.kind = .SKILL →
        cenv.runAt w.runs = r0 → r0.success = false → r0.error = some e →
        e.requires_takeover = false →
        cenv.recoverFn e obs = ⟨"skill", some rstep, reason⟩ →
        cenv.runAt (w.runs + 1) = r1 → r1.success = true →
        cenv.runAt (w.runs + 2) = r2 → r2.success = false →
        coordLoop cenv true (step :: rest) obs w =
          ({ runs := w.runs + 3
             captures := w.captures
             intents := w.intents
             trace := w.trace ++ [.runEv step.skill_id step.inputs,
               .runEv rstep.skill_id rstep.inputs,
               .runEv step.skill_id step.inputs] },
            msgOr r2.message "Task failed after recovery")) ∧
    (∀ (cenv : CoordEnv) (rest : List PlanStep) (obs : Option Observation)
        (w : CoordWorld) (step rstep : PlanStep) (e : SkillError)
        (r0 r1 : SkillRunResultM) (reason : String),
        step.kind = .SKILL →
        cenv.runAt w.runs = r0 → r0.success = false → r0.error = some e →
        e.requires_takeover = false →
        cenv.recoverFn e obs = ⟨"skill", some rstep, reason⟩ →
        cenv.runAt (w.runs + 1) = r1 → r1.success = false →
        coordLoop cenv true (step :: rest) obs w =
          ({ runs := w.runs + 2
             captures := w.captures
             intents := w.intents
             trace := w.trace ++ [.runEv step.skill_id step.inputs,
               .runEv rstep.skill_id rstep.inputs] },
            msgOr r1.message "Recovery failed")) ∧
    (∀ (cenv : CoordEnv) (rest : List PlanStep) (obs : Option Observation)
        (w : CoordWorld) (step : PlanStep) (e : SkillError)
        (r0 : SkillRunResultM),
        step.kind = .SKILL →
        cenv.runAt w.runs = r0 → r0.success = false → r0.error = some e →
        e.requires_takeover = false →
        ((cenv.recoverFn e obs).action = "skill" →
          (cenv.recoverFn e obs).step = Option.none) →
        (cenv.recoverFn e obs).action ≠ "llm" →
        coordLoop cenv true (step :: rest) obs w =
          ({ runs := w.runs + 1
             captures := w.captures
             intents := w.intents
             trace := w.trace ++ [.runEv step.skill_id step.inputs] },
            msgOr r0.message "Task failed")) ∧
    (∀ (cenv : CoordEnv) (hasRunner : Bool) (obs : Option Observation)
        (w : CoordWorld),
        coordLoop cenv hasRunner [] obs w = (w, "Task completed")) :=
  ⟨fun cenv rest obs w step rstep e r0 r1 r2 reason h1 h2 h3 h4 h5 h6 h7 h8
      h9 h10 =>
      coordLoop_retry_success cenv rest obs w step rstep e r0 r1 r2 reason
        h1 h2 h3 h4 h5 h6 h7 h8 h9 h10,
    fun cenv rest obs w step rstep e r0 r1 r2 reason h1 h2 h3 h4 h5 h6 h7 h8
      h9 h10 =>
      coordLoop_retry_failure cenv rest obs w step rstep e r0 r1 r2 reason
        h1 h2 h3 h4 h5 h6 h7 h8 h9 h10,
    fun cenv rest obs w step rstep e r0 r1 reason h1 h2 h3 h4 h5 h6 h7 h8 =>
      coordLoop_recovery_failure cenv rest obs w step rstep e r0 r1 reason
        h1 h2 h3 h4 h5 h6 h7 h8,
    fun cenv rest obs w step e r0 h1 h2 h3 h4 h5 h6 h7 =>
      coordLoop_no_recovery cenv rest obs w step e r0 h1 h2 h3 h4 h5 h6 h7,
    fun cenv hasRunner obs w => coordLoop_nil cenv hasRunner obs w⟩

/-- The `TARGET_NOT_FOUND` failure of the C4 scenario. -/
def eC4 : SkillError :=
  ⟨.TARGET_NOT_FOUND, "Target not found", "target", some "s1", Option.none,
    some 1, [], false⟩

/-- The failing first run of the original step. -/
def failResC4 : SkillRunResultM := ⟨false, "Target not found", some eC4, [], []⟩

/-- The successful runs (recovery and retry). -/
def okResC4 : SkillRunResultM := ⟨true, "Skill completed", Option.none, [], []⟩

/-- System 2 with a registered recovery-role skill that the default
exception map assigns to `TARGET_NOT_FOUND`. -/
def s2C4 : System2M :=
  { reg := [⟨"adapt_ui_change", [("role", .str "recovery")]⟩,
      ⟨"book", [("steps", .list [])]⟩] }

/-- Coordinator environment: first run fails, later runs succeed;
recovery decided by the System 2 model. -/
def cenvC4 : CoordEnv :=
  { runAt := fun n => if n = 0 then failResC4 else okResC4
    captureAt := fun _ => Option.none
    intentAt := fun _ => true
    recoverFn := system2_recover s2C4 (fun _ _ _ => Option.none) }

/-- The original plan step. -/
def stepC4 : PlanStep := ⟨"skill_1", .SKILL, .str "book", [], "routing"⟩

/-- Witness for C4, end to end: a `TARGET_NOT_FOUND` failure maps to
the registered recovery skill, the recovery and the single retry both
succeed, and the overall result is "Task completed" with the trace
original-recovery-original. -/
theorem claim_C4_recovery_retry_once_witness :
    cenvC4.recoverFn eC4 Option.none =
      ⟨"skill", some ⟨"recovery_adapt_ui_change", .SKILL,
        .str "adapt_ui_change", [], "exception_recovery"⟩,
        "mapped_exception"⟩ ∧
    coordLoop cenvC4 true [stepC4] Option.none {} =
      ({ runs := 3
         captures := 1
         intents := 0
         trace := [.runEv (.str "book") [],
           .runEv (.str "adapt_ui_change") [],
           .runEv (.str "book") []] },
        "Task completed") :=
  ⟨by decide,
    (claim_C4_recovery_retry_once.1 cenvC4 [] Option.none {} stepC4
      ⟨"recovery_adapt_ui_change", .SKILL, .str "adapt_ui_change", [],
        "exception_recovery"⟩ eC4 failResC4 okResC4 okResC4
      "mapped_exception" rfl (by decide) rfl rfl rfl (by decide) (by decide)
      rfl (by decide) rfl).trans (by decide)⟩



/-! ### C5: takeover errors stop execution -/


/-- Every "escalate" outcome of `_handle_error` carries an error marked
`requires_takeover`. -/
theorem handle_error_escalate_takeover (env : Env) (cfg : SkillRunnerConfig)
    (error : SkillError) (step : Option PyDict) (spec : PyDict)
    (obs : Observation) (w w' : World) (o : HandlerOutcome)
    (h : handle_error env cfg error step spec obs w = .ok (w', o))
    (hres : o.resolution = "escalate") :
    ∃ e, o.error = some e ∧ e.requires_takeover = true := by
  rcases hf : find_error_handler env.ext cfg error step spec obs with ⟨h?, ro⟩
  match h? with
  | Option.none =>
      simp only [handle_error, hf] at h
      split_ifs at h with h1
      · obtain rfl : ({ resolution := "continue", error := Option.none } :
            HandlerOutcome) = o :=
          congrArg Prod.snd (Except.ok.inj h)
        simp at hres
      · obtain rfl : ({ resolution := "retry" } : HandlerOutcome) = o :=
          congrArg Prod.snd (Except.ok.inj h)
        simp at hres
  | some handler =>
      simp only [handle_error, hf] at h
      match hex : execute_handler_actions env cfg handler obs w with
      | .error c => rw [hex] at h; exact absurd h (by simp)
      | .ok (w1, success) =>
          rw [hex] at h
          match success with
          | false =>
              simp only [Bool.not_false, if_pos] at h
              obtain rfl : _ = o := congrArg Prod.snd (Except.ok.inj h)
              simp at hres
          | true =>
              simp only [Bool.not_true, Bool.false_eq_true, if_false] at h
              by_cases hesc : asStr (pyOr (dGetD handler "resolution" .none)
                  (.str "retry")) = "escalate"
              · simp only [hesc, if_pos] at h
                match hs : escalate_send env cfg
                    (dGetD handler "takeover_message"
                      (.str "User intervention required")) w1 with
                | .error c => rw [hs] at h; exact absurd h (by simp)
                | .ok w2 =>
                    rw [hs] at h
                    obtain rfl : _ = o := congrArg Prod.snd (Except.ok.inj h)
                    exact ⟨_, rfl, rfl⟩
              · simp only [hesc, if_neg, if_false] at h
                obtain rfl : _ = o := congrArg Prod.snd (Except.ok.inj h)
                simp only at hres
                exact absurd hres hesc

/-- The escalate verdict terminates the attempt loop with a failed step
and the outcome error — never a retry. -/
theorem applyVerdict_escalate_stops (env : Env) (p : RetryPolicy)
    (attempt : Int) (outcome : HandlerOutcome) (error : SkillError)
    (records : List StepAttemptRecord) (w : World) (obs : Observation)
    (hres : outcome.resolution = "escalate") :
    applyVerdict env p attempt outcome error records w obs =
      .finish w obs (.ret false (some (outcome.error.getD error))) records := by
  simp [applyVerdict, hres]

/-- Same for the guard-unknown verdict block. -/
theorem applyVerdictGuardUnknown_escalate_stops (env : Env) (p : RetryPolicy)
    (attempt : Int) (outcome : HandlerOutcome) (error : SkillError)
    (records : List StepAttemptRecord) (w : World) (obs : Observation)
    (hres : outcome.resolution = "escalate") :
    applyVerdictGuardUnknown env p attempt outcome error records w obs =
      .finish w obs (.ret false outcome.error) records := by
  simp [applyVerdictGuardUnknown, hres]

/-- A finishing attempt ends `_run_step` after exactly that attempt: no
further retry happens. -/
theorem run_step_go_finish_stops (env : Env) (cfg : SkillRunnerConfig)
    (step spec : PyDict) (p : RetryPolicy) (fuel : Nat) (attempt : Int)
    (prev : Option (HandlerOutcome × SkillError)) (w : World)
    (obs : Observation) (w1 : World) (obs1 : Observation) (ex : StepExit)
    (records : List StepAttemptRecord)
    (h : attempt_once env cfg step spec p (attempt + 1) prev w =
      .finish w1 obs1 ex records) :
    run_step_go env cfg step spec p (fuel + 1) attempt prev w obs =
      ⟨w1, obs1, ex, 1, records⟩ := by
  simp only [run_step_go, h]

/-- A skill result whose error is marked `requires_takeover` stops the
coordinator immediately, surfacing the message, with no recovery run,
no retry and no further steps (one run event in the trace). -/
theorem coordLoop_takeover_stops (cenv : CoordEnv) (rest : List PlanStep)
    (obs : Option Observation) (w : CoordWorld) (step : PlanStep)
    (e : SkillError) (r0 : SkillRunResultM)
    (hk : step.kind = .SKILL)
    (hr0 : cenv.runAt w.runs = r0) (hr0f : r0.success = false)
    (hr0e : r0.error = some e) (htk : e.requires_takeover = true) :
    coordLoop cenv true (step :: rest) obs w =
      ({ runs := w.runs + 1
         captures := w.captures
         intents := w.intents
         trace := w.trace ++ [.runEv step.skill_id step.inputs] },
        msgOr r0.message "Manual takeover required") := by
  simp only [coordLoop, hk, coordRunSkill, hr0, hr0f, hr0e, htk]
  norm_num

/-- On a takeover error the coordinator never consults System 2: the
result is the same for every recovery function. -/
theorem coordLoop_takeover_no_recover (cenv : CoordEnv)
    (f : SkillError → Option Observation → RecoveryDecision)
    (rest : List PlanStep) (obs : Option Observation) (w : CoordWorld)
    (step : PlanStep) (e : SkillError) (r0 : SkillRunResultM)
    (hk : step.kind = .SKILL)
    (hr0 : cenv.runAt w.runs = r0) (hr0f : r0.success = false)
    (hr0e : r0.error = some e) (htk : e.requires_takeover = true) :
    coordLoop { cenv with recoverFn := f } true (step :: rest) obs w =
      coordLoop cenv true (step :: rest) obs w := by
  rw [coordLoop_takeover_stops cenv rest obs w step e r0 hk hr0 hr0f hr0e htk,
    coordLoop_takeover_stops { cenv with recoverFn := f } rest obs w step e
      r0 hk hr0 hr0f hr0e htk]


/-- C5: an error marked `requires_takeover` always stops execution.  In
the runner, the escalate resolution marks the error `requires_takeover`
and the escalate verdict ends the step with no further retry (a
finishing attempt ends the attempt loop at once).  In the coordinator,
a run result with a takeover error stops the run immediately with the
message, without asking System 2 for recovery (the outcome is
independent of the recovery function) and without running anything
else. -/
theorem claim_C5_takeover_stops_execution :
    (∀ (env : Env) (cfg : SkillRunnerConfig) (error : SkillError)
        (step : Option PyDict) (spec : PyDict) (obs : Observation)
        (w w' : World) (o : HandlerOutcome),
        handle_error env cfg error step spec obs w = .ok (w', o) →
        o.resolution = "escalate" →
        ∃ e, o.error = some e ∧ e.requires_takeover = true) ∧
    (∀ (env : Env) (p : RetryPolicy) (attempt : Int)
        (outcome : HandlerOutcome) (error : SkillError)
        (records : List StepAttemptRecord) (w : World) (obs : Observation),
        outcome.resolution = "escalate" →
        applyVerdict env p attempt outcome error records w obs =
          .finish w obs (.ret false (some (outcome.error.getD error)))
            records) ∧
    (∀ (env : Env) (p : RetryPolicy) (attempt : Int)
        (outcome : HandlerOutcome) (error : SkillError)
        (records : List StepAttemptRecord) (w : World) (obs : Observation),
        outcome.resolution = "escalate" →
        applyVerdictGuardUnknown env p attempt outcome error records w obs =
          .finish w obs (.ret false outcome.error) records) ∧
    (∀ (env : Env) (cfg : SkillRunnerConfig) (step spec : PyDict)
        (p : RetryPolicy) (fuel : Nat) (attempt : Int)
        (prev : Option (HandlerOutcome × SkillError)) (w : World)
        (obs : Observation) (w1 : World) (obs1 : Observation)
        (ex : StepExit) (records : List StepAttemptRecord),
        attempt_once env cfg step spec p (attempt + 1) prev w =
          .finish w1 obs1 ex records →
        run_step_go env cfg step spec p (fuel + 1) attempt prev w obs =
          ⟨w1, obs1, ex, 1, records⟩) ∧
    (∀ (cenv : CoordEnv) (rest : List PlanStep) (obs : Option Observation)
        (w : CoordWorld) (step : PlanStep) (e : SkillError)
        (r0 : SkillRunResultM),
        step.kind = .SKILL →
        cenv.runAt w.runs = r0 → r0.success = false → r0.error = some e →
        e.requires_takeover = true →
        coordLoop cenv true (step :: rest) obs w =
          ({ runs := w.runs + 1
             captures := w.captures
             intents := w.intents
             trace := w.trace ++ [.runEv step.skill_id step.inputs] },
            msgOr r0.message "Manual takeover required")) ∧
    (∀ (cenv : CoordEnv)
        (f : SkillError → Option Observation → RecoveryDecision)
        (rest : List PlanStep) (obs : Option Observation) (w : CoordWorld)
        (step : PlanStep) (e : SkillError) (r0 : SkillRunResultM),
        step.kind = .SKILL →
        cenv.runAt w.runs = r0 → r0.success = false → r0.error = some e →
        e.requires_takeover = true →
        coordLoop { cenv with recoverFn := f } true (step :: rest) obs w =
          coordLoop cenv true (step :: rest) obs w) :=
  ⟨fun env cfg error step spec obs w w' o h hres =>
      handle_error_escalate_takeover env cfg error step spec obs w w' o h
        hres,
    fun env p attempt outcome error records w obs hres =>
      applyVerdict_escalate_stops env p attempt outcome error records w obs
        hres,
    fun env p attempt outcome error records w obs hres =>
      applyVerdictGuardUnknown_escalate_stops env p attempt outcome error
        records w obs hres,
    fun env cfg step spec p fuel attempt prev w obs w1 obs1 ex records h =>
      run_step_go_finish_stops env cfg step spec p fuel attempt prev w obs
        w1 obs1 ex records h,
    fun cenv rest obs w step e r0 h1 h2 h3 h4 h5 =>
      coordLoop_takeover_stops cenv rest obs w step e r0 h1 h2 h3 h4 h5,
    fun cenv f rest obs w step e r0 h1 h2 h3 h4 h5 =>
      coordLoop_takeover_no_recover cenv f rest obs w step e r0 h1 h2 h3 h4
        h5⟩

/-- The error routed to the escalate handler in the C5 witness. -/
def eC5 : SkillError :=
  ⟨.ACTION_FAILED, "boom", "action", some "s1", Option.none, some 1, [],
    false⟩

/-- A spec whose only handler declares the escalate resolution. -/
def specC5 : PyDict :=
  [("error_handlers", .list [.dict [("resolution", .str "escalate")]])]

/-- `eC5` as the escalate outcome returns it: takeover details merged
and `requires_takeover` set. -/
def tkErrC5 : SkillError :=
  { eC5 with
      details := [("takeover_message", .str "User intervention required")]
      requires_takeover := true }

/-- A skill run result carrying the takeover error. -/
def tkResC5 : SkillRunResultM := ⟨false, "", some tkErrC5, [], []⟩

/-- Coordinator environment whose every run reports the takeover error
and whose recovery function would offer a skill (never consulted). -/
def cenvC5 : CoordEnv :=
  { runAt := fun _ => tkResC5
    captureAt := fun _ => Option.none
    intentAt := fun _ => true
    recoverFn := fun _ _ => ⟨"skill",
      some ⟨"recovery_x", .SKILL, .str "x", [], "r"⟩, "r"⟩ }

/-- The C5 plan step. -/
def stepC5 : PlanStep := ⟨"skill_1", .SKILL, .str "pay", [], "routing"⟩

/-- Witness for C5: the concrete escalate outcome carries a takeover
error, and the coordinator stops after the single run with "Manual
takeover required". -/
theorem claim_C5_takeover_stops_execution_witness :
    (∃ e, (({ resolution := "escalate", error := some tkErrC5 } :
        HandlerOutcome)).error = some e ∧ e.requires_takeover = true) ∧
    coordLoop cenvC5 true [stepC5] Option.none {} =
      ({ runs := 1
         captures := 0
         intents := 0
         trace := [.runEv (.str "pay") []] },
        "Manual takeover required") :=
  ⟨claim_C5_takeover_stops_execution.1 testEnv { dry_run := true } eC5
      Option.none specC5 testObs {} {}
      { resolution := "escalate", error := some tkErrC5 } (by decide) rfl,
    (claim_C5_takeover_stops_execution.2.2.2.2.1 cenvC5 [] Option.none {}
      stepC5 tkErrC5 tkResC5 rfl rfl rfl rfl rfl).trans (by decide)⟩


end GLM
